import Mathlib

/-!
MyPaint brush dynamics engine (`brush.hpp`): shallow embedding.

The class `Brush` of `brush.hpp` is embedded as a record `Brush α` over a
linearly ordered field `α` standing for the C types `float` and `double`
(arithmetic is exact: rounding, infinities and NaN are not represented, and a
division by zero yields `0` as in every Lean field; the one division by zero
whose result the code uses, line 361, is spelled out in `dab_opacity`).
Member functions become functions on that record.  Everything `brush.hpp`
calls but does not define (libm, GLib, the Python C API, the tile backend, the
colour helpers) is a field of the record `Env α`.

Where the behaviour of the code depends on the rounding of `float` and
`double` (the cursor block, `brush_count_dabs_to`, the dab loop and the store
of `states[STATE_DIST]`), a second embedding, with the suffix `_fp`, follows
every arithmetic operation by the rounding of its C type; IEEE 754 binary32
and binary64 are defined on `ℚ` (`binary32`, `binary64`).  With the identity
as rounding the second embedding is the first (`any_surface_stroke_to_fp_id`).
-/

namespace MyPaint

/-- Input channels of a mapping: the `INPUT_*` ordinals used by `brush.hpp`. -/
inductive Input where
  | INPUT_PRESSURE
  | INPUT_SPEED1
  | INPUT_SPEED2
  | INPUT_RANDOM
  | INPUT_STROKE
  | INPUT_ANGLE
  | INPUT_CUSTOM
  deriving DecidableEq

/-- Brush settings: the `BRUSH_*` ordinals that `brush.hpp` names. -/
inductive BrushSetting where
  | BRUSH_OPAQUE
  | BRUSH_OPAQUE_MULTIPLY
  | BRUSH_OPAQUE_LINEARIZE
  | BRUSH_RADIUS_LOGARITHMIC
  | BRUSH_HARDNESS
  | BRUSH_DABS_PER_BASIC_RADIUS
  | BRUSH_DABS_PER_ACTUAL_RADIUS
  | BRUSH_DABS_PER_SECOND
  | BRUSH_RADIUS_BY_RANDOM
  | BRUSH_SPEED1_SLOWNESS
  | BRUSH_SPEED2_SLOWNESS
  | BRUSH_SPEED1_GAMMA
  | BRUSH_SPEED2_GAMMA
  | BRUSH_OFFSET_BY_RANDOM
  | BRUSH_OFFSET_BY_SPEED
  | BRUSH_OFFSET_BY_SPEED_SLOWNESS
  | BRUSH_SLOW_TRACKING
  | BRUSH_SLOW_TRACKING_PER_DAB
  | BRUSH_TRACKING_NOISE
  | BRUSH_COLOR_H
  | BRUSH_COLOR_S
  | BRUSH_COLOR_V
  | BRUSH_CHANGE_COLOR_H
  | BRUSH_CHANGE_COLOR_L
  | BRUSH_CHANGE_COLOR_HSL_S
  | BRUSH_CHANGE_COLOR_V
  | BRUSH_CHANGE_COLOR_HSV_S
  | BRUSH_SMUDGE
  | BRUSH_SMUDGE_LENGTH
  | BRUSH_STROKE_TRESHOLD
  | BRUSH_STROKE_DURATION_LOGARITHMIC
  | BRUSH_STROKE_HOLDTIME
  | BRUSH_CUSTOM_INPUT
  | BRUSH_CUSTOM_INPUT_SLOWNESS
  deriving DecidableEq

/-- Brush states: the `STATE_*` ordinals, index set of `states[STATE_COUNT]`. -/
inductive State where
  | STATE_X
  | STATE_Y
  | STATE_PRESSURE
  | STATE_DIST
  | STATE_ACTUAL_X
  | STATE_ACTUAL_Y
  | STATE_ACTUAL_RADIUS
  | STATE_NORM_SPEED1_SLOW
  | STATE_NORM_SPEED2_SLOW
  | STATE_NORM_DX_SLOW
  | STATE_NORM_DY_SLOW
  | STATE_STROKE
  | STATE_STROKE_STARTED
  | STATE_CUSTOM_INPUT
  | STATE_SMUDGE_R
  | STATE_SMUDGE_G
  | STATE_SMUDGE_B
  | STATE_SMUDGE_A
  deriving DecidableEq

open Input BrushSetting State

/-- Modelled from the spec: the order of the state fields in `states[]` (the
header that numbers the `STATE_*` ordinals is not part of the sources; the
order is the one of the data model, section 3). -/
def stateOrder : List State :=
  [STATE_X, STATE_Y, STATE_PRESSURE, STATE_DIST, STATE_ACTUAL_X, STATE_ACTUAL_Y,
   STATE_ACTUAL_RADIUS, STATE_NORM_SPEED1_SLOW, STATE_NORM_SPEED2_SLOW,
   STATE_NORM_DX_SLOW, STATE_NORM_DY_SLOW, STATE_STROKE, STATE_STROKE_STARTED,
   STATE_CUSTOM_INPUT, STATE_SMUDGE_R, STATE_SMUDGE_G, STATE_SMUDGE_B, STATE_SMUDGE_A]

/-- The constant `STATE_COUNT`. -/
def STATE_COUNT : Nat := stateOrder.length

/-- The integer rectangle `Rect` (empty iff `w = 0`). -/
structure Rect where
  x : Int
  y : Int
  w : Int
  h : Int
  deriving DecidableEq

/-- One call of `tile_draw_dab`: the arguments after `rc`. -/
structure Dab (α : Type) where
  x : α
  y : α
  radius : α
  r : Int
  g : Int
  b : Int
  opacity : α
  hardness : α

/-- The `RenderContext`: the borrowed surface (an abstract surface state) and
the bounding box of this call.  `dabs` is a ghost log of the `tile_draw_dab`
calls made through this context, newest last, and `results` the log of what
these calls returned (zero: nothing was drawn). -/
structure RenderContext (α : Type) where
  tiled_surface : Nat
  bbox : Rect
  dabs : List (Dab α)
  results : List Int

/-- Why a run of the model stops without returning: a failed `assert` or
`g_assert` aborts the process; `out_of_fuel` is the model's bound on the
iterations of the dab loop; `out_of_bounds` is an access outside an array,
which only a build with the assertions compiled out can reach. -/
inductive Fault where
  | assertion_failed
  | out_of_fuel
  | out_of_bounds
  deriving DecidableEq

/-- What `brush.hpp` uses and does not define.  `NDEBUG` and `G_DISABLE_ASSERT`
are the build switches that compile `assert` and `g_assert` away.  The random
source is a state in `Nat`; a draw returns the value and the next state.  The
Python interpreter is a state in `Nat`; `PyEval_CallObject` returns whether the
result is non-NULL and the next interpreter state. -/
structure Env (α : Type) where
  NDEBUG : Bool
  G_DISABLE_ASSERT : Bool
  exp : α → α
  expf : α → α
  log : α → α
  sqrt : α → α
  sqrtf : α → α
  powf : α → α → α
  atan2f : α → α → α
  fmodf : α → α → α
  M_PI : α
  g_rand_double : Nat → α × Nat
  rand_gauss : Nat → α × Nat
  rgb_to_hsv_float : α × α × α → α × α × α
  hsv_to_rgb_float : α × α × α → α × α × α
  rgb_to_hsl_float : α × α × α → α × α × α
  hsl_to_rgb_float : α × α × α → α × α × α
  hsv_to_rgb_int : Int × Int × Int → Int × Int × Int
  ROUND : α → Int
  tile_get_color : Nat → Int → Int → α → α × α × α × α
  tile_draw_dab : Nat → Rect → Dab α → Int × Nat × Rect
  ExpandRectToIncludePoint : Rect → Int → Int → Rect
  PyEval_CallObject : Nat → Nat → Bool × Nat
  float_bits : α → Nat
  bits_float : Nat → α

/-- Modelled from the spec: the `Mapping` of mapping.h, which is not part of the
sources: a base value and, for each input, a piecewise-linear curve given by
its control points (section 3). -/
structure Mapping (α : Type) where
  base_value : α
  points : Input → List (α × α)

variable {α : Type} [LinearOrderedField α] [FloorRing α]

/-- Modelled from the spec: one curve of a mapping (mapping.h is not part of
the sources).  Piecewise linear over the control points; below the first point
or above the last it takes the value of the nearest endpoint; an empty curve
contributes 0 (section 4.2). -/
def curve : List (α × α) → α → α
  | [], _ => 0
  | [p], _ => p.2
  | p0 :: p1 :: rest, x =>
    if x ≤ p0.1 then p0.2
    else if x ≤ p1.1 then p0.2 + (p1.2 - p0.2) * (x - p0.1) / (p1.1 - p0.1)
    else curve (p1 :: rest) x

/-- Modelled from the spec: `mapping_calculate` of mapping.h, which is not part
of the sources: `base_value + Σ_i curve(s,i)(inputs[i])` (section 4.2). -/
def mapping_calculate (m : Mapping α) (inputs : Input → α) : α :=
  m.base_value + (curve (m.points INPUT_PRESSURE) (inputs INPUT_PRESSURE)
    + curve (m.points INPUT_SPEED1) (inputs INPUT_SPEED1)
    + curve (m.points INPUT_SPEED2) (inputs INPUT_SPEED2)
    + curve (m.points INPUT_RANDOM) (inputs INPUT_RANDOM)
    + curve (m.points INPUT_STROKE) (inputs INPUT_STROKE)
    + curve (m.points INPUT_ANGLE) (inputs INPUT_ANGLE)
    + curve (m.points INPUT_CUSTOM) (inputs INPUT_CUSTOM))

/-- Modelled from the spec: `mapping_new` of mapping.h, which is not part of the
sources: a new mapping has the default base value 0 and no control points. -/
def mapping_new : Mapping α := ⟨0, fun _ => []⟩

/-- The macro `ACTUAL_RADIUS_MIN` (0.2). -/
def ACTUAL_RADIUS_MIN : α := 2 / 10

/-- The macro `ACTUAL_RADIUS_MAX`. -/
def ACTUAL_RADIUS_MAX : α := 150

/-- The helper macro `SQR`. -/
def SQR (x : α) : α := x * x

/-- The C conversion of a floating value to `int`: truncation toward zero. -/
def c_int (x : α) : Int := if 0 ≤ x then ⌊x⌋ else ⌈x⌉

/-- GLib's `CLAMP(x, low, high)` on `int`. -/
def CLAMP (x low high : Int) : Int := if x > high then high else if x < low then low else x

/-- The class `Brush`.  `dx, dy, dpressure, dtime` are the four convenience
members of line 59.  The two-element caches `speed_mapping_*` are indexed by
0 and 1.  The callback slot holds an abstract callable.  Ghost fields: `py` is
the interpreter state, `callback_calls` counts the calls of the host callback
and `split_calls` the calls of `split_stroke`. -/
structure Brush (α : Type) where
  rng : Nat
  dx : α
  dy : α
  dpressure : α
  dtime : α
  settings_value : BrushSetting → α
  settings : BrushSetting → Mapping α
  print_inputs : Bool
  stroke_bbox : Rect
  stroke_total_painting_time : α
  stroke_idling_time : α
  states : State → α
  exception : Bool
  speed_mapping_gamma : Nat → α
  speed_mapping_m : Nat → α
  speed_mapping_q : Nat → α
  split_stroke_callback : Option Nat
  py : Nat
  callback_calls : Nat
  split_calls : Nat

/-- The standard `assert(c)`: nothing under `NDEBUG`, else abort unless `c`. -/
def c_assert (E : Env α) (c : Prop) [Decidable c] : Except Fault Unit :=
  if E.NDEBUG = true ∨ c then .ok () else .error Fault.assertion_failed

/-- GLib's `g_assert(c)`: nothing under `G_DISABLE_ASSERT`, else abort unless `c`. -/
def g_assert (E : Env α) (c : Prop) [Decidable c] : Except Fault Unit :=
  if E.G_DISABLE_ASSERT = true ∨ c then .ok () else .error Fault.assertion_failed

/-- `Brush::exp_decay` (lines 135-143). -/
def exp_decay (E : Env α) (T_const t : α) : α :=
  if T_const ≤ 1 / 1000 then 0 else E.exp (-t / T_const)

/-- One iteration `i` of the loop of `settings_base_values_have_changed`. -/
def speed_mapping_step (E : Env α) (b : Brush α) (i : Nat) : Brush α :=
  let gamma := (b.settings (if i = 0 then BRUSH_SPEED1_GAMMA else BRUSH_SPEED2_GAMMA)).base_value
  let gamma := E.exp gamma
  let fix1_x : α := 45
  let fix1_y : α := 1 / 2
  let fix2_x : α := 45
  let fix2_dy : α := 15 / 1000
  let c1 := E.log (fix1_x + gamma)
  let m := fix2_dy * (fix2_x + gamma)
  let q := fix1_y - m * c1
  { b with
    speed_mapping_gamma := Function.update b.speed_mapping_gamma i gamma
    speed_mapping_m := Function.update b.speed_mapping_m i m
    speed_mapping_q := Function.update b.speed_mapping_q i q }

/-- `Brush::settings_base_values_have_changed` (lines 146-190): `for (i=0; i<2; i++)`. -/
def settings_base_values_have_changed (E : Env α) (b : Brush α) : Brush α :=
  speed_mapping_step E (speed_mapping_step E b 0) 1

/-- `Brush::split_stroke` (lines 722-743). -/
def split_stroke (E : Env α) (b : Brush α) : Brush α :=
  let b := { b with split_calls := b.split_calls + 1 }
  let b :=
    match b.split_stroke_callback with
    | some cb =>
      let res := E.PyEval_CallObject cb b.py
      let b := { b with py := res.2, callback_calls := b.callback_calls + 1 }
      if res.1 = false then { b with exception := true } else b
    | none => b
  { b with
    stroke_idling_time := 0
    stroke_total_painting_time := 0
    stroke_bbox := ⟨0, 0, 0, 0⟩ }

/-- `Brush::set_split_stroke_callback` (lines 715-720). -/
def set_split_stroke_callback (b : Brush α) (callback : Nat) : Brush α :=
  { b with split_stroke_callback := some callback }

/-- `Brush::brush_count_dabs_to` (lines 490-521): returns the count and the
brush, whose `STATE_ACTUAL_RADIUS` the function repairs in place. -/
def brush_count_dabs_to (E : Env α) (b : Brush α) (x y _pressure dt : α) : α × Brush α :=
  let st := b.states
  let st := if st STATE_ACTUAL_RADIUS = 0
    then Function.update st STATE_ACTUAL_RADIUS (E.expf (b.settings BRUSH_RADIUS_LOGARITHMIC).base_value)
    else st
  let st := if st STATE_ACTUAL_RADIUS < ACTUAL_RADIUS_MIN
    then Function.update st STATE_ACTUAL_RADIUS ACTUAL_RADIUS_MIN else st
  let st := if st STATE_ACTUAL_RADIUS > ACTUAL_RADIUS_MAX
    then Function.update st STATE_ACTUAL_RADIUS ACTUAL_RADIUS_MAX else st
  let base_radius := E.expf (b.settings BRUSH_RADIUS_LOGARITHMIC).base_value
  let base_radius := if base_radius < ACTUAL_RADIUS_MIN then ACTUAL_RADIUS_MIN else base_radius
  let base_radius := if base_radius > ACTUAL_RADIUS_MAX then ACTUAL_RADIUS_MAX else base_radius
  let dx := x - st STATE_X
  let dy := y - st STATE_Y
  let dist := E.sqrtf (dx * dx + dy * dy)
  let res1 := dist / st STATE_ACTUAL_RADIUS * (b.settings BRUSH_DABS_PER_ACTUAL_RADIUS).base_value
  let res2 := dist / base_radius * (b.settings BRUSH_DABS_PER_BASIC_RADIUS).base_value
  let res3 := dt * (b.settings BRUSH_DABS_PER_SECOND).base_value
  (res1 + res2 + res3, { b with states := st })

/-- The pressure clamp of `brush_update_settings_values` (lines 218-219). -/
def clamp_pressure (st : State → α) : State → α :=
  let st := if st STATE_PRESSURE < 0 then Function.update st STATE_PRESSURE 0 else st
  if st STATE_PRESSURE > 1 then Function.update st STATE_PRESSURE 1 else st

/-- The block "start / end stroke" of `brush_update_settings_values` (lines
223-238); `treshold` is the base value of `BRUSH_STROKE_TRESHOLD`. -/
def stroke_start_end (treshold pressure : α) (st : State → α) : State → α :=
  if st STATE_STROKE_STARTED = 0 then
    if pressure > treshold + 1 / 10000 then
      Function.update (Function.update st STATE_STROKE_STARTED 1) STATE_STROKE 0
    else st
  else
    if pressure ≤ treshold * (9 / 10) + 1 / 10000 then
      Function.update st STATE_STROKE_STARTED 0
    else st

/-- The `inputs[]` array of `brush_update_settings_values` (lines 248-255);
`rnd` is the value drawn with `g_rand_double`. -/
def brush_inputs (E : Env α) (b : Brush α) (st : State → α) (pressure rnd : α) : Input → α :=
  fun i =>
    match i with
    | INPUT_PRESSURE => pressure
    | INPUT_SPEED1 =>
      E.log (b.speed_mapping_gamma 0 + st STATE_NORM_SPEED1_SLOW) * b.speed_mapping_m 0
        + b.speed_mapping_q 0
    | INPUT_SPEED2 =>
      E.log (b.speed_mapping_gamma 1 + st STATE_NORM_SPEED2_SLOW) * b.speed_mapping_m 1
        + b.speed_mapping_q 1
    | INPUT_RANDOM => rnd
    | INPUT_STROKE => if st STATE_STROKE < 1 then st STATE_STROKE else 1
    | INPUT_ANGLE =>
      E.fmodf (E.atan2f (st STATE_NORM_DY_SLOW) (st STATE_NORM_DX_SLOW) / E.M_PI + 1) 1
    | INPUT_CUSTOM => st STATE_CUSTOM_INPUT

/-- The low-pass blocks of `brush_update_settings_values` (lines 269-293):
slow tracking per dab, the two slow speeds, the slow speed vector, the custom
input. -/
def advance_slow_states (E : Env α) (sv : BrushSetting → α) (norm_dx norm_dy norm_speed dtime : α)
    (st : State → α) : State → α :=
  let fac := 1 - exp_decay E (sv BRUSH_SLOW_TRACKING_PER_DAB) 1
  let st := Function.update st STATE_ACTUAL_X
    (st STATE_ACTUAL_X + (st STATE_X - st STATE_ACTUAL_X) * fac)
  let st := Function.update st STATE_ACTUAL_Y
    (st STATE_ACTUAL_Y + (st STATE_Y - st STATE_ACTUAL_Y) * fac)
  -- slow speed
  let fac := 1 - exp_decay E (sv BRUSH_SPEED1_SLOWNESS) dtime
  let st := Function.update st STATE_NORM_SPEED1_SLOW
    (st STATE_NORM_SPEED1_SLOW + (norm_speed - st STATE_NORM_SPEED1_SLOW) * fac)
  let fac := 1 - exp_decay E (sv BRUSH_SPEED2_SLOWNESS) dtime
  let st := Function.update st STATE_NORM_SPEED2_SLOW
    (st STATE_NORM_SPEED2_SLOW + (norm_speed - st STATE_NORM_SPEED2_SLOW) * fac)
  -- slow speed, but as vector this time
  let fac := 1 - exp_decay E (E.exp (sv BRUSH_OFFSET_BY_SPEED_SLOWNESS * (1 / 100)) - 1) dtime
  let st := Function.update st STATE_NORM_DX_SLOW
    (st STATE_NORM_DX_SLOW + (norm_dx - st STATE_NORM_DX_SLOW) * fac)
  let st := Function.update st STATE_NORM_DY_SLOW
    (st STATE_NORM_DY_SLOW + (norm_dy - st STATE_NORM_DY_SLOW) * fac)
  -- custom input
  let fac := 1 - exp_decay E (sv BRUSH_CUSTOM_INPUT_SLOWNESS) (1 / 10)
  Function.update st STATE_CUSTOM_INPUT
    (st STATE_CUSTOM_INPUT + (sv BRUSH_CUSTOM_INPUT - st STATE_CUSTOM_INPUT) * fac)

/-- The block "stroke length" of `brush_update_settings_values` (lines 295-315). -/
def stroke_length (E : Env α) (sv : BrushSetting → α) (norm_dist : α) (st : State → α) :
    Except Fault (State → α) :=
  let frequency := E.expf (-(sv BRUSH_STROKE_DURATION_LOGARITHMIC))
  let st := Function.update st STATE_STROKE (st STATE_STROKE + norm_dist * frequency)
  let st := if st STATE_STROKE < 0 then Function.update st STATE_STROKE 0 else st
  let wrap := 1 + sv BRUSH_STROKE_HOLDTIME
  if st STATE_STROKE > wrap then
    if wrap > 99 / 10 + 1 then
      pure (Function.update st STATE_STROKE 1)
    else do
      let st := Function.update st STATE_STROKE (E.fmodf (st STATE_STROKE) wrap)
      c_assert E (st STATE_STROKE ≥ 0)
      pure st
  else pure st

/-- The block "calculate final radius" of `brush_update_settings_values`
(lines 317-322). -/
def final_radius (E : Env α) (sv : BrushSetting → α) (st : State → α) : State → α :=
  let radius_log := sv BRUSH_RADIUS_LOGARITHMIC
  let st := Function.update st STATE_ACTUAL_RADIUS (E.expf radius_log)
  let st := if st STATE_ACTUAL_RADIUS < ACTUAL_RADIUS_MIN
    then Function.update st STATE_ACTUAL_RADIUS ACTUAL_RADIUS_MIN else st
  if st STATE_ACTUAL_RADIUS > ACTUAL_RADIUS_MAX
    then Function.update st STATE_ACTUAL_RADIUS ACTUAL_RADIUS_MAX else st

/-- `Brush::brush_update_settings_values` (lines 201-323).  It reads the
members `dx`, `dy`, `dtime` of the brush. -/
def brush_update_settings_values (E : Env α) (b : Brush α) : Except Fault (Brush α) := do
  let dtime : α :=
    if b.dtime < 0 then 1 / 100000 else if b.dtime = 0 then 1 / 100000 else b.dtime
  let base_radius := E.expf (b.settings BRUSH_RADIUS_LOGARITHMIC).base_value
  let st := clamp_pressure b.states
  g_assert E (st STATE_PRESSURE ≥ 0 ∧ st STATE_PRESSURE ≤ 1)
  let pressure := st STATE_PRESSURE
  let st := stroke_start_end (b.settings BRUSH_STROKE_TRESHOLD).base_value pressure st
  -- now follows input handling
  let norm_dx := b.dx / dtime / base_radius
  let norm_dy := b.dy / dtime / base_radius
  let norm_speed := E.sqrt (SQR norm_dx + SQR norm_dy)
  let norm_dist := norm_speed * dtime
  let rnd := E.g_rand_double b.rng
  let inputs := brush_inputs E b st pressure rnd.1
  c_assert E (inputs INPUT_SPEED1 ≥ 0 ∧ inputs INPUT_SPEED1 < 100000000)
  let settings_value : BrushSetting → α := fun i => mapping_calculate (b.settings i) inputs
  let st := advance_slow_states E settings_value norm_dx norm_dy norm_speed dtime st
  let st ← stroke_length E settings_value norm_dist st
  let st := final_radius E settings_value st
  pure { b with dtime := dtime, rng := rnd.2, settings_value := settings_value, states := st }

/-- The opacity of a dab before the radius compensation
(`brush_prepare_and_draw_dab`, lines 335-364).  At `dabs_per_pixel == 0` the
quotient `1.0/dabs_per_pixel` of line 361 is `+inf` in C, and
`powf (beta, +inf)` is 0 for `beta < 1` and 1 for `beta == 1` (`beta` lies in
`[0, 1]` after the two clamps); this case is spelled out because a field has
no infinite element. -/
def dab_opacity (E : Env α) (b : Brush α) : α :=
  let sv := b.settings_value
  let opa := sv BRUSH_OPAQUE * sv BRUSH_OPAQUE_MULTIPLY
  let opa := if opa ≥ 1 then 1 else opa
  let opa := if opa ≤ 0 then 0 else opa
  if sv BRUSH_OPAQUE_LINEARIZE ≠ 0 then
    let dabs_per_pixel :=
      ((b.settings BRUSH_DABS_PER_ACTUAL_RADIUS).base_value
        + (b.settings BRUSH_DABS_PER_BASIC_RADIUS).base_value) * 2
    let dabs_per_pixel := if dabs_per_pixel < 1 then 1 else dabs_per_pixel
    let dabs_per_pixel :=
      1 + (b.settings BRUSH_OPAQUE_LINEARIZE).base_value * (dabs_per_pixel - 1)
    let alpha := opa
    let beta := 1 - alpha
    let beta_dab :=
      if dabs_per_pixel = 0 then (if beta < 1 then 0 else 1)
      else E.powf beta (1 / dabs_per_pixel)
    let alpha_dab := 1 - beta_dab
    alpha_dab
  else opa

/-- The position of a dab (`brush_prepare_and_draw_dab`, lines 366-379):
`x`, `y` and the random source after the optional two Gaussian draws. -/
def dab_position (E : Env α) (b : Brush α) : α × α × Nat :=
  let sv := b.settings_value
  let st := b.states
  let x := st STATE_ACTUAL_X
  let y := st STATE_ACTUAL_Y
  let base_radius := E.expf (b.settings BRUSH_RADIUS_LOGARITHMIC).base_value
  let x := if sv BRUSH_OFFSET_BY_SPEED ≠ 0
    then x + st STATE_NORM_DX_SLOW * sv BRUSH_OFFSET_BY_SPEED * (1 / 10) * base_radius else x
  let y := if sv BRUSH_OFFSET_BY_SPEED ≠ 0
    then y + st STATE_NORM_DY_SLOW * sv BRUSH_OFFSET_BY_SPEED * (1 / 10) * base_radius else y
  let g1 := E.rand_gauss b.rng
  let g2 := E.rand_gauss g1.2
  let x := if sv BRUSH_OFFSET_BY_RANDOM ≠ 0
    then x + g1.1 * sv BRUSH_OFFSET_BY_RANDOM * base_radius else x
  let y := if sv BRUSH_OFFSET_BY_RANDOM ≠ 0
    then y + g2.1 * sv BRUSH_OFFSET_BY_RANDOM * base_radius else y
  (x, y, if sv BRUSH_OFFSET_BY_RANDOM ≠ 0 then g2.2 else b.rng)

/-- The radius of a dab and the opacity after the radius compensation
(`brush_prepare_and_draw_dab`, lines 382-396): radius, opacity and the random
source after the optional Gaussian draw. -/
def dab_radius (E : Env α) (b : Brush α) (opa : α) (rng : Nat) : α × α × Nat :=
  let sv := b.settings_value
  let st := b.states
  if sv BRUSH_RADIUS_BY_RANDOM ≠ 0 then
    let g := E.rand_gauss rng
    let radius_log := sv BRUSH_RADIUS_LOGARITHMIC
    let radius_log := radius_log + g.1 * sv BRUSH_RADIUS_BY_RANDOM
    let radius := E.expf radius_log
    let radius := if radius < ACTUAL_RADIUS_MIN then ACTUAL_RADIUS_MIN else radius
    let radius := if radius > ACTUAL_RADIUS_MAX then ACTUAL_RADIUS_MAX else radius
    let alpha_correction := st STATE_ACTUAL_RADIUS / radius
    let alpha_correction := SQR alpha_correction
    (radius, if alpha_correction ≤ 1 then opa * alpha_correction else opa, g.2)
  else (st STATE_ACTUAL_RADIUS, opa, rng)

/-- The colour of a dab before the colour changes, and `alpha_eraser`
(`brush_prepare_and_draw_dab`, lines 400-428). -/
def dab_color (E : Env α) (b : Brush α) : (α × α × α) × α :=
  let sv := b.settings_value
  let st := b.states
  if sv BRUSH_SMUDGE ≤ 0 then
    (((b.settings BRUSH_COLOR_H).base_value, (b.settings BRUSH_COLOR_S).base_value,
      (b.settings BRUSH_COLOR_V).base_value), 1)
  else if sv BRUSH_SMUDGE ≥ 1 then
    (E.rgb_to_hsv_float (st STATE_SMUDGE_R, st STATE_SMUDGE_G, st STATE_SMUDGE_B),
      st STATE_SMUDGE_A)
  else
    let c := E.hsv_to_rgb_float ((b.settings BRUSH_COLOR_H).base_value,
      (b.settings BRUSH_COLOR_S).base_value, (b.settings BRUSH_COLOR_V).base_value)
    let fac := sv BRUSH_SMUDGE
    (E.rgb_to_hsv_float ((1 - fac) * c.1 + fac * st STATE_SMUDGE_R,
        (1 - fac) * c.2.1 + fac * st STATE_SMUDGE_G,
        (1 - fac) * c.2.2 + fac * st STATE_SMUDGE_B),
      (1 - fac) * 1 + fac * st STATE_SMUDGE_A)

/-- The block "update the smudge state" of `brush_prepare_and_draw_dab`
(lines 431-443), for a dab at `x`, `y`. -/
def smudge_update (E : Env α) (b : Brush α) (rc : RenderContext α) (x y : α) : State → α :=
  let sv := b.settings_value
  let st := b.states
  if sv BRUSH_SMUDGE_LENGTH < 1 then
    let fac := sv BRUSH_SMUDGE_LENGTH
    let fac := if fac < 0 then 0 else fac
    let px := E.ROUND x
    let py := E.ROUND y
    let c := E.tile_get_color rc.tiled_surface px py 5
    let st := Function.update st STATE_SMUDGE_R (fac * st STATE_SMUDGE_R + (1 - fac) * c.1)
    let st := Function.update st STATE_SMUDGE_G (fac * st STATE_SMUDGE_G + (1 - fac) * c.2.1)
    let st := Function.update st STATE_SMUDGE_B (fac * st STATE_SMUDGE_B + (1 - fac) * c.2.2.1)
    Function.update st STATE_SMUDGE_A (fac * st STATE_SMUDGE_A + (1 - fac) * c.2.2.2)
  else st

/-- The HSV and HSL colour changes of `brush_prepare_and_draw_dab` (lines
445-460) applied to the colour `c`. -/
def dab_color_change (E : Env α) (b : Brush α) (c : α × α × α) : α × α × α :=
  let sv := b.settings_value
  let color_h := c.1 + sv BRUSH_CHANGE_COLOR_H
  let color_s := c.2.1 + sv BRUSH_CHANGE_COLOR_HSV_S
  let color_v := c.2.2 + sv BRUSH_CHANGE_COLOR_V
  if sv BRUSH_CHANGE_COLOR_L ≠ 0 ∨ sv BRUSH_CHANGE_COLOR_HSL_S ≠ 0 then
    let c := E.rgb_to_hsl_float (E.hsv_to_rgb_float (color_h, color_s, color_v))
    let c := (c.1, c.2.1 + sv BRUSH_CHANGE_COLOR_HSL_S, c.2.2 + sv BRUSH_CHANGE_COLOR_L)
    E.rgb_to_hsv_float (E.hsl_to_rgb_float c)
  else (color_h, color_s, color_v)

/-- `Brush::brush_prepare_and_draw_dab` (lines 330-487): returns what
`tile_draw_dab` returned (zero if nothing was drawn), the brush and the render
context. -/
def brush_prepare_and_draw_dab (E : Env α) (b : Brush α) (rc : RenderContext α) :
    Except Fault (Int × Brush α × RenderContext α) := do
  let opa := dab_opacity E b
  let pos := dab_position E b
  let x := pos.1
  let y := pos.2.1
  let rad := dab_radius E b opa pos.2.2
  let radius := rad.1
  let opa := rad.2.1
  let rng := rad.2.2
  -- color part
  let color := dab_color E b
  -- update the smudge state
  let st := smudge_update E b rc x y
  -- HSV color change, HSL color change
  let hsv := dab_color_change E b color.1
  -- final calculations
  g_assert E (opa ≥ 0)
  g_assert E (opa ≤ 1)
  let c0 := Int.tmod (c_int (hsv.1 * 360)) 360
  let c0 := if c0 < 0 then c0 + 360 else c0
  g_assert E (c0 ≥ 0)
  let c1 := CLAMP (E.ROUND (hsv.2.1 * 255)) 0 255
  let c2 := CLAMP (E.ROUND (hsv.2.2 * 255)) 0 255
  let c := E.hsv_to_rgb_int (c0, c1, c2)
  let hardness := b.settings_value BRUSH_HARDNESS
  let hardness := if hardness > 1 then 1 else hardness
  let hardness := if hardness < 0 then 0 else hardness
  let dab : Dab α := ⟨x, y, radius, c.1, c.2.1, c.2.2, opa, hardness⟩
  let res := E.tile_draw_dab rc.tiled_surface rc.bbox dab
  pure (res.1, { b with rng := rng, states := st },
    { tiled_surface := res.2.1, bbox := res.2.2, dabs := rc.dabs ++ [dab],
      results := rc.results ++ [res.1] })

/-- The local `enum { UNKNOWN, YES, NO } painted` of `any_surface_stroke_to`. -/
inductive Painted where
  | UNKNOWN
  | YES
  | NO
  deriving DecidableEq

open Painted

/-- The variables of `any_surface_stroke_to` that live across the dab loop:
the brush, the render context, the locals `dist_moved`, `dist_todo`,
`dtime_left`, `painted`, and the parameter `dtime`, which the loop assigns. -/
structure LoopVars (α : Type) where
  b : Brush α
  rc : RenderContext α
  dist_moved : α
  dist_todo : α
  dtime : α
  dtime_left : α
  painted : Painted

/-- The local `frac` of the dab loop, the fraction of the remaining distance
to move (lines 593-601), in exact arithmetic; `dab_frac_fp` has the rounding
of the `float` it is stored in. -/
def dab_frac (s : LoopVars α) : α :=
  if s.dist_moved > 0 then (1 - s.dist_moved) / s.dist_todo else 1 / s.dist_todo

/-- The linear interpolation step of the dab loop on the brush (lines 602-611):
the members `dx`, `dy`, `dpressure` are set and the states `x`, `y`, `pressure`
advanced.  The interpolated time goes to the parameter `dtime`, not to the
member. -/
def dab_move (x y pressure : α) (s : LoopVars α) : Brush α :=
  let frac := dab_frac s
  let b := s.b
  let dx := frac * (x - b.states STATE_X)
  let dy := frac * (y - b.states STATE_Y)
  let dpressure := frac * (pressure - b.states STATE_PRESSURE)
  let st := b.states
  let st := Function.update st STATE_X (st STATE_X + dx)
  let st := Function.update st STATE_Y (st STATE_Y + dy)
  let st := Function.update st STATE_PRESSURE (st STATE_PRESSURE + dpressure)
  { b with dx := dx, dy := dy, dpressure := dpressure, states := st }

/-- The update of the local `painted` after a dab (lines 615-619). -/
def painted_update (painted : Painted) (painted_now : Int) : Painted :=
  if painted_now ≠ 0 then YES else if painted = UNKNOWN then NO else painted

/-- The body of `while (dist_moved + dist_todo >= 1.0)` (lines 592-622).  The
assignment `dtime = frac * (dtime_left - 0.0)` is to the parameter `dtime` of
`any_surface_stroke_to`, which hides the member `dtime`; `dx`, `dy` and
`dpressure` are the members. -/
def dab_loop_body (E : Env α) (x y pressure : α) (s : LoopVars α) : Except Fault (LoopVars α) := do
  let frac := dab_frac s
  let dist_moved := if s.dist_moved > 0 then 0 else s.dist_moved
  let dtime := frac * (s.dtime_left - 0)
  let b ← brush_update_settings_values E (dab_move x y pressure s)
  let r ← brush_prepare_and_draw_dab E b s.rc
  let painted_now := r.1
  let painted := painted_update s.painted painted_now
  let dtime_left := s.dtime_left - dtime
  let c := brush_count_dabs_to E r.2.1 x y pressure dtime_left
  pure { b := c.2, rc := r.2.2, dist_moved := dist_moved, dist_todo := c.1, dtime := dtime,
         dtime_left := dtime_left, painted := painted }

/-- The loop `while (dist_moved + dist_todo >= 1.0)` (line 591), with a bound
on the number of iterations: `out_of_fuel` when the bound is used up while dabs
are still pending.  The sum of the loop test is exact here; `dab_loop_fp` has
the `float` sum. -/
def dab_loop (E : Env α) (x y pressure : α) : Nat → LoopVars α → Except Fault (LoopVars α)
  | 0, s => if s.dist_moved + s.dist_todo ≥ 1 then .error Fault.out_of_fuel else .ok s
  | fuel + 1, s =>
    if s.dist_moved + s.dist_todo ≥ 1 then
      (dab_loop_body E x y pressure s).bind (dab_loop E x y pressure fuel)
    else .ok s

/-- The resolution of `painted == UNKNOWN` in the stroke separation logic
(lines 657-666): still idling if `stroke_idling_time > 0`, else still painting. -/
def resolve_painted (painted : Painted) (stroke_idling_time : α) : Painted :=
  if painted = UNKNOWN then (if stroke_idling_time > 0 then NO else YES) else painted

/-- The stroke separation logic that ends `any_surface_stroke_to` (lines
655-695); `dtime` is the parameter as the loop and the tail left it. -/
def stroke_separation_logic (E : Env α) (b : Brush α) (painted : Painted) (pressure dtime : α) :
    Except Fault (Brush α) := do
  let painted := resolve_painted painted b.stroke_idling_time
  if painted = YES then
    let b := { b with
      stroke_total_painting_time := b.stroke_total_painting_time + dtime
      stroke_idling_time := 0 }
    if b.stroke_total_painting_time > 5 + 10 * pressure then
      if b.dpressure ≥ 0 then pure (split_stroke E b) else pure b
    else pure b
  else if painted = NO then
    let b := { b with stroke_idling_time := b.stroke_idling_time + dtime }
    if b.stroke_total_painting_time = 0 then do
      g_assert E (b.stroke_bbox.w = 0)
      if b.stroke_idling_time > 1 then pure (split_stroke E b) else pure b
    else
      if b.stroke_total_painting_time + b.stroke_idling_time > 3 / 2 + 5 * pressure then
        pure (split_stroke E b)
      else pure b
  else pure b

/-- The block "calculate the actual virtual cursor position" of
`any_surface_stroke_to` (lines 533-547): tracking noise, then slow tracking.
Returns the new `x`, `y` and the brush, whose random source the noise advances.
The arithmetic is exact here; `virtual_cursor_fp` has the rounding of the
`float` operations. -/
def virtual_cursor (E : Env α) (b : Brush α) (x y dtime : α) : α × α × Brush α :=
  let tracking_noise := (b.settings BRUSH_TRACKING_NOISE).base_value
  let base_radius := E.expf (b.settings BRUSH_RADIUS_LOGARITHMIC).base_value
  let g1 := E.rand_gauss b.rng
  let g2 := E.rand_gauss g1.2
  let x := if tracking_noise ≠ 0 then x + g1.1 * tracking_noise * base_radius else x
  let y := if tracking_noise ≠ 0 then y + g2.1 * tracking_noise * base_radius else y
  let b := if tracking_noise ≠ 0 then { b with rng := g2.2 } else b
  let fac := 1 - exp_decay E (b.settings BRUSH_SLOW_TRACKING).base_value (100 * dtime)
  let x := b.states STATE_X + (x - b.states STATE_X) * fac
  let y := b.states STATE_Y + (y - b.states STATE_Y) * fac
  (x, y, b)

/-- The reset branch of `any_surface_stroke_to` (lines 569-584): `memset` of
the states, the new sample, `split_stroke`. -/
def reset_branch (E : Env α) (b : Brush α) (x y pressure : α) : Brush α :=
  let st : State → α := fun _ => 0
  let st := Function.update st STATE_X x
  let st := Function.update st STATE_Y y
  let st := Function.update st STATE_PRESSURE pressure
  let st := Function.update st STATE_ACTUAL_X (st STATE_X)
  let st := Function.update st STATE_ACTUAL_Y (st STATE_Y)
  let st := Function.update st STATE_STROKE 1
  split_stroke E { b with states := st }

/-- The move of the brush to the current time after the dab loop (lines
632-639): the members `dx`, `dy`, `dpressure` and the states `x`, `y`,
`pressure`.  `dtime = dtime_left` is again an assignment to the parameter. -/
def tail_move (x y pressure : α) (b : Brush α) : Brush α :=
  let dx := x - b.states STATE_X
  let dy := y - b.states STATE_Y
  let dpressure := pressure - b.states STATE_PRESSURE
  let st := b.states
  let st := Function.update st STATE_X x
  let st := Function.update st STATE_Y y
  let st := Function.update st STATE_PRESSURE pressure
  { b with dx := dx, dy := dy, dpressure := dpressure, states := st }

/-- The block after the dab loop of `any_surface_stroke_to` (lines 625-653):
move the brush to the current time, save `STATE_DIST`, extend `stroke_bbox`. -/
def loop_tail (E : Env α) (x y pressure : α) (s : LoopVars α) : Except Fault (Brush α) := do
  let b ← brush_update_settings_values E (tail_move x y pressure s.b)
  -- save the fraction of a dab that is already done now
  let b := { b with states := Function.update b.states STATE_DIST (s.dist_moved + s.dist_todo) }
  let bbox := s.rc.bbox
  let expanded := E.ExpandRectToIncludePoint
    (E.ExpandRectToIncludePoint b.stroke_bbox bbox.x bbox.y)
    (bbox.x + bbox.w - 1) (bbox.y + bbox.h - 1)
  pure (if bbox.w > 0 then { b with stroke_bbox := expanded } else b)

/-- The variables of `any_surface_stroke_to` when the dab loop is reached
(lines 533-553 and 588-589): the cursor block has run on the raw sample
`x`, `y`; `dist_moved = states[STATE_DIST]`; `dist_todo` is
`brush_count_dabs_to` for the whole event (which may repair
`STATE_ACTUAL_RADIUS`); `dtime_left = dtime`; `painted = UNKNOWN`. -/
def loop_start (E : Env α) (b : Brush α) (rc : RenderContext α) (x y pressure dtime : α) :
    LoopVars α :=
  let v := virtual_cursor E b x y dtime
  let c := brush_count_dabs_to E v.2.2 v.1 v.2.1 pressure dtime
  { b := c.2, rc := rc, dist_moved := v.2.2.states STATE_DIST, dist_todo := c.1, dtime := dtime,
    dtime_left := dtime, painted := UNKNOWN }

/-- `Brush::any_surface_stroke_to` (lines 524-696).  `fuel` bounds the
iterations of the dab loop.  The messages printed with `g_print` are not
modelled. -/
def any_surface_stroke_to (E : Env α) (fuel : Nat) (b : Brush α) (rc : RenderContext α)
    (x y pressure dtime : α) : Except Fault (Brush α × RenderContext α) :=
  if dtime ≤ 0 then pure (b, rc)
  else
    let v := virtual_cursor E b x y dtime
    let s0 := loop_start E b rc x y pressure dtime
    let x := v.1
    let y := v.2.1
    if dtime > 5 ∨ s0.dist_todo > 300 then
      pure (reset_branch E s0.b x y pressure, rc)
    else do
      let s ← dab_loop E x y pressure fuel s0
      let b ← loop_tail E x y pressure s
      let dtime := s.dtime_left
      let b ← stroke_separation_logic E b s.painted pressure dtime
      pure (b, s.rc)

/-- What `tiled_surface_stroke_to` returns to Python: `NULL` (an exception is
pending), `None`, or the tuple `(x, y, w, h)` of the bounding box. -/
inductive PyResult where
  | NULL
  | Py_None
  | tuple (x y w h : Int)
  deriving DecidableEq

/-- `Brush::tiled_surface_stroke_to` (lines 698-713).  Of the local `rc` only
`bbox.w` is initialised; `garbage` stands for the rest of its bounding box. -/
def tiled_surface_stroke_to (E : Env α) (fuel : Nat) (b : Brush α) (tiled_surface : Nat)
    (garbage : Rect) (x y pressure dtime : α) :
    Except Fault (PyResult × Brush α × RenderContext α) := do
  let rc : RenderContext α :=
    { tiled_surface := tiled_surface, bbox := { garbage with w := 0 }, dabs := [], results := [] }
  let r ← any_surface_stroke_to E fuel b rc x y pressure dtime
  let b := r.1
  let rc := r.2
  if b.exception = true then
    pure (PyResult.NULL, { b with exception := false }, rc)
  else if rc.bbox.w = 0 then
    pure (PyResult.Py_None, b, rc)
  else
    pure (PyResult.tuple rc.bbox.x rc.bbox.y rc.bbox.w rc.bbox.h, b, rc)

/-- `Brush::Brush()` (lines 86-102).  The constructor initialises the settings,
the random source, `print_inputs`, `exception` and the callback, then calls
`split_stroke` and `settings_base_values_have_changed`; every other member
keeps what the memory held, here the fields of `garbage`. -/
def Brush.new (E : Env α) (seed : Nat) (garbage : Brush α) : Brush α :=
  let b := { garbage with
    settings := fun _ => mapping_new
    rng := seed
    print_inputs := false
    exception := false
    split_stroke_callback := none }
  settings_base_values_have_changed E (split_stroke E b)

/-- `Brush::set_base_value` (lines 114-120) on a setting of the table. -/
def set_base_value (E : Env α) (b : Brush α) (id : BrushSetting) (value : α) : Brush α :=
  let m := b.settings id
  let b := { b with settings := Function.update b.settings id { m with base_value := value } }
  settings_base_values_have_changed E b

/-- Modelled from the spec: the macro `BS_WRITE_FLOAT`, whose header is not
part of the sources: appends the four bytes of the IEEE-754 32-bit pattern of
`f`, little-endian (section 6.3). -/
def BS_WRITE_FLOAT (E : Env α) (bs : List Nat) (f : α) : List Nat :=
  let n := E.float_bits f
  bs ++ [n % 256, n / 256 % 256, n / 65536 % 256, n / 16777216 % 256]

/-- Modelled from the spec: the macro `BS_READ_CHAR`, whose header is not part
of the sources: reads the byte at `p` and advances; at the end of the string it
reads the terminating NUL of the `GString`. -/
def BS_READ_CHAR (p : List Nat) : Nat × List Nat :=
  match p with
  | [] => (0, [])
  | c :: p => (c, p)

/-- Modelled from the spec: the macro `BS_READ_FLOAT`, whose header is not part
of the sources: reads four bytes as a little-endian 32-bit pattern and
advances; a truncated last field reads as zero (section 6.3). -/
def BS_READ_FLOAT (E : Env α) (p : List Nat) : α × List Nat :=
  match p with
  | b0 :: b1 :: b2 :: b3 :: p => (E.bits_float (b0 + 256 * b1 + 65536 * b2 + 16777216 * b3), p)
  | _ => (0, [])

/-- `Brush::get_state` (lines 950-960): the version id `'1'` (byte 49), then
`states[i]` for `i = 0 .. STATE_COUNT - 1`. -/
def get_state (E : Env α) (b : Brush α) : List Nat :=
  stateOrder.foldl (fun bs i => BS_WRITE_FLOAT E bs (b.states i)) [49]

/-- The loop `while (p<data->str+data->len && i < STATE_COUNT)` of `set_state`
(lines 976-980); the first argument lists the indices `i` still to come. -/
def set_state_loop (E : Env α) : List State → List Nat → (State → α) → (State → α)
  | [], _, st => st
  | _ :: _, [], st => st
  | i :: is, c :: p, st =>
    let r := BS_READ_FLOAT E (c :: p)
    set_state_loop E is r.2 (Function.update st i r.1)

/-- `Brush::set_state` (lines 962-981). -/
def set_state (E : Env α) (b : Brush α) (data : List Nat) : Brush α :=
  let r := BS_READ_CHAR data
  if r.1 ≠ 49 then b
  else { b with states := set_state_loop E stateOrder r.2 (fun _ => 0) }

/-- Newton iteration for the integer square root, `fuel` steps at most. -/
def sqrt_iter : Nat → Nat → Nat → Nat
  | 0, _, g => g
  | fuel + 1, n, g =>
    let g1 := (g + n / g) / 2
    if g1 < g then sqrt_iter fuel n g1 else g

/-- A rational square root (rounded down on numerator and denominator), exact
on squares: the `sqrt` of the rational reference environment. -/
def rat_sqrt (q : ℚ) : ℚ :=
  if q ≤ 0 then 0
  else (sqrt_iter 256 q.num.toNat q.num.toNat : ℚ) / (sqrt_iter 256 q.den q.den : ℚ)

/-- A rational reference environment for evaluating scenarios: `assert` is
compiled out (`NDEBUG`), `g_assert` is active; the C library is replaced by
rational stand-ins (`exp` by its Taylor polynomial of degree 4); a dab of
positive opacity draws and touches the pixel under its centre, a dab of
opacity 0 draws nothing; the host callback succeeds. -/
def refEnv : Env ℚ where
  NDEBUG := true
  G_DISABLE_ASSERT := false
  exp := fun x => 1 + x + x ^ 2 / 2 + x ^ 3 / 6 + x ^ 4 / 24
  expf := fun x => 1 + x + x ^ 2 / 2 + x ^ 3 / 6 + x ^ 4 / 24
  log := fun x => 2 * (x - 1) / (x + 1)
  sqrt := rat_sqrt
  sqrtf := rat_sqrt
  powf := fun x y => if y = 0 then 1 else x
  atan2f := fun _ _ => 0
  fmodf := fun x y => x - y * (c_int (x / y) : ℚ)
  M_PI := 355 / 113
  g_rand_double := fun n => (1 / 2, n + 1)
  rand_gauss := fun n => (0, n + 1)
  rgb_to_hsv_float := fun c => c
  hsv_to_rgb_float := fun c => c
  rgb_to_hsl_float := fun c => c
  hsl_to_rgb_float := fun c => c
  hsv_to_rgb_int := fun c => c
  ROUND := fun x => c_int (x + 1 / 2)
  tile_get_color := fun _ _ _ _ => (0, 0, 0, 0)
  tile_draw_dab := fun s bbox d =>
    if d.opacity > 0 then (1, s + 1, ⟨⌊d.x⌋, ⌊d.y⌋, 1, 1⟩) else (0, s, bbox)
  ExpandRectToIncludePoint := fun r x y => if r.w = 0 then ⟨x, y, 1, 1⟩ else r
  PyEval_CallObject := fun _ p => (true, p + 1)
  float_bits := fun q => q.num.toNat % 4294967296
  bits_float := fun n => (n : ℚ)

/-- The default brush of the end-to-end scenarios (section 8): all base values
0 except `RADIUS_LOG = 1.0`, `DABS_PER_ACTUAL_RADIUS = 2`, `OPAQUE = 1`,
`HARDNESS = 0.8`; no mappings. -/
def scenarioSettings : BrushSetting → Mapping ℚ := fun i =>
  match i with
  | BRUSH_RADIUS_LOGARITHMIC => ⟨1, fun _ => []⟩
  | BRUSH_DABS_PER_ACTUAL_RADIUS => ⟨2, fun _ => []⟩
  | BRUSH_OPAQUE => ⟨1, fun _ => []⟩
  | BRUSH_HARDNESS => ⟨8 / 10, fun _ => []⟩
  | _ => ⟨0, fun _ => []⟩

/-- A brush with the scenario settings, a zeroed state vector and zeroed
telemetry, without a callback. -/
def scenarioBrush : Brush ℚ :=
  settings_base_values_have_changed refEnv
    { rng := 0, dx := 0, dy := 0, dpressure := 0, dtime := 1
      settings_value := fun _ => 0
      settings := scenarioSettings
      print_inputs := false
      stroke_bbox := ⟨0, 0, 0, 0⟩
      stroke_total_painting_time := 0
      stroke_idling_time := 0
      states := fun _ => 0
      exception := false
      speed_mapping_gamma := fun _ => 0
      speed_mapping_m := fun _ => 0
      speed_mapping_q := fun _ => 0
      split_stroke_callback := none
      py := 0
      callback_calls := 0
      split_calls := 0 }

/-- The scenario brush with `OPAQUE_MULTIPLY = 1`, so that its dabs have
opacity 1 and are drawn. -/
def paintBrush : Brush ℚ :=
  { scenarioBrush with
    settings := Function.update scenarioSettings BRUSH_OPAQUE_MULTIPLY ⟨1, fun _ => []⟩ }

/-- A fresh render context on surface 0, as `tiled_surface_stroke_to` makes it. -/
def scenarioRc : RenderContext ℚ := ⟨0, ⟨0, 0, 0, 0⟩, [], []⟩

/-- A brush whose state vector holds several different float values. -/
def serialBrush : Brush ℚ :=
  { scenarioBrush with states := fun i =>
      match i with
      | STATE_X => 300
      | STATE_Y => 70000
      | STATE_PRESSURE => 1
      | STATE_SMUDGE_A => 4000000000
      | _ => 5 }

/-- A host whose split callback signals failure. -/
def failEnv : Env ℚ := { refEnv with PyEval_CallObject := fun _ p => (false, p + 1) }

/-- The painting brush after the host installed a callback and called
`split_stroke`, the callback failing: the exception is latched. -/
def latchedBrush : Brush ℚ := split_stroke failEnv (set_split_stroke_callback paintBrush 0)

/-- The two range checks on a radius (lines 321-322, 497-498 and 503-504):
first raise it to `ACTUAL_RADIUS_MIN`, then cap it at `ACTUAL_RADIUS_MAX`. -/
def radius_clamp (r : α) : α :=
  let r := if r < ACTUAL_RADIUS_MIN then ACTUAL_RADIUS_MIN else r
  if r > ACTUAL_RADIUS_MAX then ACTUAL_RADIUS_MAX else r

/-- Two brushes that differ at most in the random source, the convenience
members `dx`, `dy`, `dpressure`, `dtime`, the current setting values and the
state vector: the settings, the stroke telemetry, the exception latch, the
callback and the ghost counters agree. -/
def SameStroke (b b' : Brush α) : Prop :=
  b'.settings = b.settings ∧
  b'.stroke_total_painting_time = b.stroke_total_painting_time ∧
  b'.stroke_idling_time = b.stroke_idling_time ∧
  b'.stroke_bbox = b.stroke_bbox ∧
  b'.exception = b.exception ∧
  b'.split_calls = b.split_calls ∧
  b'.callback_calls = b.callback_calls ∧
  b'.split_stroke_callback = b.split_stroke_callback ∧
  b'.py = b.py

/-- The classification of an event by the stroke splitter as section 4.9 words
it: painted if any dab drew; not painted if the loop ran and none did; if the
loop did not run, not painted exactly when `idling_time > 0` at entry.
`results` lists what the dabs of the event returned. -/
def spec_painted (results : List Int) (idling_at_entry : α) : Bool :=
  if results.any (fun r => decide (r ≠ 0)) then true
  else if results ≠ [] then false
  else !(decide (idling_at_entry > 0))

/-- The split rule of section 4.9 in the timers `T`, `I` after accumulation. -/
def spec_split (painted : Bool) (T I pressure dpressure : α) : Prop :=
  (painted = true ∧ T > 5 + 10 * pressure ∧ dpressure ≥ 0) ∨
  (painted = false ∧ T = 0 ∧ I > 1) ∨
  (painted = false ∧ T ≠ 0 ∧ T + I > 3 / 2 + 5 * pressure)

/-- The scenario brush while idling: half a second of idling time so far. -/
def idleBrush : Brush ℚ := { scenarioBrush with stroke_idling_time := 1 / 2 }

/-- The dab-count formula as the specification words it, to be compared with
`brush_count_dabs_to`: `dist / actual_radius * dpa + dist / base_radius * dpb
+ dt * dps`, where `base_radius` is the exponential of the base value of
`RADIUS_LOGARITHMIC` and `actual_radius` is the state radius clamped to
`[0.2, 150]`, or the base radius when the state radius is 0. -/
def spec_count_dabs_to (E : Env α) (b : Brush α) (x y dt : α) : α :=
  let dist := E.sqrtf (SQR (x - b.states STATE_X) + SQR (y - b.states STATE_Y))
  let base_radius := E.expf (b.settings BRUSH_RADIUS_LOGARITHMIC).base_value
  let actual_radius :=
    if b.states STATE_ACTUAL_RADIUS = 0 then base_radius
    else max ACTUAL_RADIUS_MIN (min (b.states STATE_ACTUAL_RADIUS) ACTUAL_RADIUS_MAX)
  dist / actual_radius * (b.settings BRUSH_DABS_PER_ACTUAL_RADIUS).base_value
    + dist / base_radius * (b.settings BRUSH_DABS_PER_BASIC_RADIUS).base_value
    + dt * (b.settings BRUSH_DABS_PER_SECOND).base_value

/-- The scenario brush with `RADIUS_LOGARITHMIC = 10` (a base radius above
`ACTUAL_RADIUS_MAX`) and one dab per basic radius only. -/
def wideBrush : Brush ℚ :=
  { scenarioBrush with
    settings := fun i =>
      match i with
      | BRUSH_RADIUS_LOGARITHMIC => ⟨10, fun _ => []⟩
      | BRUSH_DABS_PER_BASIC_RADIUS => ⟨1, fun _ => []⟩
      | _ => ⟨0, fun _ => []⟩ }

/-- An environment over any number type, built from the four C library
functions it is given: both assertion macros compiled out, `fmodf` as the
truncated remainder, the other members as in `refEnv`. -/
def libmEnv (exp log sqrt : α → α) (powf : α → α → α) : Env α where
  NDEBUG := true
  G_DISABLE_ASSERT := true
  exp := exp
  expf := exp
  log := log
  sqrt := sqrt
  sqrtf := sqrt
  powf := powf
  atan2f := fun _ _ => 0
  fmodf := fun x y => x - y * (c_int (x / y) : α)
  M_PI := 355 / 113
  g_rand_double := fun n => (1 / 2, n + 1)
  rand_gauss := fun n => (0, n + 1)
  rgb_to_hsv_float := fun c => c
  hsv_to_rgb_float := fun c => c
  rgb_to_hsl_float := fun c => c
  hsl_to_rgb_float := fun c => c
  hsv_to_rgb_int := fun c => c
  ROUND := fun x => c_int (x + 1 / 2)
  tile_get_color := fun _ _ _ _ => (0, 0, 0, 0)
  tile_draw_dab := fun s bbox d =>
    if d.opacity > 0 then (1, s + 1, ⟨⌊d.x⌋, ⌊d.y⌋, 1, 1⟩) else (0, s, bbox)
  ExpandRectToIncludePoint := fun r x y => if r.w = 0 then ⟨x, y, 1, 1⟩ else r
  PyEval_CallObject := fun _ p => (true, p + 1)
  float_bits := fun _ => 0
  bits_float := fun n => (n : α)

/-- The settings of the default brush of the end-to-end scenarios (section 8)
over any number type. -/
def defaultSettings : BrushSetting → Mapping α := fun i =>
  match i with
  | BRUSH_RADIUS_LOGARITHMIC => ⟨1, fun _ => []⟩
  | BRUSH_DABS_PER_ACTUAL_RADIUS => ⟨2, fun _ => []⟩
  | BRUSH_OPAQUE => ⟨1, fun _ => []⟩
  | BRUSH_HARDNESS => ⟨8 / 10, fun _ => []⟩
  | _ => ⟨0, fun _ => []⟩

/-- A brush with the given settings over any number type: zeroed state vector
and telemetry, no callback, and every current setting value equal to its base
value (what `brush_update_settings_values` computes without mappings). -/
def plainBrush (settings : BrushSetting → Mapping α) : Brush α :=
  { rng := 0, dx := 0, dy := 0, dpressure := 0, dtime := 1
    settings_value := fun i => (settings i).base_value
    settings := settings
    print_inputs := false
    stroke_bbox := ⟨0, 0, 0, 0⟩
    stroke_total_painting_time := 0
    stroke_idling_time := 0
    states := fun _ => 0
    exception := false
    speed_mapping_gamma := fun _ => 0
    speed_mapping_m := fun _ => 0
    speed_mapping_q := fun _ => 0
    split_stroke_callback := none
    py := 0
    callback_calls := 0
    split_calls := 0 }

/-- The scenario brush with `DABS_PER_ACTUAL_RADIUS = -2`, a base value that
`set_base_value` accepts. -/
def negRateBrush : Brush ℚ :=
  { scenarioBrush with
    settings := Function.update scenarioSettings BRUSH_DABS_PER_ACTUAL_RADIUS ⟨-2, fun _ => []⟩ }

/-- The "final calculations" of `brush_prepare_and_draw_dab` on the colour
(lines 466-473): the HSV colour `hsv` quantised and converted to the integer
RGB triple that `draw_dab` receives. -/
def dab_rgb (E : Env α) (hsv : α × α × α) : Int × Int × Int :=
  let c0 := Int.tmod (c_int (hsv.1 * 360)) 360
  let c0 := if c0 < 0 then c0 + 360 else c0
  let c1 := CLAMP (E.ROUND (hsv.2.1 * 255)) 0 255
  let c2 := CLAMP (E.ROUND (hsv.2.2 * 255)) 0 255
  E.hsv_to_rgb_int (c0, c1, c2)

/-- A brush with the base colour `(1/3, 1/2, 3/4)`, the smudge buffer
`(1/10, 2/10, 3/10, 1)` and the given current value of `SMUDGE`. -/
def colorBrush (smudge : ℚ) : Brush ℚ :=
  { scenarioBrush with
    settings := fun i =>
      match i with
      | BRUSH_COLOR_H => ⟨1 / 3, fun _ => []⟩
      | BRUSH_COLOR_S => ⟨1 / 2, fun _ => []⟩
      | BRUSH_COLOR_V => ⟨3 / 4, fun _ => []⟩
      | i => scenarioSettings i
    settings_value := fun i => if i = BRUSH_SMUDGE then smudge else 0
    states := fun i =>
      match i with
      | STATE_SMUDGE_R => 1 / 10
      | STATE_SMUDGE_G => 2 / 10
      | STATE_SMUDGE_B => 3 / 10
      | STATE_SMUDGE_A => 1
      | _ => 0 }

/-- Modelled from the spec: `mapping_set_n` of mapping.h, which is not part of
the sources: sets the length of the curve of `input` to `n`, shrinking or
growing it (section 3); the base value is not touched. -/
def mapping_set_n (m : Mapping α) (input : Input) (n : Nat) : Mapping α :=
  let c := (m.points input).take n ++ List.replicate (n - (m.points input).length) (0, 0)
  { m with points := Function.update m.points input c }

/-- Modelled from the spec: `mapping_set_point` of mapping.h, which is not part
of the sources: writes the control point `index` of the curve of `input`
(section 3); the base value is not touched. -/
def mapping_set_point (m : Mapping α) (input : Input) (index : Nat) (x y : α) : Mapping α :=
  let c := (m.points input).set index (x, y)
  { m with points := Function.update m.points input c }

/-- `Brush::set_mapping_n` (lines 122-126) on a setting of the table. -/
def set_mapping_n (b : Brush α) (id : BrushSetting) (input : Input) (n : Nat) : Brush α :=
  let m := b.settings id
  { b with settings := Function.update b.settings id (mapping_set_n m input n) }

/-- `Brush::set_mapping_point` (lines 128-132) on a setting of the table. -/
def set_mapping_point (b : Brush α) (id : BrushSetting) (input : Input) (index : Nat)
    (x y : α) : Brush α :=
  let m := b.settings id
  { b with settings := Function.update b.settings id (mapping_set_point m input index x y) }

/-- The cached speed-mapping triple agrees with the current base values: for
`i` in `{0, 1}`, `gamma[i] = exp (base SPEEDi_GAMMA)`,
`m[i] = 0.015 * (45 + gamma[i])` and `q[i] = 0.5 - m[i] * log (45 + gamma[i])`. -/
def speed_mapping_coherent (E : Env α) (b : Brush α) : Prop :=
  ∀ i : Nat, i < 2 →
    b.speed_mapping_gamma i
      = E.exp (b.settings (if i = 0 then BRUSH_SPEED1_GAMMA else BRUSH_SPEED2_GAMMA)).base_value ∧
    b.speed_mapping_m i = 15 / 1000 * (45 + b.speed_mapping_gamma i) ∧
    b.speed_mapping_q i = 1 / 2 - b.speed_mapping_m i * E.log (45 + b.speed_mapping_gamma i)

/-- A sequence of events `(x, y, pressure, dtime)` sent to the brush one after
the other.  Each call starts with a bounding box of width 0, as the fresh
`RenderContext` of `tiled_surface_stroke_to` does; the surface and the ghost
logs of the dabs carry over, so that the dabs of the whole sequence can be
counted. -/
def stroke_events (E : Env α) (fuel : Nat) :
    Brush α → RenderContext α → List (α × α × α × α) → Except Fault (Brush α × RenderContext α)
  | b, rc, [] => pure (b, rc)
  | b, rc, e :: es =>
    (any_surface_stroke_to E fuel b { rc with bbox := { rc.bbox with w := 0 } }
      e.1 e.2.1 e.2.2.1 e.2.2.2).bind (fun r => stroke_events E fuel r.1 r.2 es)

/-- A brush with `RADIUS_LOGARITHMIC = 1`, `STROKE_HOLDTIME = h` and every
other base value 0 (so that no dab is due), whose state `stroke` is `s`. -/
def holdBrush (h s : ℚ) : Brush ℚ :=
  { scenarioBrush with
    settings := fun i =>
      match i with
      | BRUSH_RADIUS_LOGARITHMIC => ⟨1, fun _ => []⟩
      | BRUSH_STROKE_HOLDTIME => ⟨h, fun _ => []⟩
      | _ => ⟨0, fun _ => []⟩
    states := fun i => if i = STATE_STROKE then s else 0 }

/-- The target opacity `a` of the specification's linearisation formula:
`clamp (OPAQUE * OPAQUE_MULTIPLY, 0, 1)` on the current setting values. -/
def spec_opacity_target (b : Brush α) : α :=
  max 0 (min 1 (b.settings_value BRUSH_OPAQUE * b.settings_value BRUSH_OPAQUE_MULTIPLY))

/-- The `dpp` of the specification's linearisation formula:
`1 + base(OPAQUE_LINEARIZE) * (max(1, 2 * (base(DABS_PER_ACTUAL_RADIUS) +
base(DABS_PER_BASIC_RADIUS))) - 1)`. -/
def spec_dabs_per_pixel (b : Brush α) : α :=
  1 + (b.settings BRUSH_OPAQUE_LINEARIZE).base_value
    * (max 1 (2 * ((b.settings BRUSH_DABS_PER_ACTUAL_RADIUS).base_value
        + (b.settings BRUSH_DABS_PER_BASIC_RADIUS).base_value)) - 1)

/-- The settings of scenario S6 over any number type: the default brush with
`OPAQUE = opa`, `OPAQUE_MULTIPLY = 1` and `OPAQUE_LINEARIZE = linearize`;
the dab rates sum to 2. -/
def linSettings (opa linearize : α) : BrushSetting → Mapping α := fun i =>
  match i with
  | BRUSH_OPAQUE => ⟨opa, fun _ => []⟩
  | BRUSH_OPAQUE_MULTIPLY => ⟨1, fun _ => []⟩
  | BRUSH_OPAQUE_LINEARIZE => ⟨linearize, fun _ => []⟩
  | i => defaultSettings i

/-- The settings of `linSettings` with `DABS_PER_ACTUAL_RADIUS = rate`, so
that the dab rates sum to `rate`. -/
def linRateSettings (opa linearize rate : α) : BrushSetting → Mapping α :=
  Function.update (linSettings opa linearize) BRUSH_DABS_PER_ACTUAL_RADIUS ⟨rate, fun _ => []⟩

/-- The state in which pressure below the treshold cannot start the stroke:
`stroke_started` is 0, the stored pressure is at most `treshold + 0.0001`
(the treshold being the base value of `STROKE_TRESHOLD`), and
`0 <= dist < 1`. -/
def StrokeIdle (b : Brush α) : Prop :=
  b.states STATE_STROKE_STARTED = 0 ∧
  b.states STATE_PRESSURE ≤ (b.settings BRUSH_STROKE_TRESHOLD).base_value + 1 / 10000 ∧
  0 ≤ b.states STATE_DIST ∧ b.states STATE_DIST < 1

/-- The scenario brush with `STROKE_TRESHOLD = 0.5`. -/
def thrBrush : Brush ℚ :=
  { scenarioBrush with
    settings := Function.update scenarioSettings BRUSH_STROKE_TRESHOLD ⟨1 / 2, fun _ => []⟩ }

/-- The bytes of a list of whole 4-byte fields, in order. -/
def field_bytes (fs : List (Nat × Nat × Nat × Nat)) : List Nat :=
  fs.flatMap (fun q => [q.1, q.2.1, q.2.2.1, q.2.2.2])

/-- Modelled from the spec: the ordinals of the settings (the generated header
that numbers the `BRUSH_*` ordinals is not part of the sources): the settings
that `brush.hpp` names, each with a stable ordinal (section 3). -/
def settingOrder : List BrushSetting :=
  [BRUSH_OPAQUE, BRUSH_OPAQUE_MULTIPLY, BRUSH_OPAQUE_LINEARIZE, BRUSH_RADIUS_LOGARITHMIC,
   BRUSH_HARDNESS, BRUSH_DABS_PER_BASIC_RADIUS, BRUSH_DABS_PER_ACTUAL_RADIUS,
   BRUSH_DABS_PER_SECOND, BRUSH_RADIUS_BY_RANDOM, BRUSH_SPEED1_SLOWNESS, BRUSH_SPEED2_SLOWNESS,
   BRUSH_SPEED1_GAMMA, BRUSH_SPEED2_GAMMA, BRUSH_OFFSET_BY_RANDOM, BRUSH_OFFSET_BY_SPEED,
   BRUSH_OFFSET_BY_SPEED_SLOWNESS, BRUSH_SLOW_TRACKING, BRUSH_SLOW_TRACKING_PER_DAB,
   BRUSH_TRACKING_NOISE, BRUSH_COLOR_H, BRUSH_COLOR_S, BRUSH_COLOR_V, BRUSH_CHANGE_COLOR_H,
   BRUSH_CHANGE_COLOR_L, BRUSH_CHANGE_COLOR_HSL_S, BRUSH_CHANGE_COLOR_V,
   BRUSH_CHANGE_COLOR_HSV_S, BRUSH_SMUDGE, BRUSH_SMUDGE_LENGTH, BRUSH_STROKE_TRESHOLD,
   BRUSH_STROKE_DURATION_LOGARITHMIC, BRUSH_STROKE_HOLDTIME, BRUSH_CUSTOM_INPUT,
   BRUSH_CUSTOM_INPUT_SLOWNESS]

/-- The constant `BRUSH_SETTINGS_COUNT`. -/
def BRUSH_SETTINGS_COUNT : Int := settingOrder.length

/-- Modelled from the spec: the ordinals of the input channels (the header
that numbers the `INPUT_*` ordinals is not part of the sources), in the order
of the data model (section 3). -/
def inputOrder : List Input :=
  [INPUT_PRESSURE, INPUT_SPEED1, INPUT_SPEED2, INPUT_RANDOM, INPUT_STROKE, INPUT_ANGLE,
   INPUT_CUSTOM]

/-- The constant `INPUT_COUNT`. -/
def INPUT_COUNT : Int := inputOrder.length

/-- The element `settings[id]`, if `id` is inside the array. -/
def setting_at (id : Int) : Option BrushSetting :=
  if id < 0 then none else settingOrder[id.toNat]?

/-- The input channel with ordinal `input`, if there is one. -/
def input_at (input : Int) : Option Input :=
  if input < 0 then none else inputOrder[input.toNat]?

/-- `Brush::set_base_value` (lines 114-120) with the raw ordinal `id`. -/
def set_base_value_ord (E : Env α) (b : Brush α) (id : Int) (value : α) :
    Except Fault (Brush α) := do
  g_assert E (id ≥ 0 ∧ id < BRUSH_SETTINGS_COUNT)
  match setting_at id with
  | some s => pure (set_base_value E b s value)
  | none => .error Fault.out_of_bounds

/-- Modelled from the spec: `mapping_set_n` of mapping.h (not part of the
sources) with the raw input ordinal, which it validates: out of range is a
fatal precondition violation (section 6.4). -/
def mapping_set_n_ord (E : Env α) (m : Mapping α) (input : Int) (n : Nat) :
    Except Fault (Mapping α) := do
  g_assert E (input ≥ 0 ∧ input < INPUT_COUNT)
  match input_at input with
  | some i => pure (mapping_set_n m i n)
  | none => .error Fault.out_of_bounds

/-- Modelled from the spec: `mapping_set_point` of mapping.h (not part of the
sources) with the raw input ordinal, which it validates: out of range is a
fatal precondition violation (section 6.4). -/
def mapping_set_point_ord (E : Env α) (m : Mapping α) (input : Int) (index : Nat) (x y : α) :
    Except Fault (Mapping α) := do
  g_assert E (input ≥ 0 ∧ input < INPUT_COUNT)
  match input_at input with
  | some i => pure (mapping_set_point m i index x y)
  | none => .error Fault.out_of_bounds

/-- `Brush::set_mapping_n` (lines 122-126) with the raw ordinals. -/
def set_mapping_n_ord (E : Env α) (b : Brush α) (id input : Int) (n : Nat) :
    Except Fault (Brush α) := do
  g_assert E (id ≥ 0 ∧ id < BRUSH_SETTINGS_COUNT)
  match setting_at id with
  | some s => do
    let m ← mapping_set_n_ord E (b.settings s) input n
    pure { b with settings := Function.update b.settings s m }
  | none => .error Fault.out_of_bounds

/-- `Brush::set_mapping_point` (lines 128-132) with the raw ordinals. -/
def set_mapping_point_ord (E : Env α) (b : Brush α) (id input : Int) (index : Nat) (x y : α) :
    Except Fault (Brush α) := do
  g_assert E (id ≥ 0 ∧ id < BRUSH_SETTINGS_COUNT)
  match setting_at id with
  | some s => do
    let m ← mapping_set_point_ord E (b.settings s) input index x y
    pure { b with settings := Function.update b.settings s m }
  | none => .error Fault.out_of_bounds

/-- The reference environment with a `powf` that is exact at integer
exponents (`x ^ n`, also for negative `n`). -/
def intPowEnv : Env ℚ :=
  { refEnv with powf := fun x y => if y.den = 1 then x ^ y.num else x }

/-- The formula of `inputs[INPUT_SPEED1]` and `inputs[INPUT_SPEED2]`
(`brush_update_settings_values`, lines 249-250) for the speed `i` at the slow
speed `x`: `log (gamma[i] + x) * m[i] + q[i]`. -/
def speed_input (E : Env α) (b : Brush α) (i : Nat) (x : α) : α :=
  E.log (b.speed_mapping_gamma i + x) * b.speed_mapping_m i + b.speed_mapping_q i
/-- The reference environment in a build without `NDEBUG`: `assert` is active. -/
def debugEnv : Env ℚ := { refEnv with NDEBUG := false }

/-- The scenario brush made pressure sensitive: `OPAQUE_MULTIPLY` has the base
value 0 and the pressure curve `(0, 0), (1, 1)`, so the opacity of a dab is
the pressure. -/
def pressureBrush : Brush ℚ :=
  { scenarioBrush with
    settings := Function.update scenarioSettings BRUSH_OPAQUE_MULTIPLY
      ⟨0, fun i => if i = INPUT_PRESSURE then [(0, 0), (1, 1)] else []⟩ }

/-- The count of `brush_count_dabs_to` with the smallest radius
`ACTUAL_RADIUS_MIN` in place of the state radius: an upper bound of the dabs
still due, whatever radius the mappings produce along the way. -/
def worst_count (E : Env α) (b : Brush α) (x y dt : α) : α :=
  E.sqrtf ((x - b.states STATE_X) * (x - b.states STATE_X)
      + (y - b.states STATE_Y) * (y - b.states STATE_Y)) / ACTUAL_RADIUS_MIN
      * (b.settings BRUSH_DABS_PER_ACTUAL_RADIUS).base_value
    + E.sqrtf ((x - b.states STATE_X) * (x - b.states STATE_X)
      + (y - b.states STATE_Y) * (y - b.states STATE_Y))
      / radius_clamp (E.expf (b.settings BRUSH_RADIUS_LOGARITHMIC).base_value)
      * (b.settings BRUSH_DABS_PER_BASIC_RADIUS).base_value
    + dt * (b.settings BRUSH_DABS_PER_SECOND).base_value

/-- The loop states that the dab loop towards `x`, `y`, `pressure` goes through
from `s`: `s` itself, and the state after the body whenever the loop condition
holds and the body returns. -/
inductive LoopReach (E : Env α) (x y pressure : α) (s : LoopVars α) : LoopVars α → Prop where
  | start : LoopReach E x y pressure s s
  | step (t t' : LoopVars α) : LoopReach E x y pressure s t →
      t.dist_moved + t.dist_todo ≥ 1 → dab_loop_body E x y pressure t = .ok t' →
      LoopReach E x y pressure s t'

/-- The loop invariant behind the termination of the dab loop: `dist_moved`
in `[0, 1)`, non-negative time left, the settings of `b`, and
`0 <= dist_todo <= worst_count`. -/
def LoopBound (E : Env α) (b : Brush α) (x y : α) (t : LoopVars α) : Prop :=
  0 ≤ t.dist_moved ∧ t.dist_moved < 1 ∧ 0 ≤ t.dtime_left ∧ t.b.settings = b.settings ∧
  0 ≤ t.dist_todo ∧ t.dist_todo ≤ worst_count E t.b x y t.dtime_left

/-! ### The rounding of C's floating types

The definitions above compute in an exact field.  Where the outcome of the
code depends on the rounding of `float` and `double`, the functions concerned
are embedded a second time, below, with every arithmetic operation followed by
the rounding of its C type.  Floating-point numbers are rationals; IEEE 754
rounding to nearest, ties to even, is defined on `ℚ`. -/

/-- Largest `k` with `2 ^ k ≤ n`, for `n ≥ 1`, found by halving; `fuel` bounds
the number of halvings. -/
def log2_floor : Nat → Nat → Nat
  | 0, _ => 0
  | fuel + 1, n => if n < 2 then 0 else log2_floor fuel (n / 2) + 1

/-- The power `2 ^ k` of two as a rational, for an integer exponent. -/
def pow2 (k : Int) : ℚ :=
  if 0 ≤ k then ((2 ^ k.toNat : Nat) : ℚ) else 1 / ((2 ^ (-k).toNat : Nat) : ℚ)

/-- The binary exponent of a positive rational `a`: the `e` with
`2 ^ e ≤ a < 2 ^ (e + 1)`. -/
def binary_exponent (a : ℚ) : Int :=
  let e0 : Int := (log2_floor a.num.natAbs a.num.natAbs : Int) - (log2_floor a.den a.den : Int)
  if pow2 e0 ≤ a then e0 else e0 - 1

/-- Rounding of a rational to the nearest integer, ties to the even one. -/
def round_half_even (q : ℚ) : Int :=
  if q - ⌊q⌋ < 1 / 2 then ⌊q⌋
  else if q - ⌊q⌋ > 1 / 2 then ⌊q⌋ + 1
  else if ⌊q⌋ % 2 = 0 then ⌊q⌋ else ⌊q⌋ + 1

/-- The spacing of the floating-point numbers around a positive rational `a`
in the binary format with `p` significand bits and least normal exponent
`emin`: `2 ^ (max (e, emin) - (p - 1))` with `e` the binary exponent of `a`. -/
def binary_quantum (p : Nat) (emin : Int) (a : ℚ) : ℚ :=
  pow2 (max (binary_exponent a) emin - (p - 1))

/-- IEEE 754 rounding to nearest, ties to even, of a non-negative rational to
the binary format with `p` significand bits and least normal exponent `emin`
(subnormal numbers included; the exponent is not bounded above, so that
overflow to infinity is not represented). -/
def binary_round_abs (p : Nat) (emin : Int) (a : ℚ) : ℚ :=
  if a = 0 then 0
  else (round_half_even (a / binary_quantum p emin a) : ℚ) * binary_quantum p emin a

/-- IEEE 754 rounding to nearest, ties to even, of a rational. -/
def binary_round (p : Nat) (emin : Int) (q : ℚ) : ℚ :=
  if q < 0 then -binary_round_abs p emin (-q) else binary_round_abs p emin q

/-- The values of C's `float` on the usual platforms: IEEE 754 binary32. -/
def binary32 (q : ℚ) : ℚ := binary_round 24 (-126) q

/-- The values of C's `double`: IEEE 754 binary64. -/
def binary64 (q : ℚ) : ℚ := binary_round 53 (-1022) q

/-- The rounding of the two floating types of C: `fl` takes the exact result of
an operation to the `float` that is stored, `dl` to the `double`.  Every
operation is rounded to the type that the usual arithmetic conversions give it
(`FLT_EVAL_METHOD == 0`, as with SSE arithmetic on x86-64): an operation on
two `float`s is a `float` operation, an operation with a `double` operand
(such as the constant `1.0`) is a `double` operation. -/
structure Rounding (α : Type) where
  fl : α → α
  dl : α → α

/-- `Brush::exp_decay` (lines 135-143) with the rounding of its C types: both
parameters and the result are `float`, the constant `0.001` is a `double`, and
the quotient `- t / T_const` is a `float` division. -/
def exp_decay_fp (F : Rounding α) (E : Env α) (T_const t : α) : α :=
  if T_const ≤ F.dl (1 / 1000) then 0 else F.fl (E.exp (F.fl (-t / T_const)))

/-- The low-pass update `v + (target - v) * fac` as C computes it on `float`
operands (lines 545-546, and the `+=` updates of
`brush_update_settings_values`): each of the three operations is rounded. -/
def low_pass_fp (F : Rounding α) (v target fac : α) : α :=
  F.fl (v + F.fl (F.fl (target - v) * fac))

/-- The factor `fac = 1.0 - exp_decay (T, t)` of a low-pass filter as C
computes it: the difference is a `double`, stored in a `float`. -/
def decay_fac_fp (F : Rounding α) (E : Env α) (T_const t : α) : α :=
  F.fl (F.dl (1 - exp_decay_fp F E T_const t))

/-- The factor `fac` of line 544, `1.0 - exp_decay (T, 100.0*dtime)`: the
product is a `double` passed as a `float`. -/
def tracking_fac_fp (F : Rounding α) (E : Env α) (T_const dtime : α) : α :=
  decay_fac_fp F E T_const (F.fl (F.dl (100 * dtime)))

/-- The block "calculate the actual virtual cursor position" (lines 533-547)
with the rounding of its `float` operations; `x`, `y` are `float`s and `dtime`
is a `double`. -/
def virtual_cursor_fp (F : Rounding α) (E : Env α) (b : Brush α) (x y dtime : α) :
    α × α × Brush α :=
  let tracking_noise := (b.settings BRUSH_TRACKING_NOISE).base_value
  let base_radius := E.expf (b.settings BRUSH_RADIUS_LOGARITHMIC).base_value
  let g1 := E.rand_gauss b.rng
  let g2 := E.rand_gauss g1.2
  let x := if tracking_noise ≠ 0
    then F.fl (x + F.fl (F.fl (g1.1 * tracking_noise) * base_radius)) else x
  let y := if tracking_noise ≠ 0
    then F.fl (y + F.fl (F.fl (g2.1 * tracking_noise) * base_radius)) else y
  let b := if tracking_noise ≠ 0 then { b with rng := g2.2 } else b
  let fac := tracking_fac_fp F E (b.settings BRUSH_SLOW_TRACKING).base_value dtime
  let x := low_pass_fp F (b.states STATE_X) x fac
  let y := low_pass_fp F (b.states STATE_Y) y fac
  (x, y, b)

/-- `Brush::brush_count_dabs_to` (lines 490-521) with the rounding of its
`float` operations; the parameter `dt` is a `float`.  The macro
`ACTUAL_RADIUS_MIN` is the `double` constant `0.2`. -/
def brush_count_dabs_to_fp (F : Rounding α) (E : Env α) (b : Brush α) (x y _pressure dt : α) :
    α × Brush α :=
  let st := b.states
  let st := if st STATE_ACTUAL_RADIUS = 0
    then Function.update st STATE_ACTUAL_RADIUS (E.expf (b.settings BRUSH_RADIUS_LOGARITHMIC).base_value)
    else st
  let st := if st STATE_ACTUAL_RADIUS < F.dl ACTUAL_RADIUS_MIN
    then Function.update st STATE_ACTUAL_RADIUS (F.fl (F.dl ACTUAL_RADIUS_MIN)) else st
  let st := if st STATE_ACTUAL_RADIUS > ACTUAL_RADIUS_MAX
    then Function.update st STATE_ACTUAL_RADIUS ACTUAL_RADIUS_MAX else st
  let base_radius := E.expf (b.settings BRUSH_RADIUS_LOGARITHMIC).base_value
  let base_radius := if base_radius < F.dl ACTUAL_RADIUS_MIN
    then F.fl (F.dl ACTUAL_RADIUS_MIN) else base_radius
  let base_radius := if base_radius > ACTUAL_RADIUS_MAX then ACTUAL_RADIUS_MAX else base_radius
  let dx := F.fl (x - st STATE_X)
  let dy := F.fl (y - st STATE_Y)
  let dist := E.sqrtf (F.fl (F.fl (dx * dx) + F.fl (dy * dy)))
  let res1 := F.fl (F.fl (dist / st STATE_ACTUAL_RADIUS)
    * (b.settings BRUSH_DABS_PER_ACTUAL_RADIUS).base_value)
  let res2 := F.fl (F.fl (dist / base_radius) * (b.settings BRUSH_DABS_PER_BASIC_RADIUS).base_value)
  let res3 := F.fl (dt * (b.settings BRUSH_DABS_PER_SECOND).base_value)
  (F.fl (F.fl (res1 + res2) + res3), { b with states := st })

/-- The local `frac` of the dab loop (lines 593-601) with the rounding of C:
`1.0` is a `double`, so the difference and the quotient are `double`
operations, and the result is stored in the `float` `frac`. -/
def dab_frac_fp (F : Rounding α) (s : LoopVars α) : α :=
  if s.dist_moved > 0 then F.fl (F.dl (F.dl (1 - s.dist_moved) / s.dist_todo))
  else F.fl (F.dl (1 / s.dist_todo))

/-- The linear interpolation step of the dab loop (lines 602-611) with the
rounding of its `float` operations. -/
def dab_move_fp (F : Rounding α) (x y pressure : α) (s : LoopVars α) : Brush α :=
  let frac := dab_frac_fp F s
  let b := s.b
  let dx := F.fl (frac * F.fl (x - b.states STATE_X))
  let dy := F.fl (frac * F.fl (y - b.states STATE_Y))
  let dpressure := F.fl (frac * F.fl (pressure - b.states STATE_PRESSURE))
  let st := b.states
  let st := Function.update st STATE_X (F.fl (st STATE_X + dx))
  let st := Function.update st STATE_Y (F.fl (st STATE_Y + dy))
  let st := Function.update st STATE_PRESSURE (F.fl (st STATE_PRESSURE + dpressure))
  { b with dx := dx, dy := dy, dpressure := dpressure, states := st }

/-- The body of `while (dist_moved + dist_todo >= 1.0)` (lines 592-622) with the
rounding of the loop's own arithmetic: `dtime` and `dtime_left` are `double`s,
`brush_count_dabs_to` takes `dtime_left` as a `float`.  The two callees
`brush_update_settings_values` and `brush_prepare_and_draw_dab` are the
embeddings above, whose arithmetic is not rounded; they write none of
`dist_moved`, `dist_todo`, `dtime_left`, `states[STATE_X]`, `states[STATE_Y]`
(of what they write, `brush_count_dabs_to` reads `states[STATE_ACTUAL_RADIUS]`,
which enters `dist_todo` only when `DABS_PER_ACTUAL_RADIUS` is not 0). -/
def dab_loop_body_fp (F : Rounding α) (E : Env α) (x y pressure : α) (s : LoopVars α) :
    Except Fault (LoopVars α) := do
  let frac := dab_frac_fp F s
  let dist_moved := if s.dist_moved > 0 then 0 else s.dist_moved
  let dtime := F.dl (frac * F.dl (s.dtime_left - 0))
  let b ← brush_update_settings_values E (dab_move_fp F x y pressure s)
  let r ← brush_prepare_and_draw_dab E b s.rc
  let painted_now := r.1
  let painted := painted_update s.painted painted_now
  let dtime_left := F.dl (s.dtime_left - dtime)
  let c := brush_count_dabs_to_fp F E r.2.1 x y pressure (F.fl dtime_left)
  pure { b := c.2, rc := r.2.2, dist_moved := dist_moved, dist_todo := c.1, dtime := dtime,
         dtime_left := dtime_left, painted := painted }

/-- The loop `while (dist_moved + dist_todo >= 1.0)` (line 591) with the
rounding of C: the sum of the two `float`s is a `float`.  `fuel` bounds the
number of iterations. -/
def dab_loop_fp (F : Rounding α) (E : Env α) (x y pressure : α) :
    Nat → LoopVars α → Except Fault (LoopVars α)
  | 0, s => if F.fl (s.dist_moved + s.dist_todo) ≥ 1 then .error Fault.out_of_fuel else .ok s
  | fuel + 1, s =>
    if F.fl (s.dist_moved + s.dist_todo) ≥ 1 then
      (dab_loop_body_fp F E x y pressure s).bind (dab_loop_fp F E x y pressure fuel)
    else .ok s

/-- The move of the brush to the current time after the dab loop (lines
632-639) with the rounding of its `float` differences. -/
def tail_move_fp (F : Rounding α) (x y pressure : α) (b : Brush α) : Brush α :=
  let dx := F.fl (x - b.states STATE_X)
  let dy := F.fl (y - b.states STATE_Y)
  let dpressure := F.fl (pressure - b.states STATE_PRESSURE)
  let st := b.states
  let st := Function.update st STATE_X x
  let st := Function.update st STATE_Y y
  let st := Function.update st STATE_PRESSURE pressure
  { b with dx := dx, dy := dy, dpressure := dpressure, states := st }

/-- The block after the dab loop (lines 625-653) with the rounding of C: the
sum stored in `states[STATE_DIST]` is a `float` sum. -/
def loop_tail_fp (F : Rounding α) (E : Env α) (x y pressure : α) (s : LoopVars α) :
    Except Fault (Brush α) := do
  let b ← brush_update_settings_values E (tail_move_fp F x y pressure s.b)
  let b := { b with
    states := Function.update b.states STATE_DIST (F.fl (s.dist_moved + s.dist_todo)) }
  let bbox := s.rc.bbox
  let expanded := E.ExpandRectToIncludePoint
    (E.ExpandRectToIncludePoint b.stroke_bbox bbox.x bbox.y)
    (bbox.x + bbox.w - 1) (bbox.y + bbox.h - 1)
  pure (if bbox.w > 0 then { b with stroke_bbox := expanded } else b)

/-- The variables of `any_surface_stroke_to` when the dab loop is reached
(lines 533-553 and 588-589) with the rounding of C: `brush_count_dabs_to`
takes the `double` `dtime` as a `float`. -/
def loop_start_fp (F : Rounding α) (E : Env α) (b : Brush α) (rc : RenderContext α)
    (x y pressure dtime : α) : LoopVars α :=
  let v := virtual_cursor_fp F E b x y dtime
  let c := brush_count_dabs_to_fp F E v.2.2 v.1 v.2.1 pressure (F.fl dtime)
  { b := c.2, rc := rc, dist_moved := v.2.2.states STATE_DIST, dist_todo := c.1, dtime := dtime,
    dtime_left := dtime, painted := UNKNOWN }

/-- `Brush::any_surface_stroke_to` (lines 524-696) with the rounding of C in
the arithmetic of the function itself and of `brush_count_dabs_to`; `x`, `y`,
`pressure` are `float`s and `dtime` is a `double`.  With the identity as
rounding this is `any_surface_stroke_to`. -/
def any_surface_stroke_to_fp (F : Rounding α) (E : Env α) (fuel : Nat) (b : Brush α)
    (rc : RenderContext α) (x y pressure dtime : α) :
    Except Fault (Brush α × RenderContext α) :=
  if dtime ≤ 0 then pure (b, rc)
  else
    let v := virtual_cursor_fp F E b x y dtime
    let s0 := loop_start_fp F E b rc x y pressure dtime
    let x := v.1
    let y := v.2.1
    if dtime > 5 ∨ s0.dist_todo > 300 then
      pure (reset_branch E s0.b x y pressure, rc)
    else do
      let s ← dab_loop_fp F E x y pressure fuel s0
      let b ← loop_tail_fp F E x y pressure s
      let dtime := s.dtime_left
      let b ← stroke_separation_logic E b s.painted pressure dtime
      pure (b, s.rc)

/-- The rounding of IEEE 754: `float` is binary32 and `double` is binary64. -/
def ieee : Rounding ℚ := ⟨binary32, binary64⟩

/-- A brush that emits one dab per second and none per radius, at rest at the
origin with half a dab already done (`states[STATE_DIST] = 0.5`). -/
def tickBrush : Brush ℚ :=
  { scenarioBrush with
    settings := Function.update
      (Function.update scenarioSettings BRUSH_DABS_PER_ACTUAL_RADIUS ⟨0, fun _ => []⟩)
      BRUSH_DABS_PER_SECOND ⟨1, fun _ => []⟩
    states := Function.update (fun _ => 0) STATE_DIST (1 / 2) }

/-- The reference environment with a stand-in for `exp` that takes the
non-positive numbers into `(0, 1]`, however large the argument. -/
def decayEnv : Env ℚ := { refEnv with exp := fun u => 1 / (1 - u) }

/-- The scenario brush with the cursor state at `x = 3`. -/
def trackBrush : Brush ℚ :=
  { scenarioBrush with states := Function.update (fun _ => 0) STATE_X 3 }

/-- The reference environment in a release build: `g_assert` is compiled out
as well. -/
def releaseEnv : Env ℚ := { refEnv with G_DISABLE_ASSERT := true }

/-- The settings of a brush with a large radius (`RADIUS_LOG = 10`, clamped to
`ACTUAL_RADIUS_MAX`) that emits one dab per basic radius and no other. -/
def farSettings : BrushSetting → Mapping ℚ := fun i =>
  match i with
  | BRUSH_RADIUS_LOGARITHMIC => ⟨10, fun _ => []⟩
  | BRUSH_DABS_PER_BASIC_RADIUS => ⟨1, fun _ => []⟩
  | BRUSH_OPAQUE => ⟨1, fun _ => []⟩
  | BRUSH_HARDNESS => ⟨1 / 2, fun _ => []⟩
  | _ => ⟨0, fun _ => []⟩

/-- A brush with the settings `farSettings` whose cursor state is far from the
origin, at `x = 1e10`, where neighbouring `float`s are 1024 apart. -/
def farBrush : Brush ℚ :=
  { scenarioBrush with
    settings := farSettings
    states := Function.update (fun _ => 0) STATE_X 10000000000 }
/-- What the iterations of the dab loop leave unchanged for the far brush and
the sample `x = 1e10 + 1024`: the settings, the position, `dist_moved` and
`dist_todo`. -/
def FarLoop (s : LoopVars ℚ) : Prop :=
  s.b.settings = farSettings ∧ s.b.states STATE_X = 10000000000 ∧ s.b.states STATE_Y = 0 ∧
    s.dist_moved = 0 ∧ s.dist_todo = 7158279 / 1048576

/-! ## Theorems -/

set_option linter.unusedSectionVars false

section Basic

variable (E : Env α)

/-- C1: `any_surface_stroke_to` called with `dtime <= 0` is a no-op: it returns
the brush and the render context it was given, so the state vector,
`stroke_total_painting_time`, `stroke_idling_time`, `stroke_bbox` and the
exception latch are unchanged, no dab is logged, the random source is not
advanced and `split_stroke` is not counted. -/
theorem stroke_to_nonpositive_dtime_noop (fuel : Nat) (b : Brush α) (rc : RenderContext α)
    (x y pressure dtime : α) (h : dtime ≤ 0) :
    any_surface_stroke_to E fuel b rc x y pressure dtime = .ok (b, rc) := by
  simp [any_surface_stroke_to, h, pure, Except.pure]

end Basic

/-- Witness of C1: the scenario brush dropped an event with `dtime = 0`. -/
theorem stroke_to_nonpositive_dtime_noop_witness :
    (0 : ℚ) ≤ 0 ∧
      any_surface_stroke_to refEnv 0 scenarioBrush scenarioRc 3 4 1 0
        = .ok (scenarioBrush, scenarioRc) :=
  ⟨le_refl 0, stroke_to_nonpositive_dtime_noop refEnv 0 scenarioBrush scenarioRc 3 4 1 0 (le_refl 0)⟩

section Basic2
variable (E : Env α)

/-- C8: after `split_stroke` returns, `stroke_total_painting_time = 0`,
`stroke_idling_time = 0` and `stroke_bbox` is the empty rectangle
(`x = y = w = h = 0`), whether or not a callback is installed and whether or not
it failed; the callback, if any, is called exactly once; the state vector, the
settings and the precomputed speed coefficients are unchanged. -/
theorem split_stroke_resets (b : Brush α) :
    (split_stroke E b).stroke_total_painting_time = 0 ∧
    (split_stroke E b).stroke_idling_time = 0 ∧
    (split_stroke E b).stroke_bbox = ⟨0, 0, 0, 0⟩ ∧
    (split_stroke E b).callback_calls
      = b.callback_calls + (if b.split_stroke_callback.isSome then 1 else 0) ∧
    (split_stroke E b).states = b.states ∧
    (split_stroke E b).settings = b.settings ∧
    (split_stroke E b).settings_value = b.settings_value ∧
    (split_stroke E b).speed_mapping_gamma = b.speed_mapping_gamma ∧
    (split_stroke E b).speed_mapping_m = b.speed_mapping_m ∧
    (split_stroke E b).speed_mapping_q = b.speed_mapping_q := by
  unfold split_stroke
  cases hcb : b.split_stroke_callback with
  | none => simp
  | some cb =>
    by_cases hres : (E.PyEval_CallObject cb b.py).1 = false <;> simp [hres]

/-- `split_stroke` counts one call of itself. -/
theorem split_stroke_split_calls (b : Brush α) :
    (split_stroke E b).split_calls = b.split_calls + 1 := by
  unfold split_stroke
  cases hcb : b.split_stroke_callback with
  | none => simp
  | some cb =>
    by_cases hres : (E.PyEval_CallObject cb b.py).1 = false <;> simp [hres]

/-- `split_stroke` leaves the state vector alone. -/
theorem split_stroke_states (b : Brush α) : (split_stroke E b).states = b.states := by
  unfold split_stroke
  cases hcb : b.split_stroke_callback with
  | none => simp
  | some cb =>
    by_cases hres : (E.PyEval_CallObject cb b.py).1 = false <;> simp [hres]

/-- `brush_count_dabs_to` changes neither the split counter nor the settings. -/
theorem brush_count_dabs_to_frame (b : Brush α) (x y p dt : α) :
    (brush_count_dabs_to E b x y p dt).2.split_calls = b.split_calls ∧
    (brush_count_dabs_to E b x y p dt).2.settings = b.settings := by
  simp [brush_count_dabs_to]

/-- The cursor block changes neither the split counter, the settings nor the states. -/
theorem virtual_cursor_frame (b : Brush α) (x y dt : α) :
    (virtual_cursor E b x y dt).2.2.split_calls = b.split_calls ∧
    (virtual_cursor E b x y dt).2.2.settings = b.settings ∧
    (virtual_cursor E b x y dt).2.2.states = b.states := by
  unfold virtual_cursor
  by_cases h : (b.settings BRUSH_TRACKING_NOISE).base_value = 0 <;> simp [h]

/-- Without tracking noise and with slow tracking off, the cursor is the raw sample. -/
theorem virtual_cursor_raw (b : Brush α) (x y dt : α)
    (hn : (b.settings BRUSH_TRACKING_NOISE).base_value = 0)
    (hs : (b.settings BRUSH_SLOW_TRACKING).base_value ≤ 1 / 1000) :
    (virtual_cursor E b x y dt).1 = x ∧ (virtual_cursor E b x y dt).2.1 = y := by
  simp only [virtual_cursor, hn, exp_decay, if_pos hs, ne_eq, not_true_eq_false, if_false]
  constructor <;> ring

/-- C2: for every event with `dtime > 5` or `dist_todo > 300` (where `dist_todo`
is `brush_count_dabs_to` at the tracked sample for the whole event, as in
`loop_start`),
`any_surface_stroke_to` returns the render context unchanged (no dab), counts
exactly one `split_stroke`, and leaves every state at 0 except: `x` and
`actual_x` are the event's x and `y`, `actual_y` the event's y after tracking
noise and slow tracking (the raw sample when both are disabled), `pressure` is
the event's pressure, and `stroke` is 1. -/
theorem discontinuity_resets (fuel : Nat) (b : Brush α) (rc : RenderContext α)
    (x y pressure dtime : α) (hpos : 0 < dtime)
    (hdisc : dtime > 5 ∨ (loop_start E b rc x y pressure dtime).dist_todo > 300) :
    ∃ b', any_surface_stroke_to E fuel b rc x y pressure dtime = .ok (b', rc) ∧
      b'.split_calls = b.split_calls + 1 ∧
      (∀ i, b'.states i =
        if i = STATE_X ∨ i = STATE_ACTUAL_X then (virtual_cursor E b x y dtime).1
        else if i = STATE_Y ∨ i = STATE_ACTUAL_Y then (virtual_cursor E b x y dtime).2.1
        else if i = STATE_PRESSURE then pressure
        else if i = STATE_STROKE then 1 else 0) ∧
      ((b.settings BRUSH_TRACKING_NOISE).base_value = 0 →
        (b.settings BRUSH_SLOW_TRACKING).base_value ≤ 1 / 1000 →
        (virtual_cursor E b x y dtime).1 = x ∧ (virtual_cursor E b x y dtime).2.1 = y) := by
  refine ⟨reset_branch E (loop_start E b rc x y pressure dtime).b
      (virtual_cursor E b x y dtime).1 (virtual_cursor E b x y dtime).2.1 pressure,
    ?_, ?_, ?_, virtual_cursor_raw E b x y dtime⟩
  · simp only [any_surface_stroke_to, not_le.mpr hpos, if_false, hdisc, if_true]
    rfl
  · simp only [reset_branch, split_stroke_split_calls, loop_start]
    rw [(brush_count_dabs_to_frame E _ _ _ _ _).1, (virtual_cursor_frame E _ _ _ _).1]
  · intro i
    simp only [reset_branch, split_stroke_states]
    cases i <;> simp [Function.update]

end Basic2


/-- Witness of C2, scenario S3: zeroed state, default brush, event
`(10000, 10000, 1.0, 0.05)`. -/
theorem discontinuity_resets_witness :
    ∃ b', any_surface_stroke_to refEnv 0 scenarioBrush scenarioRc 10000 10000 1 (1 / 20)
        = .ok (b', scenarioRc) ∧
      b'.split_calls = 1 ∧ b'.states STATE_X = 10000 ∧ b'.states STATE_ACTUAL_X = 10000 ∧
      b'.states STATE_Y = 10000 ∧ b'.states STATE_PRESSURE = 1 ∧ b'.states STATE_STROKE = 1 ∧
      b'.states STATE_DIST = 0 ∧ b'.states STATE_ACTUAL_RADIUS = 0 := by
  obtain ⟨b', h1, h2, h3, h4⟩ :=
    discontinuity_resets refEnv 0 scenarioBrush scenarioRc 10000 10000 1 (1 / 20)
      (by norm_num) (Or.inr (by decide!))
  have hraw := h4 (by decide!) (by decide!)
  refine ⟨b', h1, ?_, ?_, ?_, ?_, ?_, ?_, ?_, ?_⟩
  · rw [h2]; decide!
  · rw [h3, hraw.1]; simp
  · rw [h3, hraw.1]; simp
  · rw [h3, hraw.2]; simp
  · rw [h3]; simp
  · rw [h3]; simp
  · rw [h3]; simp
  · rw [h3]; simp

section Serial
variable (E : Env α)

/-- Writing floats after `init` appends to `init`. -/
theorem write_foldl_append (b : Brush α) (l : List State) (init : List Nat) :
    l.foldl (fun bs i => BS_WRITE_FLOAT E bs (b.states i)) init
      = init ++ l.foldl (fun bs i => BS_WRITE_FLOAT E bs (b.states i)) [] := by
  induction l generalizing init with
  | nil => simp
  | cons i l ih =>
    simp only [List.foldl_cons]
    rw [ih (BS_WRITE_FLOAT E init (b.states i)), ih (BS_WRITE_FLOAT E [] (b.states i))]
    simp [BS_WRITE_FLOAT]

/-- The four little-endian bytes of a 32-bit pattern recombine to it. -/
theorem le_bytes_recombine (n : Nat) (h : n < 4294967296) :
    n % 256 + 256 * (n / 256 % 256) + 65536 * (n / 65536 % 256)
      + 16777216 * (n / 16777216 % 256) = n := by
  omega

/-- The bytes written for `i :: l` start with the four bytes of `states[i]`. -/
theorem write_foldl_cons (b : Brush α) (i : State) (l : List State) :
    (i :: l).foldl (fun bs i => BS_WRITE_FLOAT E bs (b.states i)) []
      = E.float_bits (b.states i) % 256 :: E.float_bits (b.states i) / 256 % 256
        :: E.float_bits (b.states i) / 65536 % 256 :: E.float_bits (b.states i) / 16777216 % 256
        :: l.foldl (fun bs i => BS_WRITE_FLOAT E bs (b.states i)) [] := by
  rw [List.foldl_cons, write_foldl_append]
  rfl

/-- One iteration of the reading loop on at least four bytes. -/
theorem set_state_loop_four (i : State) (l : List State) (b0 b1 b2 b3 : Nat) (p : List Nat)
    (st : State → α) :
    set_state_loop E (i :: l) (b0 :: b1 :: b2 :: b3 :: p) st
      = set_state_loop E l p
          (Function.update st i (E.bits_float (b0 + 256 * b1 + 65536 * b2 + 16777216 * b3))) :=
  rfl

/-- Reading back what was written for the indices `l` restores those states. -/
theorem set_state_loop_written (b : Brush α) (l : List State) (st : State → α)
    (hrep : ∀ i, E.float_bits (b.states i) < 4294967296 ∧
      E.bits_float (E.float_bits (b.states i)) = b.states i) :
    ∀ j, set_state_loop E l (l.foldl (fun bs i => BS_WRITE_FLOAT E bs (b.states i)) []) st j
      = if j ∈ l then b.states j else st j := by
  induction l generalizing st with
  | nil => intro j; simp [set_state_loop]
  | cons i l ih =>
    intro j
    rw [write_foldl_cons, set_state_loop_four, le_bytes_recombine _ (hrep i).1, (hrep i).2, ih]
    by_cases hj : j ∈ l
    · simp [hj]
    · by_cases hji : j = i
      · subst hji; simp [hj]
      · simp [hj, hji, Function.update]

/-- Every state ordinal is below `STATE_COUNT`. -/
theorem mem_stateOrder (j : State) : j ∈ stateOrder := by
  cases j <;> simp [stateOrder]

/-- `get_state` is the version id followed by the written floats. -/
theorem get_state_eq (b : Brush α) :
    get_state E b = 49 :: stateOrder.foldl (fun bs i => BS_WRITE_FLOAT E bs (b.states i)) [] := by
  unfold get_state
  rw [write_foldl_append]
  rfl

/-- `set_state` on a string with version id `'1'`. -/
theorem set_state_tagged (b : Brush α) (p : List Nat) :
    set_state E b (49 :: p)
      = { b with states := set_state_loop E stateOrder p (fun _ => 0) } := by
  unfold set_state BS_READ_CHAR
  exact if_neg (fun h => h rfl)

/-- C4: for every state vector whose entries are 32-bit floats (each is what
its own bit pattern decodes to), `set_state` on the byte string returned by
`get_state` restores every state variable to exactly the same bit pattern,
whatever the states of the receiving brush `b0` were, and changes nothing else
of the receiving brush; on the brush the bytes came from,
`set_state(get_state())` is the identity. -/
theorem set_state_get_state (b b0 : Brush α)
    (hrep : ∀ i, E.float_bits (b.states i) < 4294967296 ∧
      E.bits_float (E.float_bits (b.states i)) = b.states i) :
    set_state E b0 (get_state E b) = { b0 with states := b.states } ∧
      (∀ i, (set_state E b0 (get_state E b)).states i = b.states i ∧
        E.float_bits ((set_state E b0 (get_state E b)).states i)
          = E.float_bits (b.states i)) ∧
      set_state E b (get_state E b) = b := by
  have key : ∀ c : Brush α, set_state E c (get_state E b) = { c with states := b.states } := by
    intro c
    rw [get_state_eq, set_state_tagged]
    have : set_state_loop E stateOrder
        (stateOrder.foldl (fun bs i => BS_WRITE_FLOAT E bs (b.states i)) []) (fun _ => 0)
          = b.states := by
      funext j
      rw [set_state_loop_written E b stateOrder _ hrep j, if_pos (mem_stateOrder j)]
    rw [this]
  exact ⟨key b0, fun i => by rw [key b0]; exact ⟨rfl, rfl⟩, key b⟩

end Serial


/-- Witness of C4: the bytes of a state vector with several different values
are loaded into a brush whose own states are all zero. -/
theorem set_state_get_state_witness :
    scenarioBrush.states STATE_Y = 0 ∧
      set_state refEnv scenarioBrush (get_state refEnv serialBrush)
        = { scenarioBrush with states := serialBrush.states } ∧
      (set_state refEnv scenarioBrush (get_state refEnv serialBrush)).states STATE_Y = 70000 ∧
      set_state refEnv serialBrush (get_state refEnv serialBrush) = serialBrush :=
  have h := set_state_get_state refEnv serialBrush scenarioBrush
    (by intro i; cases i <;> decide!)
  ⟨rfl, h.1, by rw [h.1]; rfl, h.2.2⟩



section Latch
variable (E : Env α)

/-- C5, amended: a failing host callback latches the exception in
`split_stroke`; `tiled_surface_stroke_to` first runs `any_surface_stroke_to`
(which paints and moves the state as usual) and only then looks at the latch:
it returns `NULL` exactly when the latch is set after the event, and in every
case hands back the brush of the event with the latch clear. -/
theorem exception_latch_checked_after_event (fuel : Nat) (b : Brush α) (tiled_surface : Nat)
    (garbage : Rect) (x y pressure dtime : α) (b1 : Brush α) (rc1 : RenderContext α)
    (h : any_surface_stroke_to E fuel b
        { tiled_surface := tiled_surface, bbox := { garbage with w := 0 }, dabs := [],
          results := [] } x y pressure dtime = .ok (b1, rc1)) :
    (∀ (b0 : Brush α) (cb : Nat), b0.split_stroke_callback = some cb →
        (E.PyEval_CallObject cb b0.py).1 = false → (split_stroke E b0).exception = true) ∧
    ∃ res, tiled_surface_stroke_to E fuel b tiled_surface garbage x y pressure dtime
        = .ok (res, { b1 with exception := false }, rc1) ∧
      (res = PyResult.NULL ↔ b1.exception = true) := by
  constructor
  · intro b0 cb hcb hres
    unfold split_stroke
    simp [hcb, hres]
  · unfold tiled_surface_stroke_to
    simp only [h, bind, Except.bind]
    by_cases he : b1.exception = true
    · refine ⟨PyResult.NULL, ?_, by simp [he]⟩
      simp [he, pure, Except.pure]
    · have he' : b1.exception = false := by simpa using he
      have hb : ({ b1 with exception := false } : Brush α) = b1 := by
        cases b1; simp_all
      by_cases hw : rc1.bbox.w = 0
      · refine ⟨PyResult.Py_None, ?_, by simp [he']⟩
        simp [he', hw, pure, Except.pure, hb]
      · refine ⟨PyResult.tuple rc1.bbox.x rc1.bbox.y rc1.bbox.w rc1.bbox.h, ?_, by simp [he']⟩
        simp [he', hw, pure, Except.pure, hb]

end Latch


/-- Counterexample to C5 as stated: with the exception latched by a failed
callback, the next `tiled_surface_stroke_to` returns `NULL` only after it has
drawn a dab (which painted: the surface returned 1) and moved `STATE_X` from 0
to 2. -/
theorem latched_call_paints_before_error :
    latchedBrush.exception = true ∧
    ∃ b2 rc1, tiled_surface_stroke_to failEnv 5 latchedBrush 0 ⟨0, 0, 0, 0⟩ 2 0 1 1
        = .ok (PyResult.NULL, b2, rc1) ∧
      rc1.dabs.length = 1 ∧ rc1.results = [1] ∧ b2.states STATE_X = 2 ∧
      latchedBrush.states STATE_X = 0 := by
  refine ⟨by decide!, ?_⟩
  have hev : (match tiled_surface_stroke_to failEnv 5 latchedBrush 0 ⟨0, 0, 0, 0⟩ 2 0 1 1 with
      | .ok r => decide (r.1 = PyResult.NULL ∧ r.2.2.dabs.length = 1 ∧ r.2.2.results = [1] ∧
          r.2.1.states STATE_X = 2)
      | .error _ => false) = true := by decide!
  cases hr : tiled_surface_stroke_to failEnv 5 latchedBrush 0 ⟨0, 0, 0, 0⟩ 2 0 1 1 with
  | error e => rw [hr] at hev; simp at hev
  | ok r =>
    rw [hr] at hev
    obtain ⟨res, b2, rc1⟩ := r
    simp only [decide_eq_true_eq] at hev
    obtain ⟨h1, h2, h3, h4⟩ := hev
    subst h1
    exact ⟨b2, rc1, rfl, h2, h3, h4, by decide!⟩

/-- Witness of C5 amended: the latched painting brush and the event `(2, 0, 1, 1)`. -/
theorem exception_latch_checked_after_event_witness :
    ∃ b1 rc1, any_surface_stroke_to failEnv 5 latchedBrush
        { tiled_surface := 0, bbox := { (⟨0, 0, 0, 0⟩ : Rect) with w := 0 }, dabs := [],
          results := [] } 2 0 1 1 = .ok (b1, rc1) ∧
      tiled_surface_stroke_to failEnv 5 latchedBrush 0 ⟨0, 0, 0, 0⟩ 2 0 1 1
        = .ok (PyResult.NULL, { b1 with exception := false }, rc1) := by
  have hev : (match any_surface_stroke_to failEnv 5 latchedBrush
        { tiled_surface := 0, bbox := { (⟨0, 0, 0, 0⟩ : Rect) with w := 0 }, dabs := [],
          results := [] } 2 0 1 1 with
      | .ok r => r.1.exception
      | .error _ => false) = true := by decide!
  cases hr : any_surface_stroke_to failEnv 5 latchedBrush
        { tiled_surface := 0, bbox := { (⟨0, 0, 0, 0⟩ : Rect) with w := 0 }, dabs := [],
          results := [] } 2 0 1 1 with
  | error e => rw [hr] at hev; simp at hev
  | ok r =>
    rw [hr] at hev
    obtain ⟨b1, rc1⟩ := r
    obtain ⟨_, res, h1, h2⟩ :=
      exception_latch_checked_after_event failEnv 5 latchedBrush 0 ⟨0, 0, 0, 0⟩ 2 0 1 1 b1 rc1 hr
    have hres : res = PyResult.NULL := h2.mpr hev
    subst hres
    exact ⟨b1, rc1, rfl, h1⟩

section Frames
variable (E : Env α)

theorem clamp_pressure_of_ne (st : State → α) (i : State) (h : i ≠ STATE_PRESSURE) :
    clamp_pressure st i = st i := by
  unfold clamp_pressure
  split_ifs <;> simp [Function.update_apply, h]

theorem clamp_pressure_range (st : State → α) :
    0 ≤ clamp_pressure st STATE_PRESSURE ∧ clamp_pressure st STATE_PRESSURE ≤ 1 := by
  unfold clamp_pressure
  split_ifs with h0 h1 h1 <;> simp_all [Function.update_apply]

theorem stroke_start_end_of_ne (t p : α) (st : State → α) (i : State)
    (h1 : i ≠ STATE_STROKE_STARTED) (h2 : i ≠ STATE_STROKE) :
    stroke_start_end t p st i = st i := by
  unfold stroke_start_end
  split_ifs <;> simp [Function.update_apply, h1, h2]

theorem advance_slow_states_of_ne (sv : BrushSetting → α) (a b c d : α) (st : State → α)
    (i : State) (h1 : i ≠ STATE_ACTUAL_X) (h2 : i ≠ STATE_ACTUAL_Y)
    (h3 : i ≠ STATE_NORM_SPEED1_SLOW) (h4 : i ≠ STATE_NORM_SPEED2_SLOW)
    (h5 : i ≠ STATE_NORM_DX_SLOW) (h6 : i ≠ STATE_NORM_DY_SLOW) (h7 : i ≠ STATE_CUSTOM_INPUT) :
    advance_slow_states E sv a b c d st i = st i := by
  unfold advance_slow_states
  simp only [Function.update_apply, if_neg h1, if_neg h2, if_neg h3, if_neg h4, if_neg h5,
    if_neg h6, if_neg h7]

theorem stroke_length_of_ne (sv : BrushSetting → α) (nd : α) (st st' : State → α)
    (h : stroke_length E sv nd st = .ok st') (i : State) (hi : i ≠ STATE_STROKE) :
    st' i = st i := by
  unfold stroke_length at h
  simp only [bind, Except.bind, pure, Except.pure, c_assert] at h
  split_ifs at h <;> cases h <;> simp [Function.update_apply, hi]

theorem final_radius_of_ne (sv : BrushSetting → α) (st : State → α) (i : State)
    (h : i ≠ STATE_ACTUAL_RADIUS) : final_radius E sv st i = st i := by
  unfold final_radius
  split_ifs <;> simp [Function.update_apply, h]

theorem final_radius_range (sv : BrushSetting → α) (st : State → α) :
    ACTUAL_RADIUS_MIN ≤ final_radius E sv st STATE_ACTUAL_RADIUS ∧
      final_radius E sv st STATE_ACTUAL_RADIUS ≤ ACTUAL_RADIUS_MAX := by
  have hmm : (ACTUAL_RADIUS_MIN : α) ≤ ACTUAL_RADIUS_MAX := by
    unfold ACTUAL_RADIUS_MIN ACTUAL_RADIUS_MAX; norm_num
  unfold final_radius
  split_ifs with h0 h1 h1 <;> simp_all [Function.update_apply]

theorem final_radius_value (sv : BrushSetting → α) (st : State → α) :
    final_radius E sv st STATE_ACTUAL_RADIUS
      = radius_clamp (E.expf (sv BRUSH_RADIUS_LOGARITHMIC)) := by
  unfold final_radius radius_clamp
  by_cases h0 : E.expf (sv BRUSH_RADIUS_LOGARITHMIC) < ACTUAL_RADIUS_MIN
  · by_cases h1 : (ACTUAL_RADIUS_MIN : α) > ACTUAL_RADIUS_MAX <;>
      simp [Function.update_same, h0, h1]
  · by_cases h1 : E.expf (sv BRUSH_RADIUS_LOGARITHMIC) > ACTUAL_RADIUS_MAX <;>
      simp [Function.update_same, h0, h1]

theorem brush_update_settings_values_spec (b b' : Brush α)
    (h : brush_update_settings_values E b = .ok b') :
    ∃ dt rng inputs st,
      b' = { b with dtime := dt, rng := rng,
                    settings_value := fun i => mapping_calculate (b.settings i) inputs,
                    states := st } ∧
      st STATE_X = b.states STATE_X ∧ st STATE_Y = b.states STATE_Y ∧
      st STATE_DIST = b.states STATE_DIST ∧
      0 ≤ st STATE_PRESSURE ∧ st STATE_PRESSURE ≤ 1 ∧
      st STATE_ACTUAL_RADIUS
        = radius_clamp (E.expf (mapping_calculate (b.settings BRUSH_RADIUS_LOGARITHMIC) inputs)) := by
  unfold brush_update_settings_values at h
  simp only [bind, Except.bind, pure, Except.pure] at h
  split at h
  · cases h
  · split at h
    · cases h
    · split at h
      · cases h
      · rename_i st' hsl
        cases h
        refine ⟨_, _, _, _, rfl, ?_, ?_, ?_, ?_, ?_, ?_⟩
        · rw [final_radius_of_ne E _ _ _ (by decide), stroke_length_of_ne E _ _ _ _ hsl _ (by decide),
            advance_slow_states_of_ne E _ _ _ _ _ _ _ (by decide) (by decide) (by decide)
              (by decide) (by decide) (by decide) (by decide),
            stroke_start_end_of_ne _ _ _ _ (by decide) (by decide),
            clamp_pressure_of_ne _ _ (by decide)]
        · rw [final_radius_of_ne E _ _ _ (by decide), stroke_length_of_ne E _ _ _ _ hsl _ (by decide),
            advance_slow_states_of_ne E _ _ _ _ _ _ _ (by decide) (by decide) (by decide)
              (by decide) (by decide) (by decide) (by decide),
            stroke_start_end_of_ne _ _ _ _ (by decide) (by decide),
            clamp_pressure_of_ne _ _ (by decide)]
        · rw [final_radius_of_ne E _ _ _ (by decide), stroke_length_of_ne E _ _ _ _ hsl _ (by decide),
            advance_slow_states_of_ne E _ _ _ _ _ _ _ (by decide) (by decide) (by decide)
              (by decide) (by decide) (by decide) (by decide),
            stroke_start_end_of_ne _ _ _ _ (by decide) (by decide),
            clamp_pressure_of_ne _ _ (by decide)]
        · rw [final_radius_of_ne E _ _ _ (by decide), stroke_length_of_ne E _ _ _ _ hsl _ (by decide),
            advance_slow_states_of_ne E _ _ _ _ _ _ _ (by decide) (by decide) (by decide)
              (by decide) (by decide) (by decide) (by decide),
            stroke_start_end_of_ne _ _ _ _ (by decide) (by decide)]
          exact (clamp_pressure_range _).1
        · rw [final_radius_of_ne E _ _ _ (by decide), stroke_length_of_ne E _ _ _ _ hsl _ (by decide),
            advance_slow_states_of_ne E _ _ _ _ _ _ _ (by decide) (by decide) (by decide)
              (by decide) (by decide) (by decide) (by decide),
            stroke_start_end_of_ne _ _ _ _ (by decide) (by decide)]
          exact (clamp_pressure_range _).2
        · exact final_radius_value E _ _

end Frames

section Frames2
variable (E : Env α)

theorem smudge_update_of_ne (b : Brush α) (rc : RenderContext α) (x y : α) (i : State)
    (h1 : i ≠ STATE_SMUDGE_R) (h2 : i ≠ STATE_SMUDGE_G) (h3 : i ≠ STATE_SMUDGE_B)
    (h4 : i ≠ STATE_SMUDGE_A) : smudge_update E b rc x y i = b.states i := by
  unfold smudge_update
  split_ifs <;> simp [Function.update_apply, h1, h2, h3, h4]

theorem brush_prepare_and_draw_dab_spec (b b' : Brush α) (rc rc' : RenderContext α) (r : Int)
    (h : brush_prepare_and_draw_dab E b rc = .ok (r, b', rc')) :
    ∃ rng dab,
      b'.states = smudge_update E b rc (dab_position E b).1 (dab_position E b).2.1 ∧
      b' = { b with rng := rng, states := b'.states } ∧
      rc'.dabs = rc.dabs ++ [dab] ∧ rc'.results = rc.results ++ [r] ∧
      dab.x = (dab_position E b).1 ∧ dab.y = (dab_position E b).2.1 := by
  unfold brush_prepare_and_draw_dab at h
  simp only [bind, Except.bind, pure, Except.pure] at h
  split at h
  · cases h
  · split at h
    · cases h
    · split at h
      · cases h
      · cases h
        exact ⟨_, _, rfl, rfl, rfl, rfl, rfl, rfl⟩

theorem c_assert_ndebug (hN : E.NDEBUG = true) (c : Prop) [Decidable c] :
    c_assert E c = .ok () := by
  simp [c_assert, hN]

theorem g_assert_disabled (hG : E.G_DISABLE_ASSERT = true) (c : Prop) [Decidable c] :
    g_assert E c = .ok () := by
  simp [g_assert, hG]

theorem g_assert_holds (c : Prop) [Decidable c] (hc : c) : g_assert E c = .ok () := by
  simp [g_assert, hc]

theorem stroke_length_total (hN : E.NDEBUG = true) (sv : BrushSetting → α) (nd : α)
    (st : State → α) : ∃ st', stroke_length E sv nd st = .ok st' := by
  unfold stroke_length
  simp only [bind, Except.bind, pure, Except.pure, c_assert_ndebug E hN]
  split_ifs <;> exact ⟨_, rfl⟩

theorem brush_update_settings_values_total (hN : E.NDEBUG = true) (b : Brush α) :
    ∃ b', brush_update_settings_values E b = .ok b' := by
  unfold brush_update_settings_values
  simp only [bind, Except.bind, pure, Except.pure, c_assert_ndebug E hN]
  rw [g_assert_holds E _ ⟨(clamp_pressure_range _).1, (clamp_pressure_range _).2⟩]
  dsimp only
  obtain ⟨st', hst⟩ := stroke_length_total E hN _ _ _
  rw [hst]
  exact ⟨_, rfl⟩

theorem brush_prepare_and_draw_dab_total (hG : E.G_DISABLE_ASSERT = true) (b : Brush α)
    (rc : RenderContext α) : ∃ r, brush_prepare_and_draw_dab E b rc = .ok r := by
  unfold brush_prepare_and_draw_dab
  simp only [bind, Except.bind, pure, Except.pure, g_assert_disabled E hG]
  exact ⟨_, rfl⟩

end Frames2

section Loop
variable (E : Env α)

theorem SameStroke.refl (b : Brush α) : SameStroke b b :=
  ⟨rfl, rfl, rfl, rfl, rfl, rfl, rfl, rfl, rfl⟩

theorem SameStroke.trans {a b c : Brush α} (h1 : SameStroke a b) (h2 : SameStroke b c) :
    SameStroke a c := by
  obtain ⟨a1, a2, a3, a4, a5, a6, a7, a8, a9⟩ := h1
  obtain ⟨b1, b2, b3, b4, b5, b6, b7, b8, b9⟩ := h2
  exact ⟨b1.trans a1, b2.trans a2, b3.trans a3, b4.trans a4, b5.trans a5, b6.trans a6,
    b7.trans a7, b8.trans a8, b9.trans a9⟩

theorem brush_update_settings_values_same (b b' : Brush α)
    (h : brush_update_settings_values E b = .ok b') :
    SameStroke b b' ∧ b'.dx = b.dx ∧ b'.dy = b.dy ∧ b'.dpressure = b.dpressure := by
  obtain ⟨dt, rng, inputs, st, hb, -⟩ := brush_update_settings_values_spec E b b' h
  subst hb
  exact ⟨⟨rfl, rfl, rfl, rfl, rfl, rfl, rfl, rfl, rfl⟩, rfl, rfl, rfl⟩

theorem brush_prepare_and_draw_dab_same (b b' : Brush α) (rc rc' : RenderContext α) (r : Int)
    (h : brush_prepare_and_draw_dab E b rc = .ok (r, b', rc')) :
    SameStroke b b' ∧ b'.dx = b.dx ∧ b'.dy = b.dy ∧ b'.dpressure = b.dpressure := by
  obtain ⟨rng, dab, -, hb, -⟩ := brush_prepare_and_draw_dab_spec E b b' rc rc' r h
  rw [hb]
  exact ⟨⟨rfl, rfl, rfl, rfl, rfl, rfl, rfl, rfl, rfl⟩, rfl, rfl, rfl⟩

theorem brush_count_dabs_to_same (b : Brush α) (x y p dt : α) :
    SameStroke b (brush_count_dabs_to E b x y p dt).2 ∧
      (brush_count_dabs_to E b x y p dt).2.dpressure = b.dpressure :=
  ⟨⟨rfl, rfl, rfl, rfl, rfl, rfl, rfl, rfl, rfl⟩, rfl⟩

theorem virtual_cursor_same (b : Brush α) (x y dt : α) :
    SameStroke b (virtual_cursor E b x y dt).2.2 := by
  unfold virtual_cursor
  by_cases h : (b.settings BRUSH_TRACKING_NOISE).base_value = 0 <;>
    simp [h, SameStroke]

theorem loop_start_same (b : Brush α) (rc : RenderContext α) (x y p dt : α) :
    SameStroke b (loop_start E b rc x y p dt).b := by
  refine SameStroke.trans (virtual_cursor_same E b x y dt) ?_
  exact (brush_count_dabs_to_same E (virtual_cursor E b x y dt).2.2 (virtual_cursor E b x y dt).1
    (virtual_cursor E b x y dt).2.1 p dt).1

theorem dab_move_same (x y p : α) (s : LoopVars α) : SameStroke s.b (dab_move x y p s) :=
  ⟨rfl, rfl, rfl, rfl, rfl, rfl, rfl, rfl, rfl⟩

theorem tail_move_same (x y p : α) (b : Brush α) : SameStroke b (tail_move x y p b) :=
  ⟨rfl, rfl, rfl, rfl, rfl, rfl, rfl, rfl, rfl⟩

theorem dab_loop_body_spec (x y p : α) (s s' : LoopVars α)
    (h : dab_loop_body E x y p s = .ok s') :
    ∃ b1 r b2 rc2,
      brush_update_settings_values E (dab_move x y p s) = .ok b1 ∧
      brush_prepare_and_draw_dab E b1 s.rc = .ok (r, b2, rc2) ∧
      s'.b = (brush_count_dabs_to E b2 x y p s'.dtime_left).2 ∧
      s'.rc = rc2 ∧
      s'.dist_moved = (if s.dist_moved > 0 then 0 else s.dist_moved) ∧
      s'.dist_todo = (brush_count_dabs_to E b2 x y p s'.dtime_left).1 ∧
      s'.dtime = dab_frac s * (s.dtime_left - 0) ∧
      s'.dtime_left = s.dtime_left - dab_frac s * (s.dtime_left - 0) ∧
      s'.painted = painted_update s.painted r := by
  unfold dab_loop_body at h
  simp only [bind, Except.bind, pure, Except.pure] at h
  split at h
  · cases h
  · rename_i b1 hb1
    split at h
    · cases h
    · rename_i r hr
      obtain ⟨r1, b2, rc2⟩ := r
      cases h
      exact ⟨b1, r1, b2, rc2, hb1, hr, rfl, rfl, rfl, rfl, rfl, rfl, rfl⟩

theorem dab_loop_invariant (x y p : α) (P : LoopVars α → Prop)
    (hstep : ∀ s s', P s → s.dist_moved + s.dist_todo ≥ 1 →
      dab_loop_body E x y p s = .ok s' → P s') :
    ∀ (fuel : Nat) (s s' : LoopVars α), P s → dab_loop E x y p fuel s = .ok s' →
      P s' ∧ s'.dist_moved + s'.dist_todo < 1 := by
  intro fuel
  induction fuel with
  | zero =>
    intro s s' hP h
    unfold dab_loop at h
    split_ifs at h with hc
    cases h
    exact ⟨hP, not_le.mp hc⟩
  | succ n ih =>
    intro s s' hP h
    unfold dab_loop at h
    split_ifs at h with hc
    · cases hb : dab_loop_body E x y p s with
      | error e => rw [hb] at h; cases h
      | ok s1 =>
        rw [hb] at h
        exact ih s1 s' (hstep s s1 hP hc hb) h
    · cases h
      exact ⟨hP, not_le.mp hc⟩

theorem loop_tail_spec (x y p : α) (s : LoopVars α) (bt : Brush α)
    (h : loop_tail E x y p s = .ok bt) :
    ∃ b1, brush_update_settings_values E (tail_move x y p s.b) = .ok b1 ∧
      bt.states = Function.update b1.states STATE_DIST (s.dist_moved + s.dist_todo) ∧
      bt.settings = b1.settings ∧
      bt.stroke_total_painting_time = b1.stroke_total_painting_time ∧
      bt.stroke_idling_time = b1.stroke_idling_time ∧
      bt.exception = b1.exception ∧
      bt.split_calls = b1.split_calls ∧
      bt.callback_calls = b1.callback_calls ∧
      bt.split_stroke_callback = b1.split_stroke_callback ∧
      bt.py = b1.py ∧
      bt.dpressure = b1.dpressure := by
  unfold loop_tail at h
  simp only [bind, Except.bind, pure, Except.pure] at h
  split at h
  · cases h
  · rename_i b1 hb1
    cases h
    refine ⟨b1, hb1, ?_⟩
    split_ifs <;> exact ⟨rfl, rfl, rfl, rfl, rfl, rfl, rfl, rfl, rfl, rfl⟩

theorem any_surface_stroke_to_normal (fuel : Nat) (b b' : Brush α) (rc rc' : RenderContext α)
    (x y p dtime : α) (hpos : 0 < dtime)
    (hnd : ¬ (dtime > 5 ∨ (loop_start E b rc x y p dtime).dist_todo > 300))
    (h : any_surface_stroke_to E fuel b rc x y p dtime = .ok (b', rc')) :
    ∃ s bt,
      dab_loop E (virtual_cursor E b x y dtime).1 (virtual_cursor E b x y dtime).2.1 p fuel
        (loop_start E b rc x y p dtime) = .ok s ∧
      loop_tail E (virtual_cursor E b x y dtime).1 (virtual_cursor E b x y dtime).2.1 p s
        = .ok bt ∧
      stroke_separation_logic E bt s.painted p s.dtime_left = .ok b' ∧
      rc' = s.rc := by
  unfold any_surface_stroke_to at h
  simp only [not_le.mpr hpos, if_false, hnd, bind, Except.bind, pure, Except.pure] at h
  split at h
  · cases h
  · rename_i s hs
    split at h
    · cases h
    · rename_i bt hbt
      split at h
      · cases h
      · rename_i b2 hb2
        cases h
        exact ⟨s, bt, hs, hbt, hb2, rfl⟩

end Loop

section Splitter
variable (E : Env α)

theorem stroke_separation_logic_states (b b' : Brush α) (painted : Painted) (p dt : α)
    (h : stroke_separation_logic E b painted p dt = .ok b') :
    b'.states = b.states ∧ b'.dpressure = b.dpressure := by
  have hs : ∀ c : Brush α, (split_stroke E c).states = c.states ∧
      (split_stroke E c).dpressure = c.dpressure := by
    intro c
    unfold split_stroke
    cases hcb : c.split_stroke_callback with
    | none => simp
    | some cb => by_cases hres : (E.PyEval_CallObject cb c.py).1 = false <;> simp [hres]
  unfold stroke_separation_logic resolve_painted at h
  simp only [bind, Except.bind, pure, Except.pure, g_assert] at h
  split_ifs at h <;> first
    | (cases h; exact ⟨rfl, rfl⟩)
    | (cases h; exact hs _)

/-- C10, amended: after an `any_surface_stroke_to` event with `dtime > 0` that
returns, on the normal path the stored pressure satisfies
`0 <= state.pressure <= 1` for every pressure argument; on the discontinuity
path the stored pressure is the pressure argument itself, unclamped. -/
theorem pressure_state_after_event (fuel : Nat) (b b' : Brush α) (rc rc' : RenderContext α)
    (x y pressure dtime : α) (hpos : 0 < dtime)
    (h : any_surface_stroke_to E fuel b rc x y pressure dtime = .ok (b', rc')) :
    (¬ (dtime > 5 ∨ (loop_start E b rc x y pressure dtime).dist_todo > 300) →
      0 ≤ b'.states STATE_PRESSURE ∧ b'.states STATE_PRESSURE ≤ 1) ∧
    ((dtime > 5 ∨ (loop_start E b rc x y pressure dtime).dist_todo > 300) →
      b'.states STATE_PRESSURE = pressure) := by
  constructor
  · intro hnd
    obtain ⟨s, bt, -, hbt, hsep, -⟩ :=
      any_surface_stroke_to_normal E fuel b b' rc rc' x y pressure dtime hpos hnd h
    obtain ⟨b1, hb1, hst, -⟩ := loop_tail_spec E _ _ _ s bt hbt
    obtain ⟨dt, rng, inputs, st, hb, -, -, -, h0, h1, -⟩ :=
      brush_update_settings_values_spec E _ b1 hb1
    rw [(stroke_separation_logic_states E bt b' _ _ _ hsep).1, hst,
      Function.update_noteq (by decide), hb]
    exact ⟨h0, h1⟩
  · intro hd
    unfold any_surface_stroke_to at h
    simp only [not_le.mpr hpos, if_false, hd, if_true, pure, Except.pure] at h
    cases h
    simp [reset_branch, split_stroke_states, Function.update_apply]

end Splitter

/-- Counterexample to C10 as stated: on the discontinuity path (`dtime = 6`) a
pressure argument of 1.01 is stored as it is, above 1. -/
theorem discontinuity_keeps_raw_pressure :
    ∃ b' rc', any_surface_stroke_to refEnv 0 scenarioBrush scenarioRc 0 0 (101 / 100) 6
        = .ok (b', rc') ∧ b'.states STATE_PRESSURE = 101 / 100 ∧
      ¬ (b'.states STATE_PRESSURE ≤ 1) := by
  have hev : (match any_surface_stroke_to refEnv 0 scenarioBrush scenarioRc 0 0 (101 / 100) 6 with
      | .ok r => decide (r.1.states STATE_PRESSURE = 101 / 100)
      | .error _ => false) = true := by decide!
  cases hr : any_surface_stroke_to refEnv 0 scenarioBrush scenarioRc 0 0 (101 / 100) 6 with
  | error e => rw [hr] at hev; simp at hev
  | ok r =>
    rw [hr] at hev
    obtain ⟨b', rc'⟩ := r
    simp only [decide_eq_true_eq] at hev
    refine ⟨b', rc', rfl, hev, ?_⟩
    rw [hev]; norm_num

/-- Witness of C10 amended: the painting brush, a normal event with the
pressure argument 1.5. -/
theorem pressure_state_after_event_witness :
    ∃ b' rc', any_surface_stroke_to refEnv 5 paintBrush scenarioRc 2 0 (3 / 2) 1 = .ok (b', rc') ∧
      0 ≤ b'.states STATE_PRESSURE ∧ b'.states STATE_PRESSURE ≤ 1 := by
  have hev : (match any_surface_stroke_to refEnv 5 paintBrush scenarioRc 2 0 (3 / 2) 1 with
      | .ok _ => true
      | .error _ => false) = true := by decide!
  cases hr : any_surface_stroke_to refEnv 5 paintBrush scenarioRc 2 0 (3 / 2) 1 with
  | error e => rw [hr] at hev; simp at hev
  | ok r =>
    obtain ⟨b', rc'⟩ := r
    exact ⟨b', rc', rfl,
      (pressure_state_after_event refEnv 5 paintBrush b' scenarioRc rc' 2 0 (3 / 2) 1 (by norm_num)
        hr).1 (by decide!)⟩

/-- C6, the code at the failing input: the painting brush with zeroed timers
and the event `(2, 0, 1, 1)`.  One dab is drawn and paints, no split happens,
and `stroke_total_painting_time` ends at 31/96, the time slice left after the
dab, not at `0 + dtime = 1`. -/
theorem painting_time_gets_tail_slice_only :
    ∃ b' rc', any_surface_stroke_to refEnv 5 paintBrush scenarioRc 2 0 1 1 = .ok (b', rc') ∧
      rc'.results = [1] ∧ b'.split_calls = paintBrush.split_calls ∧
      paintBrush.stroke_total_painting_time = 0 ∧
      b'.stroke_total_painting_time = 31 / 96 ∧ b'.stroke_idling_time = 0 ∧
      b'.stroke_total_painting_time ≠ paintBrush.stroke_total_painting_time + 1 := by
  have hev : (match any_surface_stroke_to refEnv 5 paintBrush scenarioRc 2 0 1 1 with
      | .ok r => decide (r.2.results = [1] ∧ r.1.split_calls = paintBrush.split_calls ∧
          r.1.stroke_total_painting_time = 31 / 96 ∧ r.1.stroke_idling_time = 0)
      | .error _ => false) = true := by decide!
  cases hr : any_surface_stroke_to refEnv 5 paintBrush scenarioRc 2 0 1 1 with
  | error e => rw [hr] at hev; simp at hev
  | ok r =>
    rw [hr] at hev
    obtain ⟨b', rc'⟩ := r
    simp only [decide_eq_true_eq] at hev
    obtain ⟨h1, h2, h3, h4⟩ := hev
    have h0 : paintBrush.stroke_total_painting_time = 0 := by decide!
    refine ⟨b', rc', rfl, h1, h2, h0, h3, h4, ?_⟩
    rw [h3, h0]; norm_num


section Splitter2
variable (E : Env α)

theorem painted_update_foldl (rs : List Int) (p0 : Painted) :
    rs.foldl painted_update p0 =
      if rs.any (fun r => decide (r ≠ 0)) then YES
      else if rs = [] then p0
      else if p0 = UNKNOWN then NO else p0 := by
  induction rs generalizing p0 with
  | nil => simp
  | cons r rs ih =>
    rw [List.foldl_cons, ih]
    by_cases hr : r ≠ 0
    · have : painted_update p0 r = YES := by simp [painted_update, hr]
      rw [this]
      simp [hr]
    · have hr0 : r = 0 := not_not.mp hr
      subst hr0
      cases p0 <;> simp [painted_update]

theorem dab_loop_results (x y p : α) (fuel : Nat) (s0 s : LoopVars α)
    (h : dab_loop E x y p fuel s0 = .ok s) :
    SameStroke s0.b s.b ∧
    ∃ rs, s.rc.results = s0.rc.results ++ rs ∧
      s.painted = rs.foldl painted_update s0.painted ∧
      (rs = [] → s.dtime_left = s0.dtime_left) := by
  have key := dab_loop_invariant E x y p
    (fun t => SameStroke s0.b t.b ∧
      ∃ rs, t.rc.results = s0.rc.results ++ rs ∧
        t.painted = rs.foldl painted_update s0.painted ∧
        (rs = [] → t.dtime_left = s0.dtime_left))
    (by
      intro t t' hP _ hb
      obtain ⟨hS, rs, h1, h2, -⟩ := hP
      obtain ⟨b1, r, b2, rc2, hb1, hb2, e1, e2, -, -, -, -, e7⟩ := dab_loop_body_spec E x y p t t' hb
      obtain ⟨rng, dab, -, -, -, hres, -⟩ := brush_prepare_and_draw_dab_spec E b1 b2 t.rc rc2 r hb2
      refine ⟨?_, rs ++ [r], ?_, ?_, ?_⟩
      · rw [e1]
        exact hS.trans ((dab_move_same x y p t).trans
          ((brush_update_settings_values_same E _ _ hb1).1.trans
            ((brush_prepare_and_draw_dab_same E _ _ _ _ _ hb2).1.trans
              (brush_count_dabs_to_same E _ _ _ _ _).1)))
      · rw [e2, hres, h1, List.append_assoc]
      · rw [e7, h2, List.foldl_append]; rfl
      · intro hnil; simp at hnil)
    fuel s0 s ⟨SameStroke.refl _, [], by simp, rfl, fun _ => rfl⟩ h
  exact key.1

theorem stroke_separation_logic_decision (bt b' : Brush α) (painted0 : Painted) (p dt : α)
    (h : stroke_separation_logic E bt painted0 p dt = .ok b') (painted : Bool)
    (hp : painted = decide (resolve_painted painted0 bt.stroke_idling_time = YES))
    (hne : resolve_painted painted0 bt.stroke_idling_time ≠ UNKNOWN) :
    (b'.split_calls = bt.split_calls + 1 ↔
      spec_split painted
        (if painted = true then bt.stroke_total_painting_time + dt
          else bt.stroke_total_painting_time)
        (if painted = true then 0 else bt.stroke_idling_time + dt) p b'.dpressure) ∧
    (b'.split_calls = bt.split_calls ∨ b'.split_calls = bt.split_calls + 1) ∧
    (b'.split_calls = bt.split_calls →
      b'.stroke_total_painting_time =
        (if painted = true then bt.stroke_total_painting_time + dt
          else bt.stroke_total_painting_time) ∧
      b'.stroke_idling_time = (if painted = true then 0 else bt.stroke_idling_time + dt)) := by
  have hdp := (stroke_separation_logic_states E bt b' painted0 p dt h).2
  rw [hdp]
  unfold stroke_separation_logic at h
  simp only [bind, Except.bind, pure, Except.pure, g_assert] at h
  subst hp
  cases hres : resolve_painted painted0 bt.stroke_idling_time with
  | UNKNOWN => exact absurd hres hne
  | YES =>
    rw [hres] at h
    simp only [reduceCtorEq, if_true, if_false] at h
    split_ifs at h <;> cases h <;>
      simp_all [spec_split, split_stroke_split_calls, not_lt, not_le]
  | NO =>
    rw [hres] at h
    simp only [reduceCtorEq, if_true, if_false] at h
    split_ifs at h <;> cases h <;>
      simp_all [spec_split, split_stroke_split_calls, not_lt, not_le]

/-- A call of the stroke separation logic that calls `split_stroke` leaves both
timers at zero. -/
theorem stroke_separation_logic_split_timers (bt b' : Brush α) (painted0 : Painted) (p dt : α)
    (h : stroke_separation_logic E bt painted0 p dt = .ok b') :
    b'.split_calls = bt.split_calls + 1 →
      b'.stroke_total_painting_time = 0 ∧ b'.stroke_idling_time = 0 := by
  unfold stroke_separation_logic at h
  simp only [bind, Except.bind, pure, Except.pure, g_assert] at h
  intro hs
  split_ifs at h <;> cases h <;>
    first
      | exact ⟨rfl, rfl⟩
      | (exfalso; simp at hs)

theorem resolve_painted_ne_unknown (painted0 : Painted) (idling : α) :
    resolve_painted painted0 idling ≠ UNKNOWN := by
  unfold resolve_painted
  cases painted0 with
  | UNKNOWN =>
    rw [if_pos rfl]
    split_ifs <;> simp
  | YES => simp
  | NO => simp

theorem spec_painted_eq_resolve (rs : List Int) (idling : α) :
    spec_painted rs idling
      = decide (resolve_painted (rs.foldl painted_update UNKNOWN) idling = YES) := by
  rw [painted_update_foldl]
  unfold spec_painted resolve_painted
  cases hany : rs.any (fun r => decide (r ≠ 0)) with
  | true => simp
  | false =>
    by_cases hnil : rs = []
    · subst hnil
      by_cases hi : idling > 0 <;> simp [hi]
    · simp [hnil]

/-- C7: for every non-dropped, non-discontinuity event that returns, with `rs`
the results of the dabs of the event and `s` the variables the dab loop of
this very event ends with: the splitter takes the event as painted as the
reference rule `spec_painted` says (any dab drew; else not painted if the loop
ran; else not painted exactly when `stroke_idling_time > 0` at entry); the
timers `T`, `I` after accumulation are the timers at entry advanced by the
amount the code adds, `s.dtime_left` (the parameter `dtime` as the tail of the
loop leaves it, which is `dtime` itself when no dab was emitted);
`split_stroke` is called iff `spec_split` holds of `T` and `I`, and at most
once; without a split the brush holds `T` and `I`, and after a split both
timers are zero. -/
theorem splitter_follows_reference_rule (fuel : Nat) (b b' : Brush α)
    (rc rc' : RenderContext α) (x y pressure dtime : α) (hpos : 0 < dtime)
    (hnd : ¬ (dtime > 5 ∨ (loop_start E b rc x y pressure dtime).dist_todo > 300))
    (h : any_surface_stroke_to E fuel b rc x y pressure dtime = .ok (b', rc')) :
    ∃ (rs : List Int) (s : LoopVars α),
      dab_loop E (virtual_cursor E b x y dtime).1 (virtual_cursor E b x y dtime).2.1 pressure fuel
        (loop_start E b rc x y pressure dtime) = .ok s ∧
      rc'.results = rc.results ++ rs ∧ (rs = [] → s.dtime_left = dtime) ∧
      (b'.split_calls = b.split_calls + 1 ↔
        spec_split (spec_painted rs b.stroke_idling_time)
          (if spec_painted rs b.stroke_idling_time = true
            then b.stroke_total_painting_time + s.dtime_left else b.stroke_total_painting_time)
          (if spec_painted rs b.stroke_idling_time = true
            then 0 else b.stroke_idling_time + s.dtime_left) pressure b'.dpressure) ∧
      (b'.split_calls = b.split_calls ∨ b'.split_calls = b.split_calls + 1) ∧
      (b'.split_calls = b.split_calls →
        b'.stroke_total_painting_time =
          (if spec_painted rs b.stroke_idling_time = true
            then b.stroke_total_painting_time + s.dtime_left
            else b.stroke_total_painting_time) ∧
        b'.stroke_idling_time =
          (if spec_painted rs b.stroke_idling_time = true
            then 0 else b.stroke_idling_time + s.dtime_left)) ∧
      (b'.split_calls = b.split_calls + 1 →
        b'.stroke_total_painting_time = 0 ∧ b'.stroke_idling_time = 0) := by
  obtain ⟨s, bt, hs, hbt, hsep, hrc⟩ :=
    any_surface_stroke_to_normal E fuel b b' rc rc' x y pressure dtime hpos hnd h
  obtain ⟨hS, rs, hres, hpainted, hdt⟩ := dab_loop_results E _ _ _ fuel _ s hs
  obtain ⟨b1, hb1, -, -, hT, hI, -, hsc, -, -, -⟩ := loop_tail_spec E _ _ _ s bt hbt
  have hS1 : SameStroke b b1 :=
    (loop_start_same E b rc x y pressure dtime).trans
      (hS.trans ((tail_move_same _ _ _ s.b).trans
        (brush_update_settings_values_same E _ _ hb1).1))
  obtain ⟨-, hT1, hI1, -, -, hsc1, -⟩ := hS1
  have hbtT : bt.stroke_total_painting_time = b.stroke_total_painting_time := hT.trans hT1
  have hbtI : bt.stroke_idling_time = b.stroke_idling_time := hI.trans hI1
  have hbtS : bt.split_calls = b.split_calls := hsc.trans hsc1
  have hl : (loop_start E b rc x y pressure dtime).painted = UNKNOWN := rfl
  have hclass : spec_painted rs b.stroke_idling_time
      = decide (resolve_painted s.painted bt.stroke_idling_time = YES) := by
    rw [hpainted, hl, hbtI]
    exact spec_painted_eq_resolve rs _
  have key := stroke_separation_logic_decision E bt b' s.painted pressure s.dtime_left hsep
    (spec_painted rs b.stroke_idling_time) hclass (resolve_painted_ne_unknown _ _)
  have hreset := stroke_separation_logic_split_timers E bt b' s.painted pressure s.dtime_left hsep
  rw [hbtT, hbtI, hbtS] at key
  rw [hbtS] at hreset
  refine ⟨rs, s, hs, ?_, ?_, key.1, key.2.1, key.2.2, hreset⟩
  · rw [hrc, hres]; rfl
  · intro hnil
    rw [hdt hnil]; rfl

end Splitter2

/-- Witness of C7.  The idling scenario brush (`idling_time = 0.5`) and the
event `(0, 0, 0, 1)`: no dab, the amount accumulated is `dtime = 1`, idling
passes 1.0 with nothing painted, one split.  The painting brush and the event
`(2, 0, 1, 1)`: one dab, which paints; the amount accumulated is the time left
after the dab, 31/96, and there is no split. -/
theorem splitter_follows_reference_rule_witness :
    (∃ b' rc', any_surface_stroke_to refEnv 5 idleBrush scenarioRc 0 0 0 1 = .ok (b', rc') ∧
      b'.split_calls = 1 ∧
      ∃ (rs : List Int) (s : LoopVars ℚ),
        dab_loop refEnv (virtual_cursor refEnv idleBrush 0 0 1).1
          (virtual_cursor refEnv idleBrush 0 0 1).2.1 0 5
          (loop_start refEnv idleBrush scenarioRc 0 0 0 1) = .ok s ∧
        rc'.results = scenarioRc.results ++ rs ∧ (rs = [] → s.dtime_left = 1) ∧
        (b'.split_calls = idleBrush.split_calls + 1 ↔
          spec_split (spec_painted rs idleBrush.stroke_idling_time)
            (if spec_painted rs idleBrush.stroke_idling_time = true
              then idleBrush.stroke_total_painting_time + s.dtime_left
              else idleBrush.stroke_total_painting_time)
            (if spec_painted rs idleBrush.stroke_idling_time = true
              then 0 else idleBrush.stroke_idling_time + s.dtime_left) 0 b'.dpressure) ∧
        (b'.split_calls = idleBrush.split_calls + 1 →
          b'.stroke_total_painting_time = 0 ∧ b'.stroke_idling_time = 0)) ∧
    (∃ b' rc', any_surface_stroke_to refEnv 5 paintBrush scenarioRc 2 0 1 1 = .ok (b', rc') ∧
      b'.split_calls = paintBrush.split_calls ∧
      ∃ (rs : List Int) (s : LoopVars ℚ),
        dab_loop refEnv (virtual_cursor refEnv paintBrush 2 0 1).1
          (virtual_cursor refEnv paintBrush 2 0 1).2.1 1 5
          (loop_start refEnv paintBrush scenarioRc 2 0 1 1) = .ok s ∧
        s.dtime_left = 31 / 96 ∧
        rc'.results = scenarioRc.results ++ rs ∧ rs = [1] ∧
        spec_painted rs paintBrush.stroke_idling_time = true ∧
        b'.stroke_total_painting_time = paintBrush.stroke_total_painting_time + s.dtime_left ∧
        b'.stroke_idling_time = 0) := by
  constructor
  · have hev : (match any_surface_stroke_to refEnv 5 idleBrush scenarioRc 0 0 0 1 with
        | .ok r => decide (r.1.split_calls = 1)
        | .error _ => false) = true := by decide!
    cases hr : any_surface_stroke_to refEnv 5 idleBrush scenarioRc 0 0 0 1 with
    | error e => rw [hr] at hev; simp at hev
    | ok r =>
      rw [hr] at hev
      obtain ⟨b', rc'⟩ := r
      simp only [decide_eq_true_eq] at hev
      obtain ⟨rs, s, h0, h1, h2, h3, -, -, h6⟩ :=
        splitter_follows_reference_rule refEnv 5 idleBrush b' scenarioRc rc' 0 0 0 1
          (by norm_num) (by decide!) hr
      exact ⟨b', rc', rfl, hev, rs, s, h0, h1, h2, h3, h6⟩
  · have hev : (match any_surface_stroke_to refEnv 5 paintBrush scenarioRc 2 0 1 1 with
        | .ok r => decide (r.1.split_calls = paintBrush.split_calls ∧ r.2.results = [1])
        | .error _ => false) = true := by decide!
    have hlv : (match dab_loop refEnv (virtual_cursor refEnv paintBrush 2 0 1).1
          (virtual_cursor refEnv paintBrush 2 0 1).2.1 1 5
          (loop_start refEnv paintBrush scenarioRc 2 0 1 1) with
        | .ok s => decide (s.dtime_left = 31 / 96)
        | .error _ => false) = true := by decide!
    cases hr : any_surface_stroke_to refEnv 5 paintBrush scenarioRc 2 0 1 1 with
    | error e => rw [hr] at hev; simp at hev
    | ok r =>
      rw [hr] at hev
      obtain ⟨b', rc'⟩ := r
      simp only [decide_eq_true_eq] at hev
      obtain ⟨rs, s, h0, h1, -, -, -, h5, -⟩ :=
        splitter_follows_reference_rule refEnv 5 paintBrush b' scenarioRc rc' 2 0 1 1
          (by norm_num) (by decide!) hr
      rw [h0] at hlv
      simp only [decide_eq_true_eq] at hlv
      have hrs : rs = [1] := by
        have h := h1
        rw [hev.2] at h
        have hnil : scenarioRc.results = [] := rfl
        rw [hnil, List.nil_append] at h
        exact h.symm
      have hp : spec_painted rs paintBrush.stroke_idling_time = true := by
        rw [hrs]; decide!
      have h5' := h5 hev.1
      rw [hp] at h5'
      simp only [if_true] at h5'
      exact ⟨b', rc', rfl, hev.1, rs, s, h0, hlv, h1, hrs, hp, h5'.1, h5'.2⟩

section Count
variable (E : Env α)

theorem radius_clamp_range (r : α) :
    ACTUAL_RADIUS_MIN ≤ radius_clamp r ∧ radius_clamp r ≤ ACTUAL_RADIUS_MAX := by
  have hmm : (ACTUAL_RADIUS_MIN : α) ≤ ACTUAL_RADIUS_MAX := by
    unfold ACTUAL_RADIUS_MIN ACTUAL_RADIUS_MAX; norm_num
  unfold radius_clamp
  by_cases h0 : r < ACTUAL_RADIUS_MIN
  · have h1 : ¬ (ACTUAL_RADIUS_MIN : α) > ACTUAL_RADIUS_MAX := not_lt.mpr hmm
    simp only [h0, if_true, h1, if_false]
    exact ⟨le_refl _, hmm⟩
  · by_cases h1 : r > ACTUAL_RADIUS_MAX
    · simp only [h0, if_false, h1, if_true]
      exact ⟨hmm, le_refl _⟩
    · simp only [h0, if_false, h1]
      exact ⟨not_lt.mp h0, not_lt.mp h1⟩

theorem radius_clamp_pos (r : α) : 0 < radius_clamp r := by
  have h := (radius_clamp_range r).1
  have : (0 : α) < ACTUAL_RADIUS_MIN := by unfold ACTUAL_RADIUS_MIN; norm_num
  exact lt_of_lt_of_le this h

theorem radius_clamp_of_range (r : α) (h1 : ACTUAL_RADIUS_MIN ≤ r)
    (h2 : r ≤ ACTUAL_RADIUS_MAX) : radius_clamp r = r := by
  unfold radius_clamp
  simp only [not_lt.mpr h1, if_false, gt_iff_lt, not_lt.mpr h2]

theorem brush_count_dabs_to_states (b : Brush α) (x y p dt : α) :
    (brush_count_dabs_to E b x y p dt).2.states
      = Function.update b.states STATE_ACTUAL_RADIUS
          (radius_clamp (if b.states STATE_ACTUAL_RADIUS = 0
            then E.expf (b.settings BRUSH_RADIUS_LOGARITHMIC).base_value
            else b.states STATE_ACTUAL_RADIUS)) := by
  unfold brush_count_dabs_to radius_clamp
  funext i
  by_cases hi : i = STATE_ACTUAL_RADIUS
  · subst hi
    by_cases h0 : b.states STATE_ACTUAL_RADIUS = 0 <;> simp only [h0, if_true, if_false] <;>
      split_ifs <;> simp_all [Function.update_apply]
  · by_cases h0 : b.states STATE_ACTUAL_RADIUS = 0 <;> simp only [h0, if_true, if_false] <;>
      split_ifs <;> simp [Function.update_apply, hi]

theorem brush_count_dabs_to_value (b : Brush α) (x y p dt : α) :
    (brush_count_dabs_to E b x y p dt).1
      = E.sqrtf ((x - b.states STATE_X) * (x - b.states STATE_X)
            + (y - b.states STATE_Y) * (y - b.states STATE_Y))
          / (brush_count_dabs_to E b x y p dt).2.states STATE_ACTUAL_RADIUS
          * (b.settings BRUSH_DABS_PER_ACTUAL_RADIUS).base_value
        + E.sqrtf ((x - b.states STATE_X) * (x - b.states STATE_X)
            + (y - b.states STATE_Y) * (y - b.states STATE_Y))
          / radius_clamp (E.expf (b.settings BRUSH_RADIUS_LOGARITHMIC).base_value)
          * (b.settings BRUSH_DABS_PER_BASIC_RADIUS).base_value
        + dt * (b.settings BRUSH_DABS_PER_SECOND).base_value := by
  unfold brush_count_dabs_to radius_clamp
  by_cases h0 : b.states STATE_ACTUAL_RADIUS = 0 <;> simp only [h0, if_true, if_false] <;>
    split_ifs <;> simp [Function.update_apply]

theorem brush_count_dabs_to_nonneg (b : Brush α) (x y p dt : α)
    (hsqrt : ∀ v, 0 ≤ E.sqrtf v)
    (h1 : 0 ≤ (b.settings BRUSH_DABS_PER_ACTUAL_RADIUS).base_value)
    (h2 : 0 ≤ (b.settings BRUSH_DABS_PER_BASIC_RADIUS).base_value)
    (h3 : 0 ≤ (b.settings BRUSH_DABS_PER_SECOND).base_value) (hdt : 0 ≤ dt) :
    0 ≤ (brush_count_dabs_to E b x y p dt).1 := by
  rw [brush_count_dabs_to_value, brush_count_dabs_to_states, Function.update_same]
  have ha := radius_clamp_pos (if b.states STATE_ACTUAL_RADIUS = 0
            then E.expf (b.settings BRUSH_RADIUS_LOGARITHMIC).base_value
            else b.states STATE_ACTUAL_RADIUS)
  have hb := radius_clamp_pos (E.expf (b.settings BRUSH_RADIUS_LOGARITHMIC).base_value)
  have hs := hsqrt ((x - b.states STATE_X) * (x - b.states STATE_X)
            + (y - b.states STATE_Y) * (y - b.states STATE_Y))
  have t1 := mul_nonneg (div_nonneg hs (le_of_lt ha)) h1
  have t2 := mul_nonneg (div_nonneg hs (le_of_lt hb)) h2
  have t3 := mul_nonneg hdt h3
  linarith

end Count


section Dist
variable (E : Env α)

theorem dab_frac_range (s : LoopVars α) (h0 : 0 ≤ s.dist_moved) (h1 : s.dist_moved < 1)
    (hc : s.dist_moved + s.dist_todo ≥ 1) :
    0 < s.dist_todo ∧ 0 < dab_frac s ∧ dab_frac s ≤ 1 := by
  have hD : 0 < s.dist_todo := by linarith
  refine ⟨hD, ?_, ?_⟩
  · unfold dab_frac
    split_ifs
    · exact div_pos (by linarith) hD
    · exact div_pos one_pos hD
  · unfold dab_frac
    split_ifs with hm
    · rw [div_le_one hD]; linarith
    · rw [div_le_one hD]
      have : s.dist_moved = 0 := le_antisymm (not_lt.mp hm) h0
      linarith

theorem dab_loop_dist_range (b : Brush α) (x y p : α) (fuel : Nat) (s0 s : LoopVars α)
    (hsqrt : ∀ v, 0 ≤ E.sqrtf v)
    (h1 : 0 ≤ (b.settings BRUSH_DABS_PER_ACTUAL_RADIUS).base_value)
    (h2 : 0 ≤ (b.settings BRUSH_DABS_PER_BASIC_RADIUS).base_value)
    (h3 : 0 ≤ (b.settings BRUSH_DABS_PER_SECOND).base_value)
    (hs0 : 0 ≤ s0.dist_moved ∧ s0.dist_moved < 1 ∧ 0 ≤ s0.dist_todo ∧ 0 ≤ s0.dtime_left ∧
      s0.b.settings = b.settings)
    (h : dab_loop E x y p fuel s0 = .ok s) :
    0 ≤ s.dist_moved + s.dist_todo ∧ s.dist_moved + s.dist_todo < 1 := by
  have key := dab_loop_invariant E x y p
    (fun t => 0 ≤ t.dist_moved ∧ t.dist_moved < 1 ∧ 0 ≤ t.dist_todo ∧ 0 ≤ t.dtime_left ∧
      t.b.settings = b.settings)
    (by
      intro t t' hP hc hb
      obtain ⟨p0, p1, p2, p3, p4⟩ := hP
      obtain ⟨b1, r, b2, rc2, hb1, hb2, e1, -, e3, e4, -, e6, -⟩ :=
        dab_loop_body_spec E x y p t t' hb
      obtain ⟨hD, hf0, hf1⟩ := dab_frac_range t p0 p1 hc
      have hset : b2.settings = b.settings := by
        have hS := (dab_move_same x y p t).trans
          ((brush_update_settings_values_same E _ _ hb1).1.trans
            (brush_prepare_and_draw_dab_same E _ _ _ _ _ hb2).1)
        exact hS.1.trans p4
      have hdl : 0 ≤ t'.dtime_left := by
        rw [e6]
        have : t.dtime_left - dab_frac t * (t.dtime_left - 0)
            = (1 - dab_frac t) * t.dtime_left := by ring
        rw [this]
        exact mul_nonneg (by linarith) p3
      refine ⟨?_, ?_, ?_, hdl, ?_⟩
      · rw [e3]; split_ifs <;> [exact le_refl _; exact p0]
      · rw [e3]; split_ifs <;> [exact zero_lt_one; exact p1]
      · rw [e4]
        exact brush_count_dabs_to_nonneg E b2 x y p _ hsqrt (by rw [hset]; exact h1)
          (by rw [hset]; exact h2) (by rw [hset]; exact h3) hdl
      · rw [e1]
        exact hset)
    fuel s0 s hs0 h
  obtain ⟨⟨q0, -, q2, -, -⟩, hlt⟩ := key
  exact ⟨by linarith, hlt⟩

/-- The invariant on `dist` in exact arithmetic (the embedding without
rounding): for every brush whose `DABS_PER_ACTUAL_RADIUS`,
`DABS_PER_BASIC_RADIUS` and `DABS_PER_SECOND` base values are non-negative and
every event that returns (dropped, discontinuity or normal), if
`0 <= state.dist < 1` before the event then `0 <= state.dist < 1` after it.
`sqrtf` is taken to return non-negative values.  With the rounding of
`float` the lower bound fails: see `rounded_event_stores_negative_dist`. -/
theorem dist_stays_in_unit_interval (fuel : Nat) (b b' : Brush α) (rc rc' : RenderContext α)
    (x y pressure dtime : α)
    (hsqrt : ∀ v, 0 ≤ E.sqrtf v)
    (h1 : 0 ≤ (b.settings BRUSH_DABS_PER_ACTUAL_RADIUS).base_value)
    (h2 : 0 ≤ (b.settings BRUSH_DABS_PER_BASIC_RADIUS).base_value)
    (h3 : 0 ≤ (b.settings BRUSH_DABS_PER_SECOND).base_value)
    (hd : 0 ≤ b.states STATE_DIST ∧ b.states STATE_DIST < 1)
    (h : any_surface_stroke_to E fuel b rc x y pressure dtime = .ok (b', rc')) :
    0 ≤ b'.states STATE_DIST ∧ b'.states STATE_DIST < 1 := by
  by_cases hpos : 0 < dtime
  · by_cases hdisc : dtime > 5 ∨ (loop_start E b rc x y pressure dtime).dist_todo > 300
    · unfold any_surface_stroke_to at h
      simp only [not_le.mpr hpos, if_false, hdisc, if_true, pure, Except.pure] at h
      cases h
      simp [reset_branch, split_stroke_states, Function.update_apply]
    · obtain ⟨s, bt, hs, hbt, hsep, -⟩ :=
        any_surface_stroke_to_normal E fuel b b' rc rc' x y pressure dtime hpos hdisc h
      obtain ⟨b1, -, hst, -⟩ := loop_tail_spec E _ _ _ s bt hbt
      rw [(stroke_separation_logic_states E bt b' _ _ _ hsep).1, hst, Function.update_same]
      have hvs := (virtual_cursor_frame E b x y dtime)
      have hstart : (loop_start E b rc x y pressure dtime).dist_moved = b.states STATE_DIST := by
        unfold loop_start
        simp only [hvs.2.2]
      have hset0 : (loop_start E b rc x y pressure dtime).b.settings = b.settings :=
        (loop_start_same E b rc x y pressure dtime).1
      have htodo : 0 ≤ (loop_start E b rc x y pressure dtime).dist_todo := by
        have hc := brush_count_dabs_to_nonneg E (virtual_cursor E b x y dtime).2.2
          (virtual_cursor E b x y dtime).1 (virtual_cursor E b x y dtime).2.1 pressure dtime
          hsqrt (by rw [hvs.2.1]; exact h1) (by rw [hvs.2.1]; exact h2)
          (by rw [hvs.2.1]; exact h3) (le_of_lt hpos)
        exact hc
      exact dab_loop_dist_range E b _ _ _ fuel _ s hsqrt h1 h2 h3
        ⟨by rw [hstart]; exact hd.1, by rw [hstart]; exact hd.2, htodo, le_of_lt hpos, hset0⟩ hs
  · unfold any_surface_stroke_to at h
    simp only [not_lt.mp hpos, if_true, pure, Except.pure] at h
    cases h
    exact hd

theorem rat_sqrt_nonneg (v : ℚ) : 0 ≤ rat_sqrt v := by
  unfold rat_sqrt
  split_ifs
  · exact le_refl _
  · exact div_nonneg (Nat.cast_nonneg _) (Nat.cast_nonneg _)

end Dist

/-- The invariant on `dist` in exact arithmetic at the painting brush and the
event `(2, 0, 1, 1)`, which emits one dab. -/
theorem dist_stays_in_unit_interval_witness :
    ∃ b' rc', any_surface_stroke_to refEnv 5 paintBrush scenarioRc 2 0 1 1 = .ok (b', rc') ∧
      rc'.dabs.length = 1 ∧ 0 ≤ b'.states STATE_DIST ∧ b'.states STATE_DIST < 1 := by
  have hev : (match any_surface_stroke_to refEnv 5 paintBrush scenarioRc 2 0 1 1 with
      | .ok r => decide (r.2.dabs.length = 1)
      | .error _ => false) = true := by decide!
  cases hr : any_surface_stroke_to refEnv 5 paintBrush scenarioRc 2 0 1 1 with
  | error e => rw [hr] at hev; simp at hev
  | ok r =>
    rw [hr] at hev
    obtain ⟨b', rc'⟩ := r
    simp only [decide_eq_true_eq] at hev
    exact ⟨b', rc', rfl, hev,
      dist_stays_in_unit_interval refEnv 5 paintBrush b' scenarioRc rc' 2 0 1 1 rat_sqrt_nonneg
        (by decide!) (by decide!) (by decide!) (by decide!) hr⟩

section Line
variable (E : Env α)

theorem dab_move_states (x y p : α) (t : LoopVars α) :
    (dab_move x y p t).states STATE_X = t.b.states STATE_X + dab_frac t * (x - t.b.states STATE_X) ∧
    (dab_move x y p t).states STATE_Y = t.b.states STATE_Y + dab_frac t * (y - t.b.states STATE_Y) ∧
    (dab_move x y p t).settings = t.b.settings := by
  simp [dab_move, Function.update_apply]

theorem dab_step_brush (x y p : α) (t : LoopVars α) (b1 b2 : Brush α) (rc2 : RenderContext α)
    (r : Int) (hb1 : brush_update_settings_values E (dab_move x y p t) = .ok b1)
    (hb2 : brush_prepare_and_draw_dab E b1 t.rc = .ok (r, b2, rc2)) :
    b2.settings = t.b.settings ∧
    b2.states STATE_X = t.b.states STATE_X + dab_frac t * (x - t.b.states STATE_X) ∧
    b2.states STATE_Y = t.b.states STATE_Y + dab_frac t * (y - t.b.states STATE_Y) ∧
    (∃ inputs, b2.states STATE_ACTUAL_RADIUS
      = radius_clamp (E.expf (mapping_calculate (t.b.settings BRUSH_RADIUS_LOGARITHMIC) inputs))) ∧
    rc2.dabs.length = t.rc.dabs.length + 1 := by
  obtain ⟨dt, rng, inputs, st, hb, hx, hy, -, -, -, hr⟩ :=
    brush_update_settings_values_spec E _ b1 hb1
  obtain ⟨rng2, dab, hst2, hb2', hd, -⟩ := brush_prepare_and_draw_dab_spec E b1 b2 t.rc rc2 r hb2
  obtain ⟨mx, my, ms⟩ := dab_move_states x y p t
  have hset1 : b1.settings = t.b.settings := by rw [hb]; exact ms
  have hst1 : b1.states = st := by rw [hb]
  refine ⟨?_, ?_, ?_, ⟨inputs, ?_⟩, ?_⟩
  · rw [hb2']; exact hset1
  · rw [hst2, smudge_update_of_ne E b1 t.rc _ _ _ (by decide) (by decide) (by decide) (by decide),
      hst1, hx, mx]
  · rw [hst2, smudge_update_of_ne E b1 t.rc _ _ _ (by decide) (by decide) (by decide) (by decide),
      hst1, hy, my]
  · rw [hst2, smudge_update_of_ne E b1 t.rc _ _ _ (by decide) (by decide) (by decide) (by decide),
      hst1, hr, ms]
  · rw [hd]; simp

theorem dab_frac_mul (t : LoopVars α) (hD : 0 < t.dist_todo) :
    dab_frac t * t.dist_todo = (if t.dist_moved > 0 then 1 - t.dist_moved else 1) := by
  unfold dab_frac
  split_ifs <;> exact div_mul_cancel₀ _ (ne_of_gt hD)

end Line


section Line2
variable (E : Env α)

end Line2


section DabCount
variable (E : Env α)

end DabCount

section Positions
variable (E : Env α)

end Positions


section Radius
variable (E : Env α)

/-- C11, amended: after an `any_surface_stroke_to` event with `dtime > 0` that
returns, on the normal path the stored radius satisfies
`ACTUAL_RADIUS_MIN (0.2) <= actual_radius <= ACTUAL_RADIUS_MAX (150)`; on the
discontinuity path the stored radius is 0 (the reset zeroes it, and the next
`brush_count_dabs_to` repairs it). -/
theorem actual_radius_after_event (fuel : Nat) (b b' : Brush α) (rc rc' : RenderContext α)
    (x y pressure dtime : α) (hpos : 0 < dtime)
    (h : any_surface_stroke_to E fuel b rc x y pressure dtime = .ok (b', rc')) :
    (¬ (dtime > 5 ∨ (loop_start E b rc x y pressure dtime).dist_todo > 300) →
      ACTUAL_RADIUS_MIN ≤ b'.states STATE_ACTUAL_RADIUS ∧
        b'.states STATE_ACTUAL_RADIUS ≤ ACTUAL_RADIUS_MAX) ∧
    ((dtime > 5 ∨ (loop_start E b rc x y pressure dtime).dist_todo > 300) →
      b'.states STATE_ACTUAL_RADIUS = 0) := by
  constructor
  · intro hnd
    obtain ⟨s, bt, -, hbt, hsep, -⟩ :=
      any_surface_stroke_to_normal E fuel b b' rc rc' x y pressure dtime hpos hnd h
    obtain ⟨b1, hb1, hst, -⟩ := loop_tail_spec E _ _ _ s bt hbt
    obtain ⟨dt, rng, inputs, st, hb, -, -, -, -, -, hr⟩ :=
      brush_update_settings_values_spec E _ b1 hb1
    rw [(stroke_separation_logic_states E bt b' _ _ _ hsep).1, hst,
      Function.update_noteq (by decide), hb]
    show ACTUAL_RADIUS_MIN ≤ st STATE_ACTUAL_RADIUS ∧ st STATE_ACTUAL_RADIUS ≤ ACTUAL_RADIUS_MAX
    rw [hr]
    exact radius_clamp_range _
  · intro hd
    unfold any_surface_stroke_to at h
    simp only [not_le.mpr hpos, if_false, hd, if_true, pure, Except.pure] at h
    cases h
    simp [reset_branch, split_stroke_states, Function.update_apply]

end Radius

/-- Counterexample to C11 as stated: after the discontinuity event
`(0, 0, 1, 6)` the stored radius is 0, below `ACTUAL_RADIUS_MIN`. -/
theorem discontinuity_zeroes_radius :
    ∃ b' rc', any_surface_stroke_to refEnv 0 scenarioBrush scenarioRc 0 0 1 6 = .ok (b', rc') ∧
      b'.states STATE_ACTUAL_RADIUS = 0 ∧
      ¬ ((ACTUAL_RADIUS_MIN : ℚ) ≤ b'.states STATE_ACTUAL_RADIUS) := by
  have hev : (match any_surface_stroke_to refEnv 0 scenarioBrush scenarioRc 0 0 1 6 with
      | .ok r => decide (r.1.states STATE_ACTUAL_RADIUS = 0)
      | .error _ => false) = true := by decide!
  cases hr : any_surface_stroke_to refEnv 0 scenarioBrush scenarioRc 0 0 1 6 with
  | error e => rw [hr] at hev; simp at hev
  | ok r =>
    rw [hr] at hev
    obtain ⟨b', rc'⟩ := r
    simp only [decide_eq_true_eq] at hev
    refine ⟨b', rc', rfl, hev, ?_⟩
    rw [hev]
    unfold ACTUAL_RADIUS_MIN
    norm_num

/-- Witness of C11 amended: the painting brush and the normal event
`(2, 0, 1, 1)`. -/
theorem actual_radius_after_event_witness :
    ∃ b' rc', any_surface_stroke_to refEnv 5 paintBrush scenarioRc 2 0 1 1 = .ok (b', rc') ∧
      (ACTUAL_RADIUS_MIN : ℚ) ≤ b'.states STATE_ACTUAL_RADIUS ∧
      b'.states STATE_ACTUAL_RADIUS ≤ ACTUAL_RADIUS_MAX := by
  have hev : (match any_surface_stroke_to refEnv 5 paintBrush scenarioRc 2 0 1 1 with
      | .ok _ => true
      | .error _ => false) = true := by decide!
  cases hr : any_surface_stroke_to refEnv 5 paintBrush scenarioRc 2 0 1 1 with
  | error e => rw [hr] at hev; simp at hev
  | ok r =>
    obtain ⟨b', rc'⟩ := r
    exact ⟨b', rc', rfl,
      (actual_radius_after_event refEnv 5 paintBrush b' scenarioRc rc' 2 0 1 1 (by norm_num)
        hr).1 (by decide!)⟩

theorem radius_clamp_eq_max_min (r : α) :
    radius_clamp r = max ACTUAL_RADIUS_MIN (min r ACTUAL_RADIUS_MAX) := by
  have hmm : (ACTUAL_RADIUS_MIN : α) ≤ ACTUAL_RADIUS_MAX := by
    unfold ACTUAL_RADIUS_MIN ACTUAL_RADIUS_MAX; norm_num
  by_cases h1 : r < ACTUAL_RADIUS_MIN
  · have h2 : ¬ (ACTUAL_RADIUS_MIN : α) > ACTUAL_RADIUS_MAX := not_lt.mpr hmm
    simp only [radius_clamp, h1, if_true, h2, if_false]
    rw [min_eq_left (le_trans h1.le hmm), max_eq_left h1.le]
  · by_cases h2 : r > ACTUAL_RADIUS_MAX
    · simp only [radius_clamp, h1, if_false, h2, if_true]
      rw [min_eq_right h2.le, max_eq_right hmm]
    · simp only [radius_clamp, h1, if_false, h2]
      rw [min_eq_left (not_lt.mp h2), max_eq_right (not_lt.mp h1)]

/-- C14, amended: `brush_count_dabs_to` returns
`dist / actual_radius * dpa + dist / base_radius * dpb + dt * dps` where `dist`
is the Euclidean distance from the state position, `base_radius` is
`expf (base RADIUS_LOGARITHMIC)` clamped to `[0.2, 150]`, and `actual_radius`
is the state radius (or `expf (base RADIUS_LOGARITHMIC)` when the state radius
is 0) clamped to `[0.2, 150]`; when `expf (base RADIUS_LOGARITHMIC)` already
lies in `[0.2, 150]` this is the formula of the specification. -/
theorem count_dabs_formula (E : Env α) (b : Brush α) (x y p dt : α) :
    (brush_count_dabs_to E b x y p dt).1
      = E.sqrtf (SQR (x - b.states STATE_X) + SQR (y - b.states STATE_Y))
          / radius_clamp (if b.states STATE_ACTUAL_RADIUS = 0
              then E.expf (b.settings BRUSH_RADIUS_LOGARITHMIC).base_value
              else b.states STATE_ACTUAL_RADIUS)
          * (b.settings BRUSH_DABS_PER_ACTUAL_RADIUS).base_value
        + E.sqrtf (SQR (x - b.states STATE_X) + SQR (y - b.states STATE_Y))
          / radius_clamp (E.expf (b.settings BRUSH_RADIUS_LOGARITHMIC).base_value)
          * (b.settings BRUSH_DABS_PER_BASIC_RADIUS).base_value
        + dt * (b.settings BRUSH_DABS_PER_SECOND).base_value
    ∧ (ACTUAL_RADIUS_MIN ≤ E.expf (b.settings BRUSH_RADIUS_LOGARITHMIC).base_value →
        E.expf (b.settings BRUSH_RADIUS_LOGARITHMIC).base_value ≤ ACTUAL_RADIUS_MAX →
        (brush_count_dabs_to E b x y p dt).1 = spec_count_dabs_to E b x y dt) := by
  have hv := brush_count_dabs_to_value E b x y p dt
  rw [brush_count_dabs_to_states, Function.update_same] at hv
  refine ⟨by rw [hv]; rfl, fun h1 h2 => ?_⟩
  rw [hv]
  unfold spec_count_dabs_to
  simp only [SQR]
  rw [radius_clamp_of_range _ h1 h2]
  by_cases h0 : b.states STATE_ACTUAL_RADIUS = 0
  · simp only [h0, if_true]
    rw [radius_clamp_of_range _ h1 h2]
  · simp only [h0, if_false]
    rw [radius_clamp_eq_max_min]

/-- Counterexample to C14 as stated: with `RADIUS_LOGARITHMIC = 10` the base
radius `expf 10` exceeds 150; for the target `(300, 0)` the code returns
`300 / 150 = 2`, the formula with the unclamped base radius does not. -/
theorem count_dabs_clamps_base_radius :
    (brush_count_dabs_to refEnv wideBrush 300 0 1 0).1 = 2 ∧
      spec_count_dabs_to refEnv wideBrush 300 0 0 ≠ 2 ∧
      refEnv.expf (wideBrush.settings BRUSH_RADIUS_LOGARITHMIC).base_value > ACTUAL_RADIUS_MAX := by
  decide!

/-- Witness of C14 amended: the scenario brush (`expf 1` lies in the radius
range) and the target `(2, 0)`. -/
theorem count_dabs_formula_witness :
    (brush_count_dabs_to refEnv scenarioBrush 2 0 1 0).1
      = spec_count_dabs_to refEnv scenarioBrush 2 0 0 :=
  (count_dabs_formula refEnv scenarioBrush 2 0 1 0).2 (by decide!) (by decide!)

/-- C15, amended: for every brush whose base values of
`DABS_PER_ACTUAL_RADIUS` and `DABS_PER_BASIC_RADIUS` are non-negative, and every
state, `brush_count_dabs_to (x, y, p, 0)` is non-negative, and it is monotone in
the distance: a target no farther from the state position than another gets a
count no larger (`sqrtf` being non-negative and monotone). -/
theorem count_dabs_nonneg_monotone (E : Env α) (b : Brush α) (x1 y1 p1 x2 y2 p2 : α)
    (hsqrt : ∀ v, 0 ≤ E.sqrtf v) (hmono : ∀ u v, u ≤ v → E.sqrtf u ≤ E.sqrtf v)
    (h1 : 0 ≤ (b.settings BRUSH_DABS_PER_ACTUAL_RADIUS).base_value)
    (h2 : 0 ≤ (b.settings BRUSH_DABS_PER_BASIC_RADIUS).base_value) :
    0 ≤ (brush_count_dabs_to E b x1 y1 p1 0).1 ∧
    (SQR (x1 - b.states STATE_X) + SQR (y1 - b.states STATE_Y)
        ≤ SQR (x2 - b.states STATE_X) + SQR (y2 - b.states STATE_Y) →
      (brush_count_dabs_to E b x1 y1 p1 0).1 ≤ (brush_count_dabs_to E b x2 y2 p2 0).1) := by
  have ha := radius_clamp_pos (if b.states STATE_ACTUAL_RADIUS = 0
    then E.expf (b.settings BRUSH_RADIUS_LOGARITHMIC).base_value
    else b.states STATE_ACTUAL_RADIUS)
  have hb := radius_clamp_pos (E.expf (b.settings BRUSH_RADIUS_LOGARITHMIC).base_value)
  constructor
  · rw [brush_count_dabs_to_value, brush_count_dabs_to_states, Function.update_same]
    have t1 := mul_nonneg (div_nonneg (hsqrt ((x1 - b.states STATE_X) * (x1 - b.states STATE_X)
      + (y1 - b.states STATE_Y) * (y1 - b.states STATE_Y))) ha.le) h1
    have t2 := mul_nonneg (div_nonneg (hsqrt ((x1 - b.states STATE_X) * (x1 - b.states STATE_X)
      + (y1 - b.states STATE_Y) * (y1 - b.states STATE_Y))) hb.le) h2
    linarith
  · intro hd
    simp only [SQR] at hd
    have hs := hmono _ _ hd
    rw [brush_count_dabs_to_value, brush_count_dabs_to_value, brush_count_dabs_to_states,
      brush_count_dabs_to_states, Function.update_same]
    have t1 := mul_le_mul_of_nonneg_right (div_le_div_of_nonneg_right hs ha.le) h1
    have t2 := mul_le_mul_of_nonneg_right (div_le_div_of_nonneg_right hs hb.le) h2
    linarith

/-- Counterexample to C15 as stated: with `DABS_PER_ACTUAL_RADIUS = -2` the
count for the target `(2, 0)` is negative, and smaller than the count for the
nearer target `(0, 0)`. -/
theorem negative_rate_negative_count :
    (brush_count_dabs_to refEnv negRateBrush 2 0 1 0).1 < 0 ∧
      (brush_count_dabs_to refEnv negRateBrush 2 0 1 0).1
        < (brush_count_dabs_to refEnv negRateBrush 0 0 1 0).1 := by
  decide!

/-- Witness of C15 amended: the default brush over the reals with the real
square root, and the targets `(1, 0)` and `(2, 0)`. -/
theorem count_dabs_nonneg_monotone_witness :
    0 ≤ (brush_count_dabs_to (libmEnv Real.exp Real.log Real.sqrt (fun x y => x ^ y))
          (plainBrush defaultSettings) 1 0 1 0).1 ∧
      (brush_count_dabs_to (libmEnv Real.exp Real.log Real.sqrt (fun x y => x ^ y))
          (plainBrush defaultSettings) 1 0 1 0).1
        ≤ (brush_count_dabs_to (libmEnv Real.exp Real.log Real.sqrt (fun x y => x ^ y))
          (plainBrush defaultSettings) 2 0 1 0).1 := by
  have h := count_dabs_nonneg_monotone (libmEnv Real.exp Real.log Real.sqrt (fun x y => x ^ y))
    (plainBrush defaultSettings) 1 0 1 2 0 1 (fun v => Real.sqrt_nonneg v)
    (fun u v huv => Real.sqrt_le_sqrt huv)
    (by simp [plainBrush, defaultSettings]) (by simp [plainBrush, defaultSettings])
  exact ⟨h.1, h.2 (by simp [plainBrush, SQR]; norm_num)⟩

section Colour
variable (E : Env α)

/-- The colour and the opacity of the dab that `brush_prepare_and_draw_dab`
passes to `draw_dab`. -/
theorem brush_prepare_and_draw_dab_dab (b b' : Brush α) (rc rc' : RenderContext α) (r : Int)
    (h : brush_prepare_and_draw_dab E b rc = .ok (r, b', rc')) :
    ∃ dab, rc'.dabs = rc.dabs ++ [dab] ∧
      (dab.r, dab.g, dab.b) = dab_rgb E (dab_color_change E b (dab_color E b).1) ∧
      dab.opacity = (dab_radius E b (dab_opacity E b) (dab_position E b).2.2).2.1 ∧
      dab.radius = (dab_radius E b (dab_opacity E b) (dab_position E b).2.2).1 := by
  unfold brush_prepare_and_draw_dab at h
  simp only [bind, Except.bind, pure, Except.pure] at h
  split at h
  · cases h
  · split at h
    · cases h
    · split at h
      · cases h
      · cases h
        exact ⟨_, rfl, rfl, rfl, rfl⟩

/-- C17: in `brush_prepare_and_draw_dab`, when the evaluated `SMUDGE` is 0 the
dab colour before the HSV/HSL changes is exactly the base `(COLOR_H, COLOR_S,
COLOR_V)`, whatever the state vector (so whatever the smudge buffer) holds; when
the evaluated `SMUDGE` is 1 it is `rgb_to_hsv_float` of the smudge buffer,
whatever the settings (so whatever the base colour) hold.  The colour the dab
is drawn with is this colour after the changes and the quantisation. -/
theorem smudge_extremes (b : Brush α) :
    (b.settings_value BRUSH_SMUDGE = 0 → ∀ st : State → α,
      (dab_color E { b with states := st }).1
        = ((b.settings BRUSH_COLOR_H).base_value, (b.settings BRUSH_COLOR_S).base_value,
            (b.settings BRUSH_COLOR_V).base_value)) ∧
    (b.settings_value BRUSH_SMUDGE = 1 → ∀ s : BrushSetting → Mapping α,
      (dab_color E { b with settings := s }).1
        = E.rgb_to_hsv_float (b.states STATE_SMUDGE_R, b.states STATE_SMUDGE_G,
            b.states STATE_SMUDGE_B)) ∧
    (∀ (rc rc' : RenderContext α) (r : Int) (b' : Brush α),
      brush_prepare_and_draw_dab E b rc = .ok (r, b', rc') →
      ∃ dab, rc'.dabs = rc.dabs ++ [dab] ∧
        (dab.r, dab.g, dab.b) = dab_rgb E (dab_color_change E b (dab_color E b).1)) := by
  refine ⟨fun h st => ?_, fun h s => ?_, fun rc rc' r b' hr => ?_⟩
  · unfold dab_color
    simp [h]
  · have h10 : ¬ ((1 : α) ≤ 0) := not_le.mpr one_pos
    unfold dab_color
    simp [h, h10]
  · obtain ⟨dab, h1, h2, -, -⟩ := brush_prepare_and_draw_dab_dab E b b' rc rc' r hr
    exact ⟨dab, h1, h2⟩

end Colour

/-- Witness of C17: with `SMUDGE = 0` the colour is the base colour
`(1/3, 1/2, 3/4)`; with `SMUDGE = 1` it is the smudge buffer
`(1/10, 2/10, 3/10)` (the reference `rgb_to_hsv_float` is the identity). -/
theorem smudge_extremes_witness :
    (dab_color refEnv (colorBrush 0)).1 = (1 / 3, 1 / 2, 3 / 4) ∧
      (dab_color refEnv (colorBrush 1)).1 = (1 / 10, 2 / 10, 3 / 10) :=
  ⟨(smudge_extremes refEnv (colorBrush 0)).1 (by decide!) (colorBrush 0).states,
    (smudge_extremes refEnv (colorBrush 1)).2.1 (by decide!) (colorBrush 1).settings⟩

section Cache
variable (E : Env α)

theorem settings_base_values_have_changed_coherent (b : Brush α) :
    speed_mapping_coherent E (settings_base_values_have_changed E b) := by
  intro i hi
  have hi' : i = 0 ∨ i = 1 := by omega
  rcases hi' with rfl | rfl <;>
    simp [settings_base_values_have_changed, speed_mapping_step, Function.update_apply]

theorem mapping_set_n_base_value (m : Mapping α) (input : Input) (n : Nat) :
    (mapping_set_n m input n).base_value = m.base_value := rfl

theorem mapping_set_point_base_value (m : Mapping α) (input : Input) (index : Nat) (x y : α) :
    (mapping_set_point m input index x y).base_value = m.base_value := rfl

theorem set_mapping_n_base_value (b : Brush α) (id : BrushSetting) (input : Input) (n : Nat)
    (j : BrushSetting) :
    ((set_mapping_n b id input n).settings j).base_value = (b.settings j).base_value := by
  unfold set_mapping_n
  by_cases h : j = id
  · subst h; simp [mapping_set_n_base_value]
  · simp [Function.update_apply, h]

theorem set_mapping_point_base_value (b : Brush α) (id : BrushSetting) (input : Input)
    (index : Nat) (x y : α) (j : BrushSetting) :
    ((set_mapping_point b id input index x y).settings j).base_value
      = (b.settings j).base_value := by
  unfold set_mapping_point
  by_cases h : j = id
  · subst h; simp [mapping_set_point_base_value]
  · simp [Function.update_apply, h]

/-- C19: the cached speed-mapping coefficients are coherent with the current
base values (`gamma[i] = exp (base SPEEDi_GAMMA)`, `m[i] = 0.015 * (45 +
gamma[i])`, `q[i] = 0.5 - m[i] * log (45 + gamma[i])` for `i` in `{0, 1}`) after
construction and after `set_base_value`; `set_mapping_n` and
`set_mapping_point` keep them coherent. -/
theorem speed_mapping_cache_coherent :
    (∀ (seed : Nat) (garbage : Brush α), speed_mapping_coherent E (Brush.new E seed garbage)) ∧
    (∀ (b : Brush α) (id : BrushSetting) (value : α),
      speed_mapping_coherent E (set_base_value E b id value)) ∧
    (∀ (b : Brush α) (id : BrushSetting) (input : Input) (n : Nat),
      speed_mapping_coherent E b → speed_mapping_coherent E (set_mapping_n b id input n)) ∧
    (∀ (b : Brush α) (id : BrushSetting) (input : Input) (index : Nat) (x y : α),
      speed_mapping_coherent E b →
        speed_mapping_coherent E (set_mapping_point b id input index x y)) := by
  refine ⟨fun seed garbage => settings_base_values_have_changed_coherent E _,
    fun b id value => settings_base_values_have_changed_coherent E _,
    fun b id input n h i hi => ?_, fun b id input index x y h i hi => ?_⟩
  · rw [set_mapping_n_base_value]
    exact h i hi
  · rw [set_mapping_point_base_value]
    exact h i hi

end Cache

/-- Witness of C19: the scenario brush is coherent, and stays so after
`set_mapping_n` and `set_mapping_point` on the pressure curve of `OPAQUE`. -/
theorem speed_mapping_cache_coherent_witness :
    speed_mapping_coherent refEnv scenarioBrush ∧
      speed_mapping_coherent refEnv
        (set_mapping_point (set_mapping_n scenarioBrush BRUSH_OPAQUE INPUT_PRESSURE 2)
          BRUSH_OPAQUE INPUT_PRESSURE 1 1 1) :=
  ⟨settings_base_values_have_changed_coherent refEnv _,
    (speed_mapping_cache_coherent refEnv).2.2.2 _ BRUSH_OPAQUE INPUT_PRESSURE 1 1 1
      ((speed_mapping_cache_coherent refEnv).2.2.1 _ BRUSH_OPAQUE INPUT_PRESSURE 2
        (settings_base_values_have_changed_coherent refEnv _))⟩

/-- C13, the code at the failing input.  The interpolation step of the dab
loop and the move of the tail leave the member `dtime` as it was: the
interpolated slice goes to the parameter `dtime`.  For the painting brush
(member `dtime = 1`) and the event `(2, 0, 1, 1)` the slice of the one dab is
`frac * dtime_left = 65/96` and the slice of the tail is 31/96, but
`brush_update_settings_values` normalises with the member, 1: after the event
the member is still 1 and the speed state is `(31/48) / 1 / (65/24) = 31/130`,
not `(31/48) / (31/96) / (65/24) = 48/65`. -/
theorem update_reads_stale_member_dtime :
    (∀ (x y p : ℚ) (s : LoopVars ℚ),
      (dab_move x y p s).dtime = s.b.dtime ∧ (tail_move x y p s.b).dtime = s.b.dtime) ∧
    dab_frac (loop_start refEnv paintBrush scenarioRc 2 0 1 1)
      * (loop_start refEnv paintBrush scenarioRc 2 0 1 1).dtime_left = 65 / 96 ∧
    (dab_move 2 0 1 (loop_start refEnv paintBrush scenarioRc 2 0 1 1)).dtime = 1 ∧
    ∃ b' rc', any_surface_stroke_to refEnv 5 paintBrush scenarioRc 2 0 1 1 = .ok (b', rc') ∧
      rc'.dabs.length = 1 ∧ b'.dtime = 1 ∧
      b'.states STATE_NORM_SPEED1_SLOW = 31 / 130 ∧
      b'.states STATE_NORM_SPEED1_SLOW ≠ 48 / 65 := by
  refine ⟨fun x y p s => ⟨rfl, rfl⟩, by decide!, by decide!, ?_⟩
  have hev : (match any_surface_stroke_to refEnv 5 paintBrush scenarioRc 2 0 1 1 with
      | .ok r => decide (r.2.dabs.length = 1 ∧ r.1.dtime = 1 ∧
          r.1.states STATE_NORM_SPEED1_SLOW = 31 / 130)
      | .error _ => false) = true := by decide!
  cases hr : any_surface_stroke_to refEnv 5 paintBrush scenarioRc 2 0 1 1 with
  | error e => rw [hr] at hev; simp at hev
  | ok r =>
    rw [hr] at hev
    obtain ⟨b', rc'⟩ := r
    simp only [decide_eq_true_eq] at hev
    obtain ⟨h1, h2, h3⟩ := hev
    refine ⟨b', rc', rfl, h1, h2, h3, ?_⟩
    rw [h3]; norm_num

/-- Counterexample to C20 as stated: the two events of the single tap emit no
dab (the pointer does not move and `DABS_PER_SECOND = 0`, so `dist_todo = 0`),
and the bounding box stays empty. -/
theorem single_tap_emits_no_dab :
    ∃ b' rc', stroke_events refEnv 5 scenarioBrush scenarioRc
        [(0, 0, 1, 1 / 10), (0, 0, 0, 1 / 10)] = .ok (b', rc') ∧
      rc'.dabs = [] ∧ rc'.bbox.w = 0 := by
  have hev : (match stroke_events refEnv 5 scenarioBrush scenarioRc
        [(0, 0, 1, 1 / 10), (0, 0, 0, 1 / 10)] with
      | .ok r => decide (r.2.dabs.length = 0 ∧ r.2.bbox.w = 0)
      | .error _ => false) = true := by decide!
  cases hr : stroke_events refEnv 5 scenarioBrush scenarioRc
      [(0, 0, 1, 1 / 10), (0, 0, 0, 1 / 10)] with
  | error e => rw [hr] at hev; simp at hev
  | ok r =>
    rw [hr] at hev
    obtain ⟨b', rc'⟩ := r
    simp only [decide_eq_true_eq] at hev
    exact ⟨b', rc', rfl, List.length_eq_zero.mp hev.1, hev.2⟩

/-- C20, amended: scenario S1 with the default scenario brush and a zeroed
state.  The three events `(0,0,1.0,0.1)`, `(0,0,0.0,0.1)`, `(0,0,0,1.6)` emit
no dab and do not invoke `split_stroke`: each event counts as painting, the
idling time stays 0 and `stroke_total_painting_time` ends at
`0.1 + 0.1 + 1.6 = 1.8`, below the split threshold 5. -/
theorem single_tap_scenario :
    ∃ b' rc', stroke_events refEnv 5 scenarioBrush scenarioRc
        [(0, 0, 1, 1 / 10), (0, 0, 0, 1 / 10), (0, 0, 0, 16 / 10)] = .ok (b', rc') ∧
      rc'.dabs = [] ∧ b'.split_calls = scenarioBrush.split_calls ∧
      b'.stroke_idling_time = 0 ∧ b'.stroke_total_painting_time = 18 / 10 := by
  have hev : (match stroke_events refEnv 5 scenarioBrush scenarioRc
        [(0, 0, 1, 1 / 10), (0, 0, 0, 1 / 10), (0, 0, 0, 16 / 10)] with
      | .ok r => decide (r.2.dabs.length = 0 ∧ r.1.split_calls = scenarioBrush.split_calls ∧
          r.1.stroke_idling_time = 0 ∧ r.1.stroke_total_painting_time = 18 / 10)
      | .error _ => false) = true := by decide!
  cases hr : stroke_events refEnv 5 scenarioBrush scenarioRc
      [(0, 0, 1, 1 / 10), (0, 0, 0, 1 / 10), (0, 0, 0, 16 / 10)] with
  | error e => rw [hr] at hev; simp at hev
  | ok r =>
    rw [hr] at hev
    obtain ⟨b', rc'⟩ := r
    simp only [decide_eq_true_eq] at hev
    exact ⟨b', rc', rfl, List.length_eq_zero.mp hev.1, hev.2.1, hev.2.2.1, hev.2.2.2⟩

section Stroke
variable (E : Env α)

theorem trunc_fmod_range (x y : α) (hx : 0 ≤ x) (hy : y ≠ 0) :
    0 ≤ x - y * (c_int (x / y) : α) ∧ x - y * (c_int (x / y) : α) < |y| := by
  rcases lt_or_gt_of_ne hy with hneg | hpos
  · -- y < 0
    rw [abs_of_neg hneg]
    have hq : x / y ≤ 0 := div_nonpos_of_nonneg_of_nonpos hx hneg.le
    have hxy : x / y * y = x := div_mul_cancel₀ x hy
    by_cases h0 : 0 ≤ x / y
    · have hq0 : x / y = 0 := le_antisymm hq h0
      have hx0 : x = 0 := by rw [← hxy, hq0, zero_mul]
      have key : (c_int (x / y) : α) = 0 := by rw [hq0]; simp [c_int]
      rw [key, mul_zero, sub_zero, hx0]
      exact ⟨le_refl _, by linarith⟩
    · unfold c_int
      simp only [h0, if_false]
      have hc1 : x / y ≤ (⌈x / y⌉ : α) := Int.le_ceil _
      have hc2 : (⌈x / y⌉ : α) < x / y + 1 := Int.ceil_lt_add_one _
      have e1 : y * (⌈x / y⌉ : α) ≤ y * (x / y) := mul_le_mul_of_nonpos_left hc1 hneg.le
      have e2 : y * (x / y + 1) < y * (⌈x / y⌉ : α) := mul_lt_mul_of_neg_left hc2 hneg
      have e3 : y * (x / y) = x := by rw [mul_comm]; exact hxy
      rw [e3] at e1
      rw [mul_add, e3, mul_one] at e2
      constructor <;> linarith
  · rw [abs_of_pos hpos]
    have hq : 0 ≤ x / y := div_nonneg hx hpos.le
    have hxy : x / y * y = x := div_mul_cancel₀ x hy
    unfold c_int
    simp only [hq, if_true]
    have hc1 : (⌊x / y⌋ : α) ≤ x / y := Int.floor_le _
    have hc2 : x / y < (⌊x / y⌋ : α) + 1 := Int.lt_floor_add_one _
    have e1 : y * (⌊x / y⌋ : α) ≤ y * (x / y) := mul_le_mul_of_nonneg_left hc1 hpos.le
    have e2 : y * (x / y) < y * ((⌊x / y⌋ : α) + 1) := mul_lt_mul_of_pos_left hc2 hpos
    have e3 : y * (x / y) = x := by rw [mul_comm]; exact hxy
    rw [e3] at e1
    rw [mul_add, e3, mul_one] at e2
    constructor <;> linarith

theorem stroke_length_range
    (hfmod : ∀ x y, 0 ≤ x → y ≠ 0 → 0 ≤ E.fmodf x y ∧ E.fmodf x y < |y|)
    (sv : BrushSetting → α) (nd : α) (st st' : State → α)
    (h : stroke_length E sv nd st = .ok st')
    (h2 : -2 ≤ sv BRUSH_STROKE_HOLDTIME) (h1 : sv BRUSH_STROKE_HOLDTIME ≠ -1) :
    0 ≤ st' STATE_STROKE ∧ st' STATE_STROKE ≤ max 1 (1 + sv BRUSH_STROKE_HOLDTIME) := by
  have hw : 1 + sv BRUSH_STROKE_HOLDTIME ≠ 0 := by
    intro hc; apply h1; linarith
  have habs : |1 + sv BRUSH_STROKE_HOLDTIME| ≤ max 1 (1 + sv BRUSH_STROKE_HOLDTIME) := by
    rcases le_or_lt 0 (1 + sv BRUSH_STROKE_HOLDTIME) with hp | hn
    · rw [abs_of_nonneg hp]; exact le_max_right _ _
    · rw [abs_of_neg hn]; exact le_trans (by linarith) (le_max_left _ _)
  unfold stroke_length at h
  simp only [bind, Except.bind, pure, Except.pure] at h
  by_cases hneg : st STATE_STROKE + nd * E.expf (-(sv BRUSH_STROKE_DURATION_LOGARITHMIC)) < 0
  · simp only [Function.update_same, hneg, if_true, Function.update_idem] at h
    by_cases hgt : (0 : α) > 1 + sv BRUSH_STROKE_HOLDTIME
    · simp only [hgt, if_true] at h
      have hn99 : ¬ (1 + sv BRUSH_STROKE_HOLDTIME > 99 / 10 + 1) := by
        intro hc; linarith
      simp only [hn99, if_false] at h
      have hf := hfmod 0 (1 + sv BRUSH_STROKE_HOLDTIME) (le_refl _) hw
      split at h
      · cases h
      · cases h
        simp only [Function.update_same]
        exact ⟨hf.1, le_trans hf.2.le habs⟩
    · simp only [hgt, if_false] at h
      cases h
      simp only [Function.update_same]
      exact ⟨le_refl _, le_trans (not_lt.mp hgt) (le_max_right _ _)⟩
  · simp only [Function.update_same, hneg, if_false] at h
    have h0 := not_lt.mp hneg
    by_cases hgt : st STATE_STROKE + nd * E.expf (-(sv BRUSH_STROKE_DURATION_LOGARITHMIC))
        > 1 + sv BRUSH_STROKE_HOLDTIME
    · simp only [hgt, if_true] at h
      by_cases h99 : 1 + sv BRUSH_STROKE_HOLDTIME > 99 / 10 + 1
      · simp only [h99, if_true] at h
        cases h
        simp only [Function.update_same]
        exact ⟨zero_le_one, le_max_left _ _⟩
      · simp only [h99, if_false] at h
        have hf := hfmod _ (1 + sv BRUSH_STROKE_HOLDTIME) h0 hw
        split at h
        · cases h
        · cases h
          simp only [Function.update_same]
          exact ⟨hf.1, le_trans hf.2.le habs⟩
    · simp only [hgt, if_false] at h
      cases h
      simp only [Function.update_same]
      exact ⟨h0, le_trans (not_lt.mp hgt) (le_max_right _ _)⟩

theorem brush_update_settings_values_stroke (b b' : Brush α)
    (h : brush_update_settings_values E b = .ok b') :
    ∃ nd st0 st1, stroke_length E b'.settings_value nd st0 = .ok st1 ∧
      b'.states STATE_STROKE = st1 STATE_STROKE := by
  unfold brush_update_settings_values at h
  simp only [bind, Except.bind, pure, Except.pure] at h
  split at h
  · cases h
  · split at h
    · cases h
    · split at h
      · cases h
      · rename_i st' hsl
        cases h
        refine ⟨_, _, st', hsl, ?_⟩
        dsimp only
        rw [final_radius_of_ne E _ _ STATE_STROKE (by decide)]

theorem brush_update_settings_values_stroke_range
    (hfmod : ∀ x y, 0 ≤ x → y ≠ 0 → 0 ≤ E.fmodf x y ∧ E.fmodf x y < |y|)
    (b b' : Brush α) (h : brush_update_settings_values E b = .ok b')
    (h2 : -2 ≤ b'.settings_value BRUSH_STROKE_HOLDTIME)
    (h1 : b'.settings_value BRUSH_STROKE_HOLDTIME ≠ -1) :
    0 ≤ b'.states STATE_STROKE ∧
      b'.states STATE_STROKE ≤ max 1 (1 + b'.settings_value BRUSH_STROKE_HOLDTIME) := by
  obtain ⟨nd, st0, st1, hsl, hst⟩ := brush_update_settings_values_stroke E b b' h
  rw [hst]
  exact stroke_length_range E hfmod _ nd st0 st1 hsl h2 h1

theorem loop_tail_settings_value (x y p : α) (s : LoopVars α) (bt : Brush α)
    (h : loop_tail E x y p s = .ok bt) :
    ∃ b1, brush_update_settings_values E (tail_move x y p s.b) = .ok b1 ∧
      bt.settings_value = b1.settings_value ∧
      bt.states = Function.update b1.states STATE_DIST (s.dist_moved + s.dist_todo) := by
  unfold loop_tail at h
  simp only [bind, Except.bind, pure, Except.pure] at h
  split at h
  · cases h
  · rename_i b1 hb1
    cases h
    refine ⟨b1, hb1, ?_, ?_⟩ <;> split_ifs <;> rfl

theorem stroke_separation_logic_settings_value (b b' : Brush α) (painted : Painted) (p dt : α)
    (h : stroke_separation_logic E b painted p dt = .ok b') :
    b'.settings_value = b.settings_value := by
  have hs : ∀ c : Brush α, (split_stroke E c).settings_value = c.settings_value := by
    intro c
    unfold split_stroke
    cases hcb : c.split_stroke_callback with
    | none => simp
    | some cb => by_cases hres : (E.PyEval_CallObject cb c.py).1 = false <;> simp [hres]
  unfold stroke_separation_logic resolve_painted at h
  simp only [bind, Except.bind, pure, Except.pure, g_assert] at h
  split_ifs at h <;> first
    | (cases h; rfl)
    | (cases h; exact hs _)

/-- C12, amended: after every `brush_update_settings_values` that returns, and
after every `any_surface_stroke_to` event with `dtime > 0` that returns,
`0 <= state.stroke <= max(1, 1 + h)`, where `h` is the evaluated
`STROKE_HOLDTIME`, provided `h >= -2` and `h ≠ -1` (`fmodf` being the C
remainder: the sign of its first argument, a magnitude below that of its
second). -/
theorem stroke_state_range
    (hfmod : ∀ x y, 0 ≤ x → y ≠ 0 → 0 ≤ E.fmodf x y ∧ E.fmodf x y < |y|) :
    (∀ b b' : Brush α, brush_update_settings_values E b = .ok b' →
      -2 ≤ b'.settings_value BRUSH_STROKE_HOLDTIME →
      b'.settings_value BRUSH_STROKE_HOLDTIME ≠ -1 →
      0 ≤ b'.states STATE_STROKE ∧
        b'.states STATE_STROKE ≤ max 1 (1 + b'.settings_value BRUSH_STROKE_HOLDTIME)) ∧
    (∀ (fuel : Nat) (b b' : Brush α) (rc rc' : RenderContext α) (x y pressure dtime : α),
      0 < dtime → any_surface_stroke_to E fuel b rc x y pressure dtime = .ok (b', rc') →
      -2 ≤ b'.settings_value BRUSH_STROKE_HOLDTIME →
      b'.settings_value BRUSH_STROKE_HOLDTIME ≠ -1 →
      0 ≤ b'.states STATE_STROKE ∧
        b'.states STATE_STROKE ≤ max 1 (1 + b'.settings_value BRUSH_STROKE_HOLDTIME)) := by
  refine ⟨fun b b' h h2 h1 => brush_update_settings_values_stroke_range E hfmod b b' h h2 h1,
    fun fuel b b' rc rc' x y pressure dtime hpos h h2 h1 => ?_⟩
  by_cases hd : dtime > 5 ∨ (loop_start E b rc x y pressure dtime).dist_todo > 300
  · unfold any_surface_stroke_to at h
    simp only [not_le.mpr hpos, if_false, hd, if_true, pure, Except.pure] at h
    cases h
    have hs : (reset_branch E (loop_start E b rc x y pressure dtime).b
        (virtual_cursor E b x y dtime).1 (virtual_cursor E b x y dtime).2.1 pressure).states
        STATE_STROKE = 1 := by
      simp [reset_branch, split_stroke_states, Function.update_apply]
    rw [hs]
    exact ⟨zero_le_one, le_max_left _ _⟩
  · obtain ⟨s, bt, -, hbt, hsep, -⟩ :=
      any_surface_stroke_to_normal E fuel b b' rc rc' x y pressure dtime hpos hd h
    obtain ⟨b1, hb1, hsv, hst⟩ := loop_tail_settings_value E _ _ _ s bt hbt
    have e1 : b'.states STATE_STROKE = b1.states STATE_STROKE := by
      rw [(stroke_separation_logic_states E bt b' _ _ _ hsep).1, hst,
        Function.update_noteq (by decide)]
    have e2 : b'.settings_value = b1.settings_value := by
      rw [stroke_separation_logic_settings_value E bt b' _ _ _ hsep, hsv]
    rw [e1, e2]
    rw [e2] at h2 h1
    exact brush_update_settings_values_stroke_range E hfmod _ b1 hb1 h2 h1

end Stroke
/-- Counterexample to C12 as stated: with `STROKE_HOLDTIME = -6` the wrap
length `1 + h` is -5; the event `(65/12, 0, 0, 1)` moves the pointer by two
base radii, `stroke` becomes `fmodf (2, -5) = 2`, above `max (1, 1 + h) = 1`. -/
theorem negative_holdtime_stroke_exceeds_bound :
    ∃ b' rc', any_surface_stroke_to refEnv 0 (holdBrush (-6) 0) scenarioRc (65 / 12) 0 0 1
        = .ok (b', rc') ∧
      b'.settings_value BRUSH_STROKE_HOLDTIME = -6 ∧ b'.states STATE_STROKE = 2 ∧
      ¬ (b'.states STATE_STROKE ≤ max 1 (1 + b'.settings_value BRUSH_STROKE_HOLDTIME)) := by
  have hev : (match any_surface_stroke_to refEnv 0 (holdBrush (-6) 0) scenarioRc (65 / 12) 0 0 1 with
      | .ok r => decide (r.1.settings_value BRUSH_STROKE_HOLDTIME = -6 ∧
          r.1.states STATE_STROKE = 2)
      | .error _ => false) = true := by decide!
  cases hr : any_surface_stroke_to refEnv 0 (holdBrush (-6) 0) scenarioRc (65 / 12) 0 0 1 with
  | error e => rw [hr] at hev; simp at hev
  | ok r =>
    rw [hr] at hev
    obtain ⟨b', rc'⟩ := r
    simp only [decide_eq_true_eq] at hev
    refine ⟨b', rc', rfl, hev.1, hev.2, ?_⟩
    rw [hev.1, hev.2]
    norm_num

/-- Witness of C12 amended (scenario S4): with `STROKE_HOLDTIME = 0.5`, four
events that each add 0.8 to `stroke` take it to 0.8, 1.6 -> 0.1, 0.9,
1.7 -> 0.2: it wraps twice and stays in `[0, 1.5]`; and one event from
`stroke = 1.4` ends at 0.7, inside the bound the theorem gives. -/
theorem stroke_state_range_witness :
    (∃ b' rc', stroke_events refEnv 0 (holdBrush (1 / 2) 0) scenarioRc
        [(13 / 6, 0, 0, 1), (26 / 6, 0, 0, 1)] = .ok (b', rc') ∧
      b'.states STATE_STROKE = 1 / 10) ∧
    (∃ b' rc', stroke_events refEnv 0 (holdBrush (1 / 2) 0) scenarioRc
        [(13 / 6, 0, 0, 1), (26 / 6, 0, 0, 1), (39 / 6, 0, 0, 1), (52 / 6, 0, 0, 1)]
          = .ok (b', rc') ∧
      b'.states STATE_STROKE = 1 / 5) ∧
    (∃ b' rc', any_surface_stroke_to refEnv 0 (holdBrush (1 / 2) (7 / 5)) scenarioRc (13 / 6) 0 0 1
        = .ok (b', rc') ∧
      b'.states STATE_STROKE = 7 / 10 ∧
      0 ≤ b'.states STATE_STROKE ∧ b'.states STATE_STROKE ≤ max 1 (1 + 1 / 2)) := by
  refine ⟨?_, ?_, ?_⟩
  · have hev : (match stroke_events refEnv 0 (holdBrush (1 / 2) 0) scenarioRc
          [(13 / 6, 0, 0, 1), (26 / 6, 0, 0, 1)] with
        | .ok r => decide (r.1.states STATE_STROKE = 1 / 10)
        | .error _ => false) = true := by decide!
    cases hr : stroke_events refEnv 0 (holdBrush (1 / 2) 0) scenarioRc
        [(13 / 6, 0, 0, 1), (26 / 6, 0, 0, 1)] with
    | error e => rw [hr] at hev; simp at hev
    | ok r =>
      rw [hr] at hev
      obtain ⟨b', rc'⟩ := r
      simp only [decide_eq_true_eq] at hev
      exact ⟨b', rc', rfl, hev⟩
  · have hev : (match stroke_events refEnv 0 (holdBrush (1 / 2) 0) scenarioRc
          [(13 / 6, 0, 0, 1), (26 / 6, 0, 0, 1), (39 / 6, 0, 0, 1), (52 / 6, 0, 0, 1)] with
        | .ok r => decide (r.1.states STATE_STROKE = 1 / 5)
        | .error _ => false) = true := by decide!
    cases hr : stroke_events refEnv 0 (holdBrush (1 / 2) 0) scenarioRc
        [(13 / 6, 0, 0, 1), (26 / 6, 0, 0, 1), (39 / 6, 0, 0, 1), (52 / 6, 0, 0, 1)] with
    | error e => rw [hr] at hev; simp at hev
    | ok r =>
      rw [hr] at hev
      obtain ⟨b', rc'⟩ := r
      simp only [decide_eq_true_eq] at hev
      exact ⟨b', rc', rfl, hev⟩
  · have hev : (match any_surface_stroke_to refEnv 0 (holdBrush (1 / 2) (7 / 5)) scenarioRc
          (13 / 6) 0 0 1 with
        | .ok r => decide (r.1.settings_value BRUSH_STROKE_HOLDTIME = 1 / 2 ∧
            r.1.states STATE_STROKE = 7 / 10)
        | .error _ => false) = true := by decide!
    cases hr : any_surface_stroke_to refEnv 0 (holdBrush (1 / 2) (7 / 5)) scenarioRc
        (13 / 6) 0 0 1 with
    | error e => rw [hr] at hev; simp at hev
    | ok r =>
      rw [hr] at hev
      obtain ⟨b', rc'⟩ := r
      simp only [decide_eq_true_eq] at hev
      have hb := (stroke_state_range refEnv (fun x y hx hy => trunc_fmod_range x y hx hy)).2 0
        (holdBrush (1 / 2) (7 / 5)) b' scenarioRc rc' (13 / 6) 0 0 1 (by norm_num) hr
        (by rw [hev.1]; norm_num) (by rw [hev.1]; norm_num)
      rw [hev.1] at hb
      exact ⟨b', rc', rfl, hev.2, hb.1, hb.2⟩

section Opacity
variable (E : Env α)

theorem spec_opacity_target_range (b : Brush α) :
    0 ≤ spec_opacity_target b ∧ spec_opacity_target b ≤ 1 :=
  ⟨le_max_left _ _, max_le zero_le_one (min_le_left _ _)⟩

theorem dab_opacity_linearised (b : Brush α) (hlin : b.settings_value BRUSH_OPAQUE_LINEARIZE ≠ 0)
    (hne : spec_dabs_per_pixel b ≠ 0) :
    dab_opacity E b
      = 1 - E.powf (1 - spec_opacity_target b) (1 / spec_dabs_per_pixel b) := by
  have ha : (if (if b.settings_value BRUSH_OPAQUE * b.settings_value BRUSH_OPAQUE_MULTIPLY ≥ 1
        then 1 else b.settings_value BRUSH_OPAQUE * b.settings_value BRUSH_OPAQUE_MULTIPLY) ≤ 0
      then 0
      else (if b.settings_value BRUSH_OPAQUE * b.settings_value BRUSH_OPAQUE_MULTIPLY ≥ 1
        then 1 else b.settings_value BRUSH_OPAQUE * b.settings_value BRUSH_OPAQUE_MULTIPLY))
      = spec_opacity_target b := by
    unfold spec_opacity_target
    by_cases h1 : b.settings_value BRUSH_OPAQUE * b.settings_value BRUSH_OPAQUE_MULTIPLY ≥ 1
    · have h10 : ¬ ((1 : α) ≤ 0) := not_le.mpr one_pos
      simp only [h1, if_true, h10, if_false]
      rw [min_eq_left h1, max_eq_right zero_le_one]
    · simp only [h1, if_false]
      rw [min_eq_right (not_le.mp h1).le]
      by_cases h0 : b.settings_value BRUSH_OPAQUE * b.settings_value BRUSH_OPAQUE_MULTIPLY ≤ 0
      · simp only [h0, if_true]; rw [max_eq_left h0]
      · simp only [h0, if_false]; rw [max_eq_right (not_le.mp h0).le]
  have hd : 1 + (b.settings BRUSH_OPAQUE_LINEARIZE).base_value *
      ((if ((b.settings BRUSH_DABS_PER_ACTUAL_RADIUS).base_value
            + (b.settings BRUSH_DABS_PER_BASIC_RADIUS).base_value) * 2 < 1 then 1
        else ((b.settings BRUSH_DABS_PER_ACTUAL_RADIUS).base_value
            + (b.settings BRUSH_DABS_PER_BASIC_RADIUS).base_value) * 2) - 1)
      = spec_dabs_per_pixel b := by
    unfold spec_dabs_per_pixel
    rw [mul_comm (2 : α)]
    by_cases h1 : ((b.settings BRUSH_DABS_PER_ACTUAL_RADIUS).base_value
        + (b.settings BRUSH_DABS_PER_BASIC_RADIUS).base_value) * 2 < 1
    · simp only [h1, if_true]; rw [max_eq_left h1.le]
    · simp only [h1, if_false]; rw [max_eq_right (not_lt.mp h1)]
  unfold dab_opacity
  simp only [hlin, ne_eq, not_false_eq_true, if_true]
  rw [ha, hd, if_neg hne]

/-- At `dabs_per_pixel == 0` the linearised opacity is `1 - powf (beta, +inf)`:
1 for a target above 0, and 0 for the target 0. -/
theorem dab_opacity_degenerate (b : Brush α) (hlin : b.settings_value BRUSH_OPAQUE_LINEARIZE ≠ 0)
    (hz : spec_dabs_per_pixel b = 0) :
    dab_opacity E b = if 0 < spec_opacity_target b then 1 else 0 := by
  have ha : (if (if b.settings_value BRUSH_OPAQUE * b.settings_value BRUSH_OPAQUE_MULTIPLY ≥ 1
        then 1 else b.settings_value BRUSH_OPAQUE * b.settings_value BRUSH_OPAQUE_MULTIPLY) ≤ 0
      then 0
      else (if b.settings_value BRUSH_OPAQUE * b.settings_value BRUSH_OPAQUE_MULTIPLY ≥ 1
        then 1 else b.settings_value BRUSH_OPAQUE * b.settings_value BRUSH_OPAQUE_MULTIPLY))
      = spec_opacity_target b := by
    unfold spec_opacity_target
    by_cases h1 : b.settings_value BRUSH_OPAQUE * b.settings_value BRUSH_OPAQUE_MULTIPLY ≥ 1
    · have h10 : ¬ ((1 : α) ≤ 0) := not_le.mpr one_pos
      simp only [h1, if_true, h10, if_false]
      rw [min_eq_left h1, max_eq_right zero_le_one]
    · simp only [h1, if_false]
      rw [min_eq_right (not_le.mp h1).le]
      by_cases h0 : b.settings_value BRUSH_OPAQUE * b.settings_value BRUSH_OPAQUE_MULTIPLY ≤ 0
      · simp only [h0, if_true]; rw [max_eq_left h0]
      · simp only [h0, if_false]; rw [max_eq_right (not_le.mp h0).le]
  have hd : 1 + (b.settings BRUSH_OPAQUE_LINEARIZE).base_value *
      ((if ((b.settings BRUSH_DABS_PER_ACTUAL_RADIUS).base_value
            + (b.settings BRUSH_DABS_PER_BASIC_RADIUS).base_value) * 2 < 1 then 1
        else ((b.settings BRUSH_DABS_PER_ACTUAL_RADIUS).base_value
            + (b.settings BRUSH_DABS_PER_BASIC_RADIUS).base_value) * 2) - 1)
      = spec_dabs_per_pixel b := by
    unfold spec_dabs_per_pixel
    rw [mul_comm (2 : α)]
    by_cases h1 : ((b.settings BRUSH_DABS_PER_ACTUAL_RADIUS).base_value
        + (b.settings BRUSH_DABS_PER_BASIC_RADIUS).base_value) * 2 < 1
    · simp only [h1, if_true]; rw [max_eq_left h1.le]
    · simp only [h1, if_false]; rw [max_eq_right (not_lt.mp h1)]
  unfold dab_opacity
  simp only [hlin, ne_eq, not_false_eq_true, if_true]
  rw [ha, hd, if_pos hz]
  by_cases hpos : 0 < spec_opacity_target b
  · rw [if_pos hpos, if_pos (by linarith)]; ring
  · have h0 : spec_opacity_target b = 0 :=
      le_antisymm (not_lt.mp hpos) (spec_opacity_target_range b).1
    rw [if_neg hpos, h0, if_neg (by norm_num)]; ring

theorem dab_radius_plain (b : Brush α) (opa : α) (rng : Nat)
    (hrr : b.settings_value BRUSH_RADIUS_BY_RANDOM = 0) :
    (dab_radius E b opa rng).2.1 = opa := by
  unfold dab_radius
  simp [hrr]

/-- C16, amended: in `brush_prepare_and_draw_dab`, when opacity linearisation
is active (`OPAQUE_LINEARIZE` evaluates to non-zero), `RADIUS_BY_RANDOM` is 0
and `dpp > 0`, the opacity passed to `draw_dab` is `1 - powf (1 - a, 1 / dpp)`
with `a = clamp (OPAQUE * OPAQUE_MULTIPLY, 0, 1)` and `dpp = 1 +
base(OPAQUE_LINEARIZE) * (max (1, 2 * (base(DABS_PER_ACTUAL_RADIUS) +
base(DABS_PER_BASIC_RADIUS))) - 1)`, so that `dpp` dabs compose to the target:
`powf (1 - opaque, dpp) = 1 - a` (`powf` being a power function: raising a
non-negative base to `1 / d` and then to `d`, for `d > 0`, gives back the
base). -/
theorem opacity_linearisation (b b' : Brush α) (rc rc' : RenderContext α) (r : Int)
    (hpow : ∀ β d : α, 0 ≤ β → 0 < d → E.powf (E.powf β (1 / d)) d = β)
    (hlin : b.settings_value BRUSH_OPAQUE_LINEARIZE ≠ 0)
    (hrr : b.settings_value BRUSH_RADIUS_BY_RANDOM = 0)
    (hd : 0 < spec_dabs_per_pixel b)
    (h : brush_prepare_and_draw_dab E b rc = .ok (r, b', rc')) :
    ∃ dab, rc'.dabs = rc.dabs ++ [dab] ∧
      dab.opacity = 1 - E.powf (1 - spec_opacity_target b) (1 / spec_dabs_per_pixel b) ∧
      E.powf (1 - dab.opacity) (spec_dabs_per_pixel b) = 1 - spec_opacity_target b := by
  obtain ⟨dab, h1, -, h3, -⟩ := brush_prepare_and_draw_dab_dab E b b' rc rc' r h
  rw [dab_radius_plain E b _ _ hrr, dab_opacity_linearised E b hlin hd.ne'] at h3
  refine ⟨dab, h1, h3, ?_⟩
  rw [h3, sub_sub_cancel]
  exact hpow _ _ (sub_nonneg.mpr (spec_opacity_target_range b).2) hd

end Opacity

/-- Counterexample to C16 as stated.  With `OPAQUE_LINEARIZE = -1`, a dab sum
of 1, `OPAQUE = 1/2` and `OPAQUE_MULTIPLY = 1` (all of them `float`s) the
linearisation is active, `RADIUS_BY_RANDOM` is 0 and `dpp = 1 - 1 = 0`: line
361 computes `powf (1/2, 1.0/0) = 0`, the dab is drawn with the opacity 1, and
`powf (1 - 1, 0) = 1` is not `1 - a = 1/2`.  With `OPAQUE_LINEARIZE = -1/2` and
a dab sum of 5/2, `dpp = -1`: the opacity is `1 - powf (1/2, -1) = -1`, the
call stops at `g_assert (opaque >= 0)` and no opacity is passed to `draw_dab`.
And for the default brush of S6 itself (`OPAQUE = 1`, `OPAQUE_LINEARIZE = 1`,
but `OPAQUE_MULTIPLY = 0`) the target is `a = 0` and the opacity of the dab is
0, not 1. -/
theorem linearisation_degenerates :
    ((plainBrush (linRateSettings (1 / 2 : ℚ) (-1) 1)).settings_value BRUSH_OPAQUE_LINEARIZE ≠ 0 ∧
      (plainBrush (linRateSettings (1 / 2 : ℚ) (-1) 1)).settings_value BRUSH_RADIUS_BY_RANDOM = 0 ∧
      spec_dabs_per_pixel (plainBrush (linRateSettings (1 / 2 : ℚ) (-1) 1)) = 0 ∧
      spec_opacity_target (plainBrush (linRateSettings (1 / 2 : ℚ) (-1) 1)) = 1 / 2 ∧
      (∃ r dab, brush_prepare_and_draw_dab intPowEnv
          (plainBrush (linRateSettings (1 / 2 : ℚ) (-1) 1)) scenarioRc = .ok r ∧
        r.2.2.dabs = [dab] ∧ dab.opacity = 1 ∧
        intPowEnv.powf (1 - dab.opacity)
            (spec_dabs_per_pixel (plainBrush (linRateSettings (1 / 2 : ℚ) (-1) 1))) = 1 ∧
        intPowEnv.powf (1 - dab.opacity)
            (spec_dabs_per_pixel (plainBrush (linRateSettings (1 / 2 : ℚ) (-1) 1)))
          ≠ 1 - spec_opacity_target (plainBrush (linRateSettings (1 / 2 : ℚ) (-1) 1)))) ∧
    ((plainBrush (linRateSettings (1 / 2 : ℚ) (-1 / 2) (5 / 2))).settings_value
        BRUSH_OPAQUE_LINEARIZE ≠ 0 ∧
      spec_dabs_per_pixel (plainBrush (linRateSettings (1 / 2 : ℚ) (-1 / 2) (5 / 2))) = -1 ∧
      brush_prepare_and_draw_dab intPowEnv
          (plainBrush (linRateSettings (1 / 2 : ℚ) (-1 / 2) (5 / 2))) scenarioRc
        = .error Fault.assertion_failed) ∧
    (dab_opacity refEnv (plainBrush (Function.update (defaultSettings : BrushSetting → Mapping ℚ)
        BRUSH_OPAQUE_LINEARIZE ⟨1, fun _ => []⟩)) = 0) := by
  refine ⟨⟨by decide!, by decide!, by decide!, by decide!, ?_⟩, ⟨by decide!, by decide!, ?_⟩,
    by decide!⟩
  · have hev : (match brush_prepare_and_draw_dab intPowEnv
          (plainBrush (linRateSettings (1 / 2 : ℚ) (-1) 1)) scenarioRc with
        | .ok r => decide (r.2.2.dabs.length = 1 ∧ (r.2.2.dabs.map (fun d => d.opacity)) = [1])
        | .error _ => false) = true := by decide!
    cases hr : brush_prepare_and_draw_dab intPowEnv
        (plainBrush (linRateSettings (1 / 2 : ℚ) (-1) 1)) scenarioRc with
    | error e => rw [hr] at hev; simp at hev
    | ok r =>
      rw [hr] at hev
      simp only [decide_eq_true_eq] at hev
      obtain ⟨hlen, hop⟩ := hev
      obtain ⟨dab, hdab⟩ := List.length_eq_one.mp hlen
      rw [hdab] at hop
      simp only [List.map_cons, List.map_nil, List.cons.injEq, and_true] at hop
      have hd : spec_dabs_per_pixel (plainBrush (linRateSettings (1 / 2 : ℚ) (-1) 1)) = 0 := by
        decide!
      have ha : spec_opacity_target (plainBrush (linRateSettings (1 / 2 : ℚ) (-1) 1)) = 1 / 2 := by
        decide!
      have hp : intPowEnv.powf (1 - dab.opacity)
          (spec_dabs_per_pixel (plainBrush (linRateSettings (1 / 2 : ℚ) (-1) 1))) = 1 := by
        rw [hd, hop]; decide!
      refine ⟨r, dab, rfl, hdab, hop, hp, ?_⟩
      rw [hp, ha]
      norm_num
  · have hev : (match brush_prepare_and_draw_dab intPowEnv
          (plainBrush (linRateSettings (1 / 2 : ℚ) (-1 / 2) (5 / 2))) scenarioRc with
        | .ok _ => false
        | .error e => decide (e = Fault.assertion_failed)) = true := by decide!
    cases hr : brush_prepare_and_draw_dab intPowEnv
        (plainBrush (linRateSettings (1 / 2 : ℚ) (-1 / 2) (5 / 2))) scenarioRc with
    | ok r => rw [hr] at hev; simp at hev
    | error e =>
      rw [hr] at hev
      simp only [decide_eq_true_eq] at hev
      rw [hev]

theorem rpow_inverse_law (β d : ℝ) (hβ : 0 ≤ β) (hd : d ≠ 0) : (β ^ (1 / d)) ^ d = β := by
  rw [← Real.rpow_mul hβ, one_div, inv_mul_cancel₀ hd, Real.rpow_one]

theorem fourth_root_half_bounds :
    (8408 / 10000 : ℝ) < (1 / 2 : ℝ) ^ (1 / 4 : ℝ) ∧ (1 / 2 : ℝ) ^ (1 / 4 : ℝ) < 8410 / 10000 := by
  have hx0 : (0 : ℝ) ≤ (1 / 2 : ℝ) ^ (1 / 4 : ℝ) := Real.rpow_nonneg (by norm_num) _
  have hx4 : ((1 / 2 : ℝ) ^ (1 / 4 : ℝ)) ^ (4 : ℕ) = 1 / 2 := by
    rw [← Real.rpow_natCast, ← Real.rpow_mul (by norm_num)]
    norm_num
  constructor
  · by_contra hc
    have hle := not_lt.mp hc
    have := pow_le_pow_left₀ hx0 hle 4
    rw [hx4] at this
    norm_num at this
  · by_contra hc
    have hle := not_lt.mp hc
    have := pow_le_pow_left₀ (by norm_num : (0 : ℝ) ≤ 8410 / 10000) hle 4
    rw [hx4] at this
    norm_num at this

/-- Witness of C16 amended (scenario S6, with `OPAQUE_MULTIPLY = 1`) over the
reals with the real power function: `OPAQUE_LINEARIZE = 1` and a dab sum of 2
give `dpp = 4`; `OPAQUE = 1` yields the opacity 1, and `OPAQUE = 0.5` yields
`1 - 0.5 ^ (1/4)`, within `1e-4` of 0.1591, with `(1 - opacity) ^ 4 = 0.5`. -/
theorem opacity_linearisation_witness :
    spec_dabs_per_pixel (plainBrush (linSettings (1 : ℝ) 1)) = 4 ∧
    (∃ r dab, brush_prepare_and_draw_dab (libmEnv Real.exp Real.log Real.sqrt (fun x y => x ^ y))
        (plainBrush (linSettings (1 : ℝ) 1)) ⟨0, ⟨0, 0, 0, 0⟩, [], []⟩ = .ok r ∧
      r.2.2.dabs = [dab] ∧ dab.opacity = 1) ∧
    (∃ r dab, brush_prepare_and_draw_dab (libmEnv Real.exp Real.log Real.sqrt (fun x y => x ^ y))
        (plainBrush (linSettings (1 / 2 : ℝ) 1)) ⟨0, ⟨0, 0, 0, 0⟩, [], []⟩ = .ok r ∧
      r.2.2.dabs = [dab] ∧ |dab.opacity - 1591 / 10000| ≤ 1 / 10000 ∧
      (1 - dab.opacity) ^ (4 : ℝ) = 1 / 2) := by
  have hdpp : ∀ o : ℝ, spec_dabs_per_pixel (plainBrush (linSettings o 1)) = 4 := by
    intro o
    simp [spec_dabs_per_pixel, plainBrush, linSettings, defaultSettings]
    norm_num
  have hlin : ∀ o : ℝ, (plainBrush (linSettings o 1)).settings_value BRUSH_OPAQUE_LINEARIZE ≠ 0 := by
    intro o
    simp [plainBrush, linSettings]
  have hrr : ∀ o : ℝ, (plainBrush (linSettings o 1)).settings_value BRUSH_RADIUS_BY_RANDOM = 0 := by
    intro o
    simp [plainBrush, linSettings, defaultSettings]
  have ha1 : spec_opacity_target (plainBrush (linSettings (1 : ℝ) 1)) = 1 := by
    simp [spec_opacity_target, plainBrush, linSettings]
  have ha2 : spec_opacity_target (plainBrush (linSettings (1 / 2 : ℝ) 1)) = 1 / 2 := by
    simp [spec_opacity_target, plainBrush, linSettings]
    norm_num
  refine ⟨hdpp 1, ?_, ?_⟩
  · obtain ⟨r, hr⟩ := brush_prepare_and_draw_dab_total
      (libmEnv Real.exp Real.log Real.sqrt (fun x y => x ^ y)) rfl
      (plainBrush (linSettings (1 : ℝ) 1)) ⟨0, ⟨0, 0, 0, 0⟩, [], []⟩
    obtain ⟨dab, h1, h2, -⟩ := opacity_linearisation
      (libmEnv Real.exp Real.log Real.sqrt (fun x y => x ^ y))
      (plainBrush (linSettings (1 : ℝ) 1)) r.2.1 ⟨0, ⟨0, 0, 0, 0⟩, [], []⟩ r.2.2 r.1
      (fun β d hβ hd => rpow_inverse_law β d hβ hd.ne') (hlin 1) (hrr 1)
      (by rw [hdpp]; norm_num) hr
    refine ⟨r, dab, hr, by simpa using h1, ?_⟩
    rw [h2, ha1, hdpp]
    show 1 - ((1 : ℝ) - 1) ^ (1 / 4 : ℝ) = 1
    rw [sub_self, Real.zero_rpow (by norm_num), sub_zero]
  · obtain ⟨r, hr⟩ := brush_prepare_and_draw_dab_total
      (libmEnv Real.exp Real.log Real.sqrt (fun x y => x ^ y)) rfl
      (plainBrush (linSettings (1 / 2 : ℝ) 1)) ⟨0, ⟨0, 0, 0, 0⟩, [], []⟩
    obtain ⟨dab, h1, h2, h3⟩ := opacity_linearisation
      (libmEnv Real.exp Real.log Real.sqrt (fun x y => x ^ y))
      (plainBrush (linSettings (1 / 2 : ℝ) 1)) r.2.1 ⟨0, ⟨0, 0, 0, 0⟩, [], []⟩ r.2.2 r.1
      (fun β d hβ hd => rpow_inverse_law β d hβ hd.ne') (hlin _) (hrr _)
      (by rw [hdpp]; norm_num) hr
    rw [ha2, hdpp] at h2 h3
    have h2' : dab.opacity = 1 - (1 / 2 : ℝ) ^ (1 / 4 : ℝ) := by
      rw [h2]
      show 1 - ((1 : ℝ) - 1 / 2) ^ (1 / 4 : ℝ) = 1 - (1 / 2 : ℝ) ^ (1 / 4 : ℝ)
      norm_num
    have h3' : (1 - dab.opacity) ^ (4 : ℝ) = 1 / 2 := by
      have : (1 - dab.opacity) ^ (4 : ℝ) = 1 - 1 / 2 := h3
      rw [this]; norm_num
    refine ⟨r, dab, hr, by simpa using h1, ?_, h3'⟩
    rw [h2', abs_le]
    have hb := fourth_root_half_bounds
    constructor <;> linarith [hb.1, hb.2]

section Started
variable (E : Env α)

theorem clamp_pressure_le (st : State → α) (c : α) (hc : 0 ≤ c) (h : st STATE_PRESSURE ≤ c) :
    clamp_pressure st STATE_PRESSURE ≤ c := by
  unfold clamp_pressure
  by_cases h0 : st STATE_PRESSURE < 0
  · have h1 : ¬ ((0 : α) > 1) := by norm_num
    simp [h0, h1, hc]
  · by_cases h1 : st STATE_PRESSURE > 1
    · simp only [h0, if_false, h1, if_true, Function.update_same]
      linarith
    · simp only [h0, if_false, h1]
      exact h

theorem brush_update_settings_values_started (b b' : Brush α)
    (h : brush_update_settings_values E b = .ok b')
    (hs : b.states STATE_STROKE_STARTED = 0)
    (hp : b.states STATE_PRESSURE ≤ (b.settings BRUSH_STROKE_TRESHOLD).base_value + 1 / 10000)
    (ht : 0 ≤ (b.settings BRUSH_STROKE_TRESHOLD).base_value + 1 / 10000) :
    b'.states STATE_STROKE_STARTED = 0 ∧
      b'.states STATE_PRESSURE ≤ (b.settings BRUSH_STROKE_TRESHOLD).base_value + 1 / 10000 := by
  have hcl := clamp_pressure_le b.states _ ht hp
  have hcs : clamp_pressure b.states STATE_STROKE_STARTED = 0 := by
    rw [clamp_pressure_of_ne _ _ (by decide)]; exact hs
  have hse : stroke_start_end (b.settings BRUSH_STROKE_TRESHOLD).base_value
      (clamp_pressure b.states STATE_PRESSURE) (clamp_pressure b.states) = clamp_pressure b.states := by
    unfold stroke_start_end
    simp only [hcs, if_true, not_lt.mpr hcl, gt_iff_lt, if_false]
  unfold brush_update_settings_values at h
  simp only [bind, Except.bind, pure, Except.pure] at h
  split at h
  · cases h
  · split at h
    · cases h
    · split at h
      · cases h
      · rename_i st' hsl
        cases h
        dsimp only
        constructor
        · rw [final_radius_of_ne E _ _ STATE_STROKE_STARTED (by decide),
            stroke_length_of_ne E _ _ _ _ hsl _ (by decide),
            advance_slow_states_of_ne E _ _ _ _ _ _ _ (by decide) (by decide) (by decide)
              (by decide) (by decide) (by decide) (by decide), hse]
          exact hcs
        · rw [final_radius_of_ne E _ _ STATE_PRESSURE (by decide),
            stroke_length_of_ne E _ _ _ _ hsl _ (by decide),
            advance_slow_states_of_ne E _ _ _ _ _ _ _ (by decide) (by decide) (by decide)
              (by decide) (by decide) (by decide) (by decide), hse]
          exact hcl

theorem split_stroke_settings (c : Brush α) : (split_stroke E c).settings = c.settings := by
  unfold split_stroke
  cases hcb : c.split_stroke_callback with
  | none => simp
  | some cb => by_cases hres : (E.PyEval_CallObject cb c.py).1 = false <;> simp [hres]

theorem stroke_separation_logic_settings (b b' : Brush α) (painted : Painted) (p dt : α)
    (h : stroke_separation_logic E b painted p dt = .ok b') :
    b'.settings = b.settings := by
  unfold stroke_separation_logic resolve_painted at h
  simp only [bind, Except.bind, pure, Except.pure, g_assert] at h
  split_ifs at h <;> first
    | (cases h; rfl)
    | (cases h; exact split_stroke_settings E _)

end Started
section Started2
variable (E : Env α)

theorem stroke_idle_loop (b : Brush α) (x y p : α) (fuel : Nat) (s0 s : LoopVars α)
    (hsqrt : ∀ v, 0 ≤ E.sqrtf v)
    (h1 : 0 ≤ (b.settings BRUSH_DABS_PER_ACTUAL_RADIUS).base_value)
    (h2 : 0 ≤ (b.settings BRUSH_DABS_PER_BASIC_RADIUS).base_value)
    (h3 : 0 ≤ (b.settings BRUSH_DABS_PER_SECOND).base_value)
    (ht : 0 ≤ (b.settings BRUSH_STROKE_TRESHOLD).base_value + 1 / 10000)
    (hp : p < (b.settings BRUSH_STROKE_TRESHOLD).base_value)
    (hs0 : 0 ≤ s0.dist_moved ∧ s0.dist_moved < 1 ∧ 0 ≤ s0.dist_todo ∧ 0 ≤ s0.dtime_left ∧
      s0.b.settings = b.settings ∧ s0.b.states STATE_STROKE_STARTED = 0 ∧
      s0.b.states STATE_PRESSURE ≤ (b.settings BRUSH_STROKE_TRESHOLD).base_value + 1 / 10000)
    (h : dab_loop E x y p fuel s0 = .ok s) :
    (0 ≤ s.dist_moved + s.dist_todo ∧ s.dist_moved + s.dist_todo < 1) ∧
      s.b.settings = b.settings ∧ s.b.states STATE_STROKE_STARTED = 0 := by
  have key := dab_loop_invariant E x y p
    (fun t => 0 ≤ t.dist_moved ∧ t.dist_moved < 1 ∧ 0 ≤ t.dist_todo ∧ 0 ≤ t.dtime_left ∧
      t.b.settings = b.settings ∧ t.b.states STATE_STROKE_STARTED = 0 ∧
      t.b.states STATE_PRESSURE ≤ (b.settings BRUSH_STROKE_TRESHOLD).base_value + 1 / 10000)
    (by
      intro t t' hP hc hb
      obtain ⟨p0, p1, p2, p3, p4, p5, p6⟩ := hP
      obtain ⟨b1, r, b2, rc2, hb1, hb2, e1, -, e3, e4, -, e6, -⟩ :=
        dab_loop_body_spec E x y p t t' hb
      obtain ⟨hD, hf0, hf1⟩ := dab_frac_range t p0 p1 hc
      have hset : b2.settings = b.settings := by
        have hS := (dab_move_same x y p t).trans
          ((brush_update_settings_values_same E _ _ hb1).1.trans
            (brush_prepare_and_draw_dab_same E _ _ _ _ _ hb2).1)
        exact hS.1.trans p4
      have hdl : 0 ≤ t'.dtime_left := by
        rw [e6]
        have : t.dtime_left - dab_frac t * (t.dtime_left - 0)
            = (1 - dab_frac t) * t.dtime_left := by ring
        rw [this]
        exact mul_nonneg (by linarith) p3
      have hms : (dab_move x y p t).states STATE_STROKE_STARTED = 0 := by
        simp [dab_move, Function.update_apply, p5]
      have hmp : (dab_move x y p t).states STATE_PRESSURE
          = t.b.states STATE_PRESSURE + dab_frac t * (p - t.b.states STATE_PRESSURE) := by
        simp [dab_move, Function.update_apply]
      have hmset : (dab_move x y p t).settings = b.settings := p4
      have hmle : (dab_move x y p t).states STATE_PRESSURE
          ≤ ((dab_move x y p t).settings BRUSH_STROKE_TRESHOLD).base_value + 1 / 10000 := by
        rw [hmp, hmset]
        have e : t.b.states STATE_PRESSURE + dab_frac t * (p - t.b.states STATE_PRESSURE)
            = (1 - dab_frac t) * t.b.states STATE_PRESSURE + dab_frac t * p := by ring
        rw [e]
        have a1 : (1 - dab_frac t) * t.b.states STATE_PRESSURE
            ≤ (1 - dab_frac t) * ((b.settings BRUSH_STROKE_TRESHOLD).base_value + 1 / 10000) :=
          mul_le_mul_of_nonneg_left p6 (by linarith)
        have a2 : dab_frac t * p
            ≤ dab_frac t * ((b.settings BRUSH_STROKE_TRESHOLD).base_value + 1 / 10000) :=
          mul_le_mul_of_nonneg_left (by linarith) hf0.le
        nlinarith
      obtain ⟨q1, q2⟩ := brush_update_settings_values_started E _ b1 hb1 hms hmle
        (by rw [hmset]; exact ht)
      rw [hmset] at q2
      obtain ⟨rng, dab, hsm, -⟩ := brush_prepare_and_draw_dab_spec E b1 b2 t.rc rc2 r hb2
      have r1 : b2.states STATE_STROKE_STARTED = 0 := by
        rw [hsm, smudge_update_of_ne E _ _ _ _ _ (by decide) (by decide) (by decide) (by decide)]
        exact q1
      have r2 : b2.states STATE_PRESSURE
          ≤ (b.settings BRUSH_STROKE_TRESHOLD).base_value + 1 / 10000 := by
        rw [hsm, smudge_update_of_ne E _ _ _ _ _ (by decide) (by decide) (by decide) (by decide)]
        exact q2
      refine ⟨?_, ?_, ?_, hdl, ?_, ?_, ?_⟩
      · rw [e3]; split_ifs <;> [exact le_refl _; exact p0]
      · rw [e3]; split_ifs <;> [exact zero_lt_one; exact p1]
      · rw [e4]
        exact brush_count_dabs_to_nonneg E b2 x y p _ hsqrt (by rw [hset]; exact h1)
          (by rw [hset]; exact h2) (by rw [hset]; exact h3) hdl
      · rw [e1]
        exact hset
      · rw [e1, brush_count_dabs_to_states, Function.update_noteq (by decide)]
        exact r1
      · rw [e1, brush_count_dabs_to_states, Function.update_noteq (by decide)]
        exact r2)
    fuel s0 s hs0 h
  obtain ⟨⟨q0, -, q2, -, q4, q5, -⟩, hlt⟩ := key
  exact ⟨⟨by linarith, hlt⟩, q4, q5⟩

theorem stroke_idle_event (fuel : Nat) (b b' : Brush α) (rc rc' : RenderContext α)
    (x y pressure dtime : α)
    (hsqrt : ∀ v, 0 ≤ E.sqrtf v)
    (h1 : 0 ≤ (b.settings BRUSH_DABS_PER_ACTUAL_RADIUS).base_value)
    (h2 : 0 ≤ (b.settings BRUSH_DABS_PER_BASIC_RADIUS).base_value)
    (h3 : 0 ≤ (b.settings BRUSH_DABS_PER_SECOND).base_value)
    (ht : 0 ≤ (b.settings BRUSH_STROKE_TRESHOLD).base_value)
    (hp : pressure < (b.settings BRUSH_STROKE_TRESHOLD).base_value)
    (hI : StrokeIdle b)
    (h : any_surface_stroke_to E fuel b rc x y pressure dtime = .ok (b', rc')) :
    StrokeIdle b' ∧ b'.settings = b.settings := by
  obtain ⟨i1, i2, i3, i4⟩ := hI
  have ht' : 0 ≤ (b.settings BRUSH_STROKE_TRESHOLD).base_value + 1 / 10000 := by linarith
  by_cases hpos : 0 < dtime
  · have hset0 : (loop_start E b rc x y pressure dtime).b.settings = b.settings :=
      (loop_start_same E b rc x y pressure dtime).1
    by_cases hdisc : dtime > 5 ∨ (loop_start E b rc x y pressure dtime).dist_todo > 300
    · unfold any_surface_stroke_to at h
      simp only [not_le.mpr hpos, if_false, hdisc, if_true, pure, Except.pure] at h
      cases h
      have hs : (reset_branch E (loop_start E b rc x y pressure dtime).b
          (virtual_cursor E b x y dtime).1 (virtual_cursor E b x y dtime).2.1 pressure).settings
          = b.settings := by
        unfold reset_branch
        rw [split_stroke_settings]
        exact hset0
      refine ⟨⟨?_, ?_, ?_, ?_⟩, hs⟩
      · simp [reset_branch, split_stroke_states, Function.update_apply]
      · rw [hs]
        have : (reset_branch E (loop_start E b rc x y pressure dtime).b
          (virtual_cursor E b x y dtime).1 (virtual_cursor E b x y dtime).2.1 pressure).states
          STATE_PRESSURE = pressure := by
          simp [reset_branch, split_stroke_states, Function.update_apply]
        rw [this]; linarith
      · simp [reset_branch, split_stroke_states, Function.update_apply]
      · simp [reset_branch, split_stroke_states, Function.update_apply]
    · obtain ⟨s, bt, hs, hbt, hsep, -⟩ :=
        any_surface_stroke_to_normal E fuel b b' rc rc' x y pressure dtime hpos hdisc h
      obtain ⟨b1, hb1, hst, hbset, -⟩ := loop_tail_spec E _ _ _ s bt hbt
      have hvs := (virtual_cursor_frame E b x y dtime)
      have hstart : (loop_start E b rc x y pressure dtime).dist_moved = b.states STATE_DIST := by
        unfold loop_start
        simp only [hvs.2.2]
      have htodo : 0 ≤ (loop_start E b rc x y pressure dtime).dist_todo := by
        have hc := brush_count_dabs_to_nonneg E (virtual_cursor E b x y dtime).2.2
          (virtual_cursor E b x y dtime).1 (virtual_cursor E b x y dtime).2.1 pressure dtime
          hsqrt (by rw [hvs.2.1]; exact h1) (by rw [hvs.2.1]; exact h2)
          (by rw [hvs.2.1]; exact h3) (le_of_lt hpos)
        exact hc
      have hst0 : ∀ i, i ≠ STATE_ACTUAL_RADIUS →
          (loop_start E b rc x y pressure dtime).b.states i = b.states i := by
        intro i hi
        show (brush_count_dabs_to E (virtual_cursor E b x y dtime).2.2
          (virtual_cursor E b x y dtime).1 (virtual_cursor E b x y dtime).2.1 pressure
          dtime).2.states i = b.states i
        rw [brush_count_dabs_to_states, Function.update_noteq hi, hvs.2.2]
      obtain ⟨hrange, hsset, hsst⟩ := stroke_idle_loop E b _ _ pressure fuel _ s hsqrt h1 h2 h3
        ht' hp
        ⟨by rw [hstart]; exact i3, by rw [hstart]; exact i4, htodo, le_of_lt hpos, hset0,
          by rw [hst0 _ (by decide)]; exact i1, by rw [hst0 _ (by decide)]; exact i2⟩ hs
      have htm_s : (tail_move (virtual_cursor E b x y dtime).1 (virtual_cursor E b x y dtime).2.1
          pressure s.b).states STATE_STROKE_STARTED = 0 := by
        simp [tail_move, Function.update_apply, hsst]
      have htm_p : (tail_move (virtual_cursor E b x y dtime).1 (virtual_cursor E b x y dtime).2.1
          pressure s.b).states STATE_PRESSURE = pressure := by
        simp [tail_move, Function.update_apply]
      have htm_set : (tail_move (virtual_cursor E b x y dtime).1
          (virtual_cursor E b x y dtime).2.1 pressure s.b).settings = b.settings := hsset
      obtain ⟨q1, q2⟩ := brush_update_settings_values_started E _ b1 hb1 htm_s
        (by rw [htm_p, htm_set]; linarith) (by rw [htm_set]; exact ht')
      rw [htm_set] at q2
      have hb1set : b1.settings = b.settings :=
        (brush_update_settings_values_same E _ _ hb1).1.1.trans htm_set
      have hset' : b'.settings = b.settings := by
        rw [stroke_separation_logic_settings E bt b' _ _ _ hsep, hbset, hb1set]
      have hstates := (stroke_separation_logic_states E bt b' _ _ _ hsep).1
      refine ⟨⟨?_, ?_, ?_, ?_⟩, hset'⟩
      · rw [hstates, hst, Function.update_noteq (by decide)]; exact q1
      · rw [hstates, hst, Function.update_noteq (by decide), hset']; exact q2
      · rw [hstates, hst, Function.update_same]; exact hrange.1
      · rw [hstates, hst, Function.update_same]; exact hrange.2
  · unfold any_surface_stroke_to at h
    simp only [not_lt.mp hpos, if_true, pure, Except.pure] at h
    cases h
    exact ⟨⟨i1, i2, i3, i4⟩, rfl⟩

/-- C18, amended: for every sequence of events (of any kind) starting in a
state with `stroke_started = 0`, a stored pressure of at most
`base(STROKE_TRESHOLD) + 0.0001` and `0 <= dist < 1`, on a brush with a
non-negative `STROKE_TRESHOLD` base value and non-negative dab rates, if every
event's pressure is below `base(STROKE_TRESHOLD)` then `stroke_started` is 0
after the sequence (so after every event: every prefix is such a sequence). -/
theorem stroke_never_started (fuel : Nat) (evs : List (α × α × α × α))
    (hsqrt : ∀ v, 0 ≤ E.sqrtf v) :
    ∀ (b b' : Brush α) (rc rc' : RenderContext α),
      0 ≤ (b.settings BRUSH_DABS_PER_ACTUAL_RADIUS).base_value →
      0 ≤ (b.settings BRUSH_DABS_PER_BASIC_RADIUS).base_value →
      0 ≤ (b.settings BRUSH_DABS_PER_SECOND).base_value →
      0 ≤ (b.settings BRUSH_STROKE_TRESHOLD).base_value →
      (∀ e ∈ evs, e.2.2.1 < (b.settings BRUSH_STROKE_TRESHOLD).base_value) →
      StrokeIdle b →
      stroke_events E fuel b rc evs = .ok (b', rc') →
      b'.states STATE_STROKE_STARTED = 0 := by
  induction evs with
  | nil =>
    intro b b' rc rc' _ _ _ _ _ hI h
    unfold stroke_events at h
    cases h
    exact hI.1
  | cons e es ih =>
    intro b b' rc rc' h1 h2 h3 ht hp hI h
    unfold stroke_events at h
    cases hr : any_surface_stroke_to E fuel b { rc with bbox := { rc.bbox with w := 0 } }
        e.1 e.2.1 e.2.2.1 e.2.2.2 with
    | error err => rw [hr] at h; cases h
    | ok r =>
      rw [hr] at h
      obtain ⟨b1, rc1⟩ := r
      obtain ⟨hI1, hs1⟩ := stroke_idle_event E fuel b b1 _ rc1 e.1 e.2.1 e.2.2.1 e.2.2.2 hsqrt
        h1 h2 h3 ht (hp e (List.mem_cons_self _ _)) hI hr
      exact ih b1 b' rc1 rc' (by rw [hs1]; exact h1) (by rw [hs1]; exact h2)
        (by rw [hs1]; exact h3) (by rw [hs1]; exact ht)
        (fun e' he' => by rw [hs1]; exact hp e' (List.mem_cons_of_mem _ he')) hI1 h

end Started2
/-- Counterexample to C18 as stated: on the scenario brush with
`STROKE_TRESHOLD = 0.5`, the discontinuity event `(0, 0, 1, 6)` leaves a state
with `stroke_started = 0` and the raw pressure 1 stored.  From that state the
event `(2, 0, 0.48, 1)`, whose pressure is below the treshold, emits a dab at
the interpolated pressure `1 + 65/96 * (0.48 - 1) > 0.5001`, which starts the
stroke; `0.48 > 0.9 * 0.5 + 0.0001` keeps it started: `stroke_started = 1`
after the event. -/
theorem stored_pressure_starts_stroke :
    ∃ b0 rc0 b' rc', any_surface_stroke_to refEnv 5 thrBrush scenarioRc 0 0 1 6 = .ok (b0, rc0) ∧
      b0.states STATE_STROKE_STARTED = 0 ∧ b0.states STATE_PRESSURE = 1 ∧
      (b0.settings BRUSH_STROKE_TRESHOLD).base_value = 1 / 2 ∧
      stroke_events refEnv 5 b0 rc0 [(2, 0, 48 / 100, 1)] = .ok (b', rc') ∧
      b'.states STATE_STROKE_STARTED = 1 := by
  have hev : (match any_surface_stroke_to refEnv 5 thrBrush scenarioRc 0 0 1 6 with
      | .ok r0 =>
        (match stroke_events refEnv 5 r0.1 r0.2 [(2, 0, 48 / 100, 1)] with
          | .ok r => decide (r0.1.states STATE_STROKE_STARTED = 0 ∧
              r0.1.states STATE_PRESSURE = 1 ∧
              (r0.1.settings BRUSH_STROKE_TRESHOLD).base_value = 1 / 2 ∧
              r.1.states STATE_STROKE_STARTED = 1)
          | .error _ => false)
      | .error _ => false) = true := by decide!
  cases hr0 : any_surface_stroke_to refEnv 5 thrBrush scenarioRc 0 0 1 6 with
  | error e => rw [hr0] at hev; simp at hev
  | ok r0 =>
    rw [hr0] at hev
    obtain ⟨b0, rc0⟩ := r0
    dsimp only at hev
    cases hr : stroke_events refEnv 5 b0 rc0 [(2, 0, 48 / 100, 1)] with
    | error e => rw [hr] at hev; simp at hev
    | ok r =>
      rw [hr] at hev
      obtain ⟨b', rc'⟩ := r
      simp only [decide_eq_true_eq] at hev
      exact ⟨b0, rc0, b', rc', rfl, hev.1, hev.2.1, hev.2.2.1, hr, hev.2.2.2⟩

/-- Witness of C18 amended: the scenario brush with `STROKE_TRESHOLD = 0.5`
and a zeroed state, and the events `(2, 0, 0.48, 1)`, which emits a dab, and
`(2, 0, 0.1, 1)`. -/
theorem stroke_never_started_witness :
    ∃ b' rc', stroke_events refEnv 5 thrBrush scenarioRc
        [(2, 0, 48 / 100, 1), (2, 0, 1 / 10, 1)] = .ok (b', rc') ∧
      rc'.dabs.length = 1 ∧ b'.states STATE_STROKE_STARTED = 0 := by
  have hev : (match stroke_events refEnv 5 thrBrush scenarioRc
        [(2, 0, 48 / 100, 1), (2, 0, 1 / 10, 1)] with
      | .ok r => decide (r.2.dabs.length = 1)
      | .error _ => false) = true := by decide!
  cases hr : stroke_events refEnv 5 thrBrush scenarioRc
      [(2, 0, 48 / 100, 1), (2, 0, 1 / 10, 1)] with
  | error e => rw [hr] at hev; simp at hev
  | ok r =>
    rw [hr] at hev
    obtain ⟨b', rc'⟩ := r
    simp only [decide_eq_true_eq] at hev
    exact ⟨b', rc', rfl, hev,
      stroke_never_started refEnv 5 [(2, 0, 48 / 100, 1), (2, 0, 1 / 10, 1)] rat_sqrt_nonneg
        thrBrush b' scenarioRc rc' (by decide!) (by decide!) (by decide!) (by decide!)
        (by
          intro e he
          simp only [List.mem_cons, List.mem_singleton, List.not_mem_nil, or_false] at he
          rcases he with rfl | rfl <;> decide!)
        ⟨by decide!, by decide!, by decide!, by decide!⟩ hr⟩

section Serial2
variable (E : Env α)

theorem set_state_loop_fields (l : List State) (hl : l.Nodup) :
    ∀ (fs : List (Nat × Nat × Nat × Nat)) (st : State → α), fs.length ≤ l.length →
      l.map (set_state_loop E l (field_bytes fs) st)
        = fs.map (fun q => E.bits_float (q.1 + 256 * q.2.1 + 65536 * q.2.2.1 + 16777216 * q.2.2.2))
            ++ (l.drop fs.length).map st := by
  induction l with
  | nil =>
    intro fs st hfs
    have : fs = [] := List.length_eq_zero.mp (Nat.le_zero.mp hfs)
    subst this
    simp [set_state_loop, field_bytes]
  | cons i l ih =>
    intro fs st hfs
    have hi : i ∉ l := (List.nodup_cons.mp hl).1
    have hl' : l.Nodup := (List.nodup_cons.mp hl).2
    cases fs with
    | nil => simp [set_state_loop, field_bytes]
    | cons q fs =>
      obtain ⟨b0, b1, b2, b3⟩ := q
      have hb : field_bytes ((b0, b1, b2, b3) :: fs) = b0 :: b1 :: b2 :: b3 :: field_bytes fs := by
        simp [field_bytes]
      have key : ∀ (l' : List State) (p : List Nat) (st' : State → α), i ∉ l' →
          set_state_loop E l' p st' i = st' i := by
        intro l'
        induction l' with
        | nil => intro p st' _; cases p <;> rfl
        | cons j l' ih' =>
          intro p st' hj
          have hji : i ≠ j := fun h => hj (h ▸ List.mem_cons_self _ _)
          have hil : i ∉ l' := fun h => hj (List.mem_cons_of_mem _ h)
          cases p with
          | nil => rfl
          | cons c p =>
            show set_state_loop E l' (BS_READ_FLOAT E (c :: p)).2
              (Function.update st' j (BS_READ_FLOAT E (c :: p)).1) i = st' i
            rw [ih' _ _ hil, Function.update_noteq hji]
      rw [hb, List.map_cons, set_state_loop_four, key l _ _ hi, Function.update_same,
        ih hl' fs _ (Nat.le_of_succ_le_succ hfs)]
      simp only [List.map_cons, List.length_cons, List.drop_succ_cons, List.cons_append,
        List.cons.injEq, true_and, List.append_cancel_left_eq]
      apply List.map_congr_left
      intro j hj
      have hjl : j ∈ l := List.mem_of_mem_drop hj
      have : j ≠ i := fun h => hi (h ▸ hjl)
      rw [Function.update_noteq this]

theorem stateOrder_nodup : stateOrder.Nodup := by decide

/-- C21: for every byte string whose first byte is not the version tag `'1'`
(byte 49), the empty string included, `set_state` leaves the brush, so every
state variable, unchanged; for the string `'1'` followed by `k < STATE_COUNT`
whole floats, `set_state` sets the first `k` state variables (in the order of
`states[]`) to those floats and every remaining state variable to 0. -/
theorem set_state_tag_and_truncation (b : Brush α) :
    (∀ data : List Nat, data.head? ≠ some 49 → set_state E b data = b) ∧
    (∀ fs : List (Nat × Nat × Nat × Nat), fs.length < STATE_COUNT →
      stateOrder.map (set_state E b (49 :: field_bytes fs)).states
        = fs.map (fun q => E.bits_float (q.1 + 256 * q.2.1 + 65536 * q.2.2.1 + 16777216 * q.2.2.2))
            ++ List.replicate (STATE_COUNT - fs.length) 0) := by
  constructor
  · intro data hd
    unfold set_state
    cases data with
    | nil => simp [BS_READ_CHAR]
    | cons c p =>
      have hc : c ≠ 49 := fun h => hd (by simp [h])
      simp [BS_READ_CHAR, hc]
  · intro fs hfs
    rw [set_state_tagged]
    show stateOrder.map (set_state_loop E stateOrder (field_bytes fs) (fun _ => 0)) = _
    rw [set_state_loop_fields E stateOrder stateOrder_nodup fs _ (Nat.le_of_lt hfs)]
    congr 1
    simp [STATE_COUNT, List.eq_replicate_iff]

end Serial2

/-- Witness of C21: the empty string and a string with another tag change
nothing; `'1'` followed by the two fields 1 and 2 sets `x = 1`, `y = 2` and
zeroes the other sixteen states (here `pressure` and `smudge_a`). -/
theorem set_state_tag_and_truncation_witness :
    set_state refEnv serialBrush [] = serialBrush ∧
    set_state refEnv serialBrush [50, 1, 0, 0, 0] = serialBrush ∧
    stateOrder.map (set_state refEnv serialBrush
        (49 :: field_bytes [(1, 0, 0, 0), (2, 0, 0, 0)])).states
      = [1, 2] ++ List.replicate 16 0 :=
  ⟨(set_state_tag_and_truncation refEnv serialBrush).1 [] (by decide),
    (set_state_tag_and_truncation refEnv serialBrush).1 [50, 1, 0, 0, 0] (by decide),
    by
      have h := (set_state_tag_and_truncation refEnv serialBrush).2
        [(1, 0, 0, 0), (2, 0, 0, 0)] (by decide)
      rw [h]
      decide!⟩

section Ordinals
variable (E : Env α)

theorem setting_at_isSome (id : Int) :
    (∃ s, setting_at id = some s) ↔ (id ≥ 0 ∧ id < BRUSH_SETTINGS_COUNT) := by
  unfold setting_at BRUSH_SETTINGS_COUNT
  by_cases h : id < 0
  · simp only [h, if_true]
    constructor
    · rintro ⟨s, hs⟩; cases hs
    · rintro ⟨h0, -⟩; omega
  · simp only [h, if_false]
    constructor
    · rintro ⟨s, hs⟩
      have := (List.getElem?_eq_some_iff.mp hs).1
      constructor <;> omega
    · rintro ⟨h0, h1⟩
      have hlt : id.toNat < settingOrder.length := by omega
      exact ⟨settingOrder[id.toNat], List.getElem?_eq_getElem hlt⟩

theorem input_at_isSome (input : Int) :
    (∃ i, input_at input = some i) ↔ (input ≥ 0 ∧ input < INPUT_COUNT) := by
  unfold input_at INPUT_COUNT
  by_cases h : input < 0
  · simp only [h, if_true]
    constructor
    · rintro ⟨s, hs⟩; cases hs
    · rintro ⟨h0, -⟩; omega
  · simp only [h, if_false]
    constructor
    · rintro ⟨s, hs⟩
      have := (List.getElem?_eq_some_iff.mp hs).1
      constructor <;> omega
    · rintro ⟨h0, h1⟩
      have hlt : input.toNat < inputOrder.length := by omega
      exact ⟨inputOrder[input.toNat], List.getElem?_eq_getElem hlt⟩

theorem g_assert_cases (hG : E.G_DISABLE_ASSERT = false) (c : Prop) [Decidable c] :
    (c → g_assert E c = .ok ()) ∧ (¬ c → g_assert E c = .error Fault.assertion_failed) := by
  constructor
  · intro hc; simp [g_assert, hc]
  · intro hc; simp [g_assert, hc, hG]

theorem set_base_value_ord_result (hG : E.G_DISABLE_ASSERT = false) (b : Brush α) (id : Int)
    (value : α) :
    ((id ≥ 0 ∧ id < BRUSH_SETTINGS_COUNT) →
      ∃ s, setting_at id = some s ∧ set_base_value_ord E b id value
        = .ok (set_base_value E b s value)) ∧
    (¬ (id ≥ 0 ∧ id < BRUSH_SETTINGS_COUNT) →
      set_base_value_ord E b id value = .error Fault.assertion_failed) := by
  constructor
  · intro h
    obtain ⟨s, hs⟩ := (setting_at_isSome id).mpr h
    refine ⟨s, hs, ?_⟩
    unfold set_base_value_ord
    simp only [bind, Except.bind, (g_assert_cases E hG _).1 h, hs, pure, Except.pure]
  · intro h
    unfold set_base_value_ord
    simp only [bind, Except.bind, (g_assert_cases E hG _).2 h]

theorem mapping_set_n_ord_result (hG : E.G_DISABLE_ASSERT = false) (m : Mapping α) (input : Int)
    (n : Nat) :
    ((input ≥ 0 ∧ input < INPUT_COUNT) →
      ∃ i, input_at input = some i ∧ mapping_set_n_ord E m input n = .ok (mapping_set_n m i n)) ∧
    (¬ (input ≥ 0 ∧ input < INPUT_COUNT) →
      mapping_set_n_ord E m input n = .error Fault.assertion_failed) := by
  constructor
  · intro h
    obtain ⟨i, hi⟩ := (input_at_isSome input).mpr h
    refine ⟨i, hi, ?_⟩
    unfold mapping_set_n_ord
    simp only [bind, Except.bind, (g_assert_cases E hG _).1 h, hi, pure, Except.pure]
  · intro h
    unfold mapping_set_n_ord
    simp only [bind, Except.bind, (g_assert_cases E hG _).2 h]

theorem mapping_set_point_ord_result (hG : E.G_DISABLE_ASSERT = false) (m : Mapping α)
    (input : Int) (index : Nat) (x y : α) :
    ((input ≥ 0 ∧ input < INPUT_COUNT) →
      ∃ i, input_at input = some i ∧
        mapping_set_point_ord E m input index x y = .ok (mapping_set_point m i index x y)) ∧
    (¬ (input ≥ 0 ∧ input < INPUT_COUNT) →
      mapping_set_point_ord E m input index x y = .error Fault.assertion_failed) := by
  constructor
  · intro h
    obtain ⟨i, hi⟩ := (input_at_isSome input).mpr h
    refine ⟨i, hi, ?_⟩
    unfold mapping_set_point_ord
    simp only [bind, Except.bind, (g_assert_cases E hG _).1 h, hi, pure, Except.pure]
  · intro h
    unfold mapping_set_point_ord
    simp only [bind, Except.bind, (g_assert_cases E hG _).2 h]

theorem set_mapping_n_ord_result (hG : E.G_DISABLE_ASSERT = false) (b : Brush α) (id input : Int)
    (n : Nat) :
    ((id ≥ 0 ∧ id < BRUSH_SETTINGS_COUNT) ∧ (input ≥ 0 ∧ input < INPUT_COUNT) →
      ∃ s i, setting_at id = some s ∧ input_at input = some i ∧
        set_mapping_n_ord E b id input n = .ok (set_mapping_n b s i n)) ∧
    (¬ ((id ≥ 0 ∧ id < BRUSH_SETTINGS_COUNT) ∧ (input ≥ 0 ∧ input < INPUT_COUNT)) →
      set_mapping_n_ord E b id input n = .error Fault.assertion_failed) := by
  constructor
  · rintro ⟨h, hin⟩
    obtain ⟨s, hs⟩ := (setting_at_isSome id).mpr h
    obtain ⟨i, hi, hm⟩ := (mapping_set_n_ord_result E hG (b.settings s) input n).1 hin
    refine ⟨s, i, hs, hi, ?_⟩
    unfold set_mapping_n_ord
    simp only [bind, Except.bind, (g_assert_cases E hG _).1 h, hs, hm, pure, Except.pure]
    rfl
  · intro hne
    unfold set_mapping_n_ord
    by_cases h : id ≥ 0 ∧ id < BRUSH_SETTINGS_COUNT
    · have hin : ¬ (input ≥ 0 ∧ input < INPUT_COUNT) := fun hc => hne ⟨h, hc⟩
      obtain ⟨s, hs⟩ := (setting_at_isSome id).mpr h
      simp only [bind, Except.bind, (g_assert_cases E hG _).1 h, hs,
        (mapping_set_n_ord_result E hG (b.settings s) input n).2 hin]
    · simp only [bind, Except.bind, (g_assert_cases E hG _).2 h]

theorem set_mapping_point_ord_result (hG : E.G_DISABLE_ASSERT = false) (b : Brush α)
    (id input : Int) (index : Nat) (x y : α) :
    ((id ≥ 0 ∧ id < BRUSH_SETTINGS_COUNT) ∧ (input ≥ 0 ∧ input < INPUT_COUNT) →
      ∃ s i, setting_at id = some s ∧ input_at input = some i ∧
        set_mapping_point_ord E b id input index x y = .ok (set_mapping_point b s i index x y)) ∧
    (¬ ((id ≥ 0 ∧ id < BRUSH_SETTINGS_COUNT) ∧ (input ≥ 0 ∧ input < INPUT_COUNT)) →
      set_mapping_point_ord E b id input index x y = .error Fault.assertion_failed) := by
  constructor
  · rintro ⟨h, hin⟩
    obtain ⟨s, hs⟩ := (setting_at_isSome id).mpr h
    obtain ⟨i, hi, hm⟩ := (mapping_set_point_ord_result E hG (b.settings s) input index x y).1 hin
    refine ⟨s, i, hs, hi, ?_⟩
    unfold set_mapping_point_ord
    simp only [bind, Except.bind, (g_assert_cases E hG _).1 h, hs, hm, pure, Except.pure]
    rfl
  · intro hne
    unfold set_mapping_point_ord
    by_cases h : id ≥ 0 ∧ id < BRUSH_SETTINGS_COUNT
    · have hin : ¬ (input ≥ 0 ∧ input < INPUT_COUNT) := fun hc => hne ⟨h, hc⟩
      obtain ⟨s, hs⟩ := (setting_at_isSome id).mpr h
      simp only [bind, Except.bind, (g_assert_cases E hG _).1 h, hs,
        (mapping_set_point_ord_result E hG (b.settings s) input index x y).2 hin]
    · simp only [bind, Except.bind, (g_assert_cases E hG _).2 h]

theorem set_base_value_frame (b : Brush α) (s : BrushSetting) (value : α) :
    ((set_base_value E b s value).settings s).base_value = value ∧
    ((set_base_value E b s value).settings s).points = (b.settings s).points ∧
    (∀ j, j ≠ s → (set_base_value E b s value).settings j = b.settings j) ∧
    (set_base_value E b s value).states = b.states ∧
    (set_base_value E b s value).settings_value = b.settings_value ∧
    (set_base_value E b s value).stroke_total_painting_time = b.stroke_total_painting_time ∧
    (set_base_value E b s value).stroke_idling_time = b.stroke_idling_time ∧
    (set_base_value E b s value).stroke_bbox = b.stroke_bbox ∧
    (set_base_value E b s value).rng = b.rng := by
  refine ⟨?_, ?_, ?_, ?_, ?_, ?_, ?_, ?_, ?_⟩ <;>
    simp [set_base_value, settings_base_values_have_changed, speed_mapping_step]
  intro j hj
  simp [Function.update_apply, hj]

end Ordinals
section Ordinals2
variable (E : Env α)

theorem except_fails_iff {β : Type} (r : Except Fault β) (c : Prop)
    (h1 : c → ∃ v, r = .ok v) (h2 : ¬ c → r = .error Fault.assertion_failed) :
    (r = .error Fault.assertion_failed ↔ ¬ c) ∧ ((∃ v, r = .ok v) ↔ c) := by
  constructor
  · constructor
    · intro hr hc
      obtain ⟨v, hv⟩ := h1 hc
      rw [hv] at hr
      cases hr
    · exact h2
  · constructor
    · rintro ⟨v, hv⟩
      by_contra hc
      rw [h2 hc] at hv
      cases hv
    · exact h1

/-- C22: in a build where `g_assert` is active, `set_base_value`,
`set_mapping_n` and `set_mapping_point` fail with a failed assertion exactly
when the setting ordinal is outside `[0, BRUSH_SETTINGS_COUNT)` or, for the two
mapping operations, the input ordinal is outside `[0, INPUT_COUNT)`, and return
otherwise; when `set_base_value (id, v)` returns, the setting `id` has the base
value `v` and its curves as before, every other setting is as before, and so
are the states, the current setting values, the stroke telemetry and the
random source (only the speed coefficients are recomputed). -/
theorem setters_validate_ordinals (hG : E.G_DISABLE_ASSERT = false) (b : Brush α) :
    (∀ (id : Int) (v : α),
      (set_base_value_ord E b id v = .error Fault.assertion_failed
        ↔ ¬ (id ≥ 0 ∧ id < BRUSH_SETTINGS_COUNT)) ∧
      ((∃ b', set_base_value_ord E b id v = .ok b') ↔ (id ≥ 0 ∧ id < BRUSH_SETTINGS_COUNT))) ∧
    (∀ (id input : Int) (n : Nat),
      (set_mapping_n_ord E b id input n = .error Fault.assertion_failed
        ↔ ¬ ((id ≥ 0 ∧ id < BRUSH_SETTINGS_COUNT) ∧ (input ≥ 0 ∧ input < INPUT_COUNT))) ∧
      ((∃ b', set_mapping_n_ord E b id input n = .ok b')
        ↔ ((id ≥ 0 ∧ id < BRUSH_SETTINGS_COUNT) ∧ (input ≥ 0 ∧ input < INPUT_COUNT)))) ∧
    (∀ (id input : Int) (index : Nat) (x y : α),
      (set_mapping_point_ord E b id input index x y = .error Fault.assertion_failed
        ↔ ¬ ((id ≥ 0 ∧ id < BRUSH_SETTINGS_COUNT) ∧ (input ≥ 0 ∧ input < INPUT_COUNT))) ∧
      ((∃ b', set_mapping_point_ord E b id input index x y = .ok b')
        ↔ ((id ≥ 0 ∧ id < BRUSH_SETTINGS_COUNT) ∧ (input ≥ 0 ∧ input < INPUT_COUNT)))) ∧
    (∀ (id : Int) (v : α) (b' : Brush α), set_base_value_ord E b id v = .ok b' →
      ∃ s, setting_at id = some s ∧
        (b'.settings s).base_value = v ∧ (b'.settings s).points = (b.settings s).points ∧
        (∀ j, j ≠ s → b'.settings j = b.settings j) ∧
        b'.states = b.states ∧ b'.settings_value = b.settings_value ∧
        b'.stroke_total_painting_time = b.stroke_total_painting_time ∧
        b'.stroke_idling_time = b.stroke_idling_time ∧
        b'.stroke_bbox = b.stroke_bbox ∧ b'.rng = b.rng) := by
  refine ⟨fun id v => ?_, fun id input n => ?_, fun id input index x y => ?_,
    fun id v b' h => ?_⟩
  · refine except_fails_iff _ _ (fun hc => ?_) (set_base_value_ord_result E hG b id v).2
    obtain ⟨s, -, hs⟩ := (set_base_value_ord_result E hG b id v).1 hc
    exact ⟨_, hs⟩
  · refine except_fails_iff _ _ (fun hc => ?_) (set_mapping_n_ord_result E hG b id input n).2
    obtain ⟨s, i, -, -, hs⟩ := (set_mapping_n_ord_result E hG b id input n).1 hc
    exact ⟨_, hs⟩
  · refine except_fails_iff _ _ (fun hc => ?_)
      (set_mapping_point_ord_result E hG b id input index x y).2
    obtain ⟨s, i, -, -, hs⟩ := (set_mapping_point_ord_result E hG b id input index x y).1 hc
    exact ⟨_, hs⟩
  · have hc : id ≥ 0 ∧ id < BRUSH_SETTINGS_COUNT := by
      by_contra hc
      rw [(set_base_value_ord_result E hG b id v).2 hc] at h
      cases h
    obtain ⟨s, hs, hr⟩ := (set_base_value_ord_result E hG b id v).1 hc
    rw [hr] at h
    cases h
    exact ⟨s, hs, set_base_value_frame E b s v⟩

end Ordinals2

/-- Witness of C22 on the scenario brush (`g_assert` active): the setting
ordinals -1 and 34 and the input ordinal 7 are rejected; `set_base_value (3, 2)`
returns and sets the base value of `RADIUS_LOGARITHMIC` (ordinal 3) to 2,
leaving `OPAQUE` as it was. -/
theorem setters_validate_ordinals_witness :
    set_base_value_ord refEnv scenarioBrush (-1) 1 = .error Fault.assertion_failed ∧
    set_base_value_ord refEnv scenarioBrush 34 1 = .error Fault.assertion_failed ∧
    set_mapping_n_ord refEnv scenarioBrush 0 7 2 = .error Fault.assertion_failed ∧
    (∃ b', set_mapping_point_ord refEnv scenarioBrush 0 0 0 1 1 = .ok b') ∧
    (∃ b', set_base_value_ord refEnv scenarioBrush 3 2 = .ok b' ∧
      (b'.settings BRUSH_RADIUS_LOGARITHMIC).base_value = 2 ∧
      b'.settings BRUSH_OPAQUE = scenarioBrush.settings BRUSH_OPAQUE) := by
  have h := setters_validate_ordinals refEnv rfl scenarioBrush
  refine ⟨(h.1 (-1) 1).1.mpr (by decide), (h.1 34 1).1.mpr (by decide),
    (h.2.1 0 7 2).1.mpr (by decide), (h.2.2.1 0 0 0 1 1).2.mpr (by decide), ?_⟩
  obtain ⟨b', hb'⟩ := (h.1 3 2).2.mpr (by decide)
  obtain ⟨s, hs, h1, -, h3, -⟩ := h.2.2.2 3 2 b' hb'
  have hs3 : s = BRUSH_RADIUS_LOGARITHMIC := by
    have : setting_at 3 = some BRUSH_RADIUS_LOGARITHMIC := by decide
    rw [this] at hs
    exact (Option.some.inj hs).symm
  subst hs3
  exact ⟨b', hb', h1, h3 BRUSH_OPAQUE (by decide)⟩

section Bounds
variable (E : Env α)

theorem tmod_360_gt (a : Int) : -360 < Int.tmod a 360 := by
  cases a with
  | ofNat n => exact lt_of_lt_of_le (by decide) (Int.tmod_nonneg _ (Int.ofNat_nonneg n))
  | negSucc n =>
    show -360 < -(((n + 1) % 360 : Nat) : Int)
    omega

theorem dab_opacity_plain (b : Brush α) (hlin : b.settings_value BRUSH_OPAQUE_LINEARIZE = 0) :
    dab_opacity E b = spec_opacity_target b := by
  unfold dab_opacity spec_opacity_target
  simp only [hlin, ne_eq, not_true_eq_false, if_false]
  by_cases h1 : b.settings_value BRUSH_OPAQUE * b.settings_value BRUSH_OPAQUE_MULTIPLY ≥ 1
  · have h10 : ¬ ((1 : α) ≤ 0) := not_le.mpr one_pos
    simp only [h1, if_true, h10, if_false]
    rw [min_eq_left h1, max_eq_right zero_le_one]
  · simp only [h1, if_false]
    rw [min_eq_right (not_le.mp h1).le]
    by_cases h0 : b.settings_value BRUSH_OPAQUE * b.settings_value BRUSH_OPAQUE_MULTIPLY ≤ 0
    · simp only [h0, if_true]; rw [max_eq_left h0]
    · simp only [h0, if_false]; rw [max_eq_right (not_le.mp h0).le]

theorem dab_opacity_range (b : Brush α)
    (hpow : ∀ β e : α, 0 ≤ β → β ≤ 1 → 0 < e → 0 ≤ E.powf β e ∧ E.powf β e ≤ 1)
    (hd : b.settings_value BRUSH_OPAQUE_LINEARIZE ≠ 0 → 0 < spec_dabs_per_pixel b) :
    0 ≤ dab_opacity E b ∧ dab_opacity E b ≤ 1 := by
  have ha := spec_opacity_target_range b
  by_cases hlin : b.settings_value BRUSH_OPAQUE_LINEARIZE = 0
  · rw [dab_opacity_plain E b hlin]; exact ha
  · rw [dab_opacity_linearised E b hlin (hd hlin).ne']
    have hp := hpow (1 - spec_opacity_target b) (1 / spec_dabs_per_pixel b)
      (by linarith [ha.2]) (by linarith [ha.1]) (one_div_pos.mpr (hd hlin))
    constructor <;> linarith [hp.1, hp.2]

theorem alpha_correction_range (opa q : α) (h : 0 ≤ opa ∧ opa ≤ 1) :
    0 ≤ (if SQR q ≤ 1 then opa * SQR q else opa) ∧
      (if SQR q ≤ 1 then opa * SQR q else opa) ≤ 1 := by
  have h0 : 0 ≤ SQR q := by unfold SQR; exact mul_self_nonneg _
  by_cases hq : SQR q ≤ 1
  · simp only [hq, if_true]
    exact ⟨mul_nonneg h.1 h0, by nlinarith [h.1, h.2]⟩
  · simp only [hq, if_false]
    exact h

theorem dab_radius_opacity_range (b : Brush α) (opa : α) (rng : Nat)
    (h : 0 ≤ opa ∧ opa ≤ 1) :
    0 ≤ (dab_radius E b opa rng).2.1 ∧ (dab_radius E b opa rng).2.1 ≤ 1 := by
  unfold dab_radius
  by_cases hrr : b.settings_value BRUSH_RADIUS_BY_RANDOM = 0
  · simp only [hrr, ne_eq, not_true_eq_false, if_false]
    exact h
  · simp only [hrr, ne_eq, not_false_eq_true, if_true]
    exact alpha_correction_range opa _ h

/-- The range that the clamps of lines 336-337 and 479-480 aim at, where it
is met: for every brush configuration and every state in which the
linearisation is inactive or `dpp` is positive (as it is for every
non-negative base value of `OPAQUE_LINEARIZE`), `brush_prepare_and_draw_dab`
returns (none of its assertions fails) and the dab it passes to `draw_dab` has
`0 <= opacity <= 1` and `0 <= hardness <= 1` (`powf` taking bases in `[0, 1]`
and positive exponents to `[0, 1]`). -/
theorem dab_opacity_hardness_range (b : Brush α) (rc : RenderContext α)
    (hpow : ∀ β e : α, 0 ≤ β → β ≤ 1 → 0 < e → 0 ≤ E.powf β e ∧ E.powf β e ≤ 1)
    (hd : b.settings_value BRUSH_OPAQUE_LINEARIZE ≠ 0 → 0 < spec_dabs_per_pixel b) :
    ∃ r b' rc' dab, brush_prepare_and_draw_dab E b rc = .ok (r, b', rc') ∧
      rc'.dabs = rc.dabs ++ [dab] ∧
      0 ≤ dab.opacity ∧ dab.opacity ≤ 1 ∧ 0 ≤ dab.hardness ∧ dab.hardness ≤ 1 := by
  have hop := dab_radius_opacity_range E b (dab_opacity E b) (dab_position E b).2.2
    (dab_opacity_range E b hpow hd)
  have hc0 : ∀ a : Int, (if Int.tmod a 360 < 0 then Int.tmod a 360 + 360 else Int.tmod a 360) ≥ 0 := by
    intro a
    have := tmod_360_gt a
    split_ifs <;> omega
  have hh : ∀ h : α, 0 ≤ (if (if h > 1 then 1 else h) < 0 then 0 else (if h > 1 then 1 else h)) ∧
      (if (if h > 1 then 1 else h) < 0 then 0 else (if h > 1 then 1 else h)) ≤ 1 := by
    intro h
    by_cases h1 : h > 1
    · have : ¬ ((1 : α) < 0) := by norm_num
      simp only [h1, if_true, this, if_false]
      exact ⟨zero_le_one, le_refl _⟩
    · simp only [h1, if_false]
      by_cases h0 : h < 0
      · simp only [h0, if_true]; exact ⟨le_refl _, zero_le_one⟩
      · simp only [h0, if_false]; exact ⟨not_lt.mp h0, not_lt.mp h1⟩
  unfold brush_prepare_and_draw_dab
  simp only [bind, Except.bind, pure, Except.pure, g_assert_holds E _ hop.1,
    g_assert_holds E _ hop.2, g_assert_holds E _ (hc0 _)]
  exact ⟨_, _, _, _, rfl, rfl, hop.1, hop.2, (hh _).1, (hh _).2⟩

end Bounds

/-- C23, the code at the failing input: with `OPAQUE_LINEARIZE = -1`, a dab
sum of 3/2, `OPAQUE = 1/2` and `OPAQUE_MULTIPLY = 1` (all of them `float`s)
the linearisation gives `dpp = 1 - 2 = -1`, the opacity is
`1 - powf (1/2, -1) = 1 - 2 = -1`, and `g_assert (opaque >= 0)` fails; in a
build without `g_assert` the dab is passed to `draw_dab` with the opacity -1.
The same happens with `OPAQUE_LINEARIZE = -2/3` and the default dab sum of 2. -/
theorem negative_linearize_fails_assertion :
    (spec_dabs_per_pixel (plainBrush (linRateSettings (1 / 2 : ℚ) (-1) (3 / 2))) = -1 ∧
      dab_opacity intPowEnv (plainBrush (linRateSettings (1 / 2 : ℚ) (-1) (3 / 2))) = -1 ∧
      brush_prepare_and_draw_dab intPowEnv (plainBrush (linRateSettings (1 / 2 : ℚ) (-1) (3 / 2)))
        scenarioRc = .error Fault.assertion_failed ∧
      ∃ r dab, brush_prepare_and_draw_dab { intPowEnv with G_DISABLE_ASSERT := true }
          (plainBrush (linRateSettings (1 / 2 : ℚ) (-1) (3 / 2))) scenarioRc = .ok r ∧
        r.2.2.dabs = [dab] ∧ dab.opacity = -1) ∧
    (spec_dabs_per_pixel (plainBrush (linSettings (1 / 2 : ℚ) (-2 / 3))) = -1 ∧
      dab_opacity intPowEnv (plainBrush (linSettings (1 / 2 : ℚ) (-2 / 3))) = -1 ∧
      brush_prepare_and_draw_dab intPowEnv (plainBrush (linSettings (1 / 2 : ℚ) (-2 / 3)))
        scenarioRc = .error Fault.assertion_failed) := by
  refine ⟨⟨by decide!, by decide!, ?_, ?_⟩, by decide!, by decide!, ?_⟩
  · have hev : (match brush_prepare_and_draw_dab intPowEnv
          (plainBrush (linRateSettings (1 / 2 : ℚ) (-1) (3 / 2))) scenarioRc with
        | .ok _ => false
        | .error e => decide (e = Fault.assertion_failed)) = true := by decide!
    cases hr : brush_prepare_and_draw_dab intPowEnv
        (plainBrush (linRateSettings (1 / 2 : ℚ) (-1) (3 / 2))) scenarioRc with
    | ok r => rw [hr] at hev; simp at hev
    | error e =>
      rw [hr] at hev
      simp only [decide_eq_true_eq] at hev
      rw [hev]
  · have hev : (match brush_prepare_and_draw_dab { intPowEnv with G_DISABLE_ASSERT := true }
          (plainBrush (linRateSettings (1 / 2 : ℚ) (-1) (3 / 2))) scenarioRc with
        | .ok r => decide (r.2.2.dabs.length = 1 ∧ (r.2.2.dabs.map (fun d => d.opacity)) = [-1])
        | .error _ => false) = true := by decide!
    cases hr : brush_prepare_and_draw_dab { intPowEnv with G_DISABLE_ASSERT := true }
        (plainBrush (linRateSettings (1 / 2 : ℚ) (-1) (3 / 2))) scenarioRc with
    | error e => rw [hr] at hev; simp at hev
    | ok r =>
      rw [hr] at hev
      simp only [decide_eq_true_eq] at hev
      obtain ⟨hlen, hop⟩ := hev
      obtain ⟨dab, hdab⟩ := List.length_eq_one.mp hlen
      rw [hdab] at hop
      simp only [List.map_cons, List.map_nil, List.cons.injEq, and_true] at hop
      exact ⟨r, dab, rfl, hdab, hop⟩
  · have hev : (match brush_prepare_and_draw_dab intPowEnv
          (plainBrush (linSettings (1 / 2 : ℚ) (-2 / 3))) scenarioRc with
        | .ok _ => false
        | .error e => decide (e = Fault.assertion_failed)) = true := by decide!
    cases hr : brush_prepare_and_draw_dab intPowEnv
        (plainBrush (linSettings (1 / 2 : ℚ) (-2 / 3))) scenarioRc with
    | ok r => rw [hr] at hev; simp at hev
    | error e =>
      rw [hr] at hev
      simp only [decide_eq_true_eq] at hev
      rw [hev]

/-- The brush of scenario S6 (`OPAQUE = 0.5`, `OPAQUE_LINEARIZE = 1`,
`dpp = 4`) over the reals with the real power function, in a build with
`g_assert` active: the dab is in range. -/
theorem dab_opacity_hardness_range_witness :
    ∃ r b' rc' dab,
      brush_prepare_and_draw_dab
        { libmEnv Real.exp Real.log Real.sqrt (fun x y => x ^ y) with G_DISABLE_ASSERT := false }
        (plainBrush (linSettings (1 / 2 : ℝ) 1)) ⟨0, ⟨0, 0, 0, 0⟩, [], []⟩ = .ok (r, b', rc') ∧
      rc'.dabs = [] ++ [dab] ∧
      0 ≤ dab.opacity ∧ dab.opacity ≤ 1 ∧ 0 ≤ dab.hardness ∧ dab.hardness ≤ 1 :=
  dab_opacity_hardness_range
    { libmEnv Real.exp Real.log Real.sqrt (fun x y => x ^ y) with G_DISABLE_ASSERT := false }
    (plainBrush (linSettings (1 / 2 : ℝ) 1)) ⟨0, ⟨0, 0, 0, 0⟩, [], []⟩
    (fun β e h0 h1 he => ⟨Real.rpow_nonneg h0 e, Real.rpow_le_one h0 h1 he.le⟩)
    (fun _ => by
      have : spec_dabs_per_pixel (plainBrush (linSettings (1 / 2 : ℝ) 1)) = 4 := by
        simp [spec_dabs_per_pixel, plainBrush, linSettings, defaultSettings]
        norm_num
      rw [this]; norm_num)

section Decay
variable (E : Env α)

theorem exp_decay_range (hexp : ∀ u : α, u ≤ 0 → 0 ≤ E.exp u ∧ E.exp u ≤ 1) (T t : α)
    (ht : 0 ≤ t) : 0 ≤ exp_decay E T t ∧ exp_decay E T t ≤ 1 := by
  unfold exp_decay
  by_cases hT : T ≤ 1 / 1000
  · simp only [hT, if_true]
    exact ⟨le_refl _, zero_le_one⟩
  · simp only [hT, if_false]
    have hTpos : 0 < T := lt_trans (by norm_num) (not_le.mp hT)
    exact hexp _ (div_nonpos_of_nonpos_of_nonneg (neg_nonpos.mpr ht) hTpos.le)

end Decay

section SpeedMap
variable (E : Env α)

theorem brush_inputs_speed (b : Brush α) (st : State → α) (p rnd : α) :
    brush_inputs E b st p rnd INPUT_SPEED1 = speed_input E b 0 (st STATE_NORM_SPEED1_SLOW) ∧
    brush_inputs E b st p rnd INPUT_SPEED2 = speed_input E b 1 (st STATE_NORM_SPEED2_SLOW) :=
  ⟨rfl, rfl⟩

theorem speed_input_changed (b : Brush α) (i : Nat) (hi : i < 2) (x : α) :
    speed_input E (settings_base_values_have_changed E b) i x
      = E.log (E.exp (b.settings (if i = 0 then BRUSH_SPEED1_GAMMA else BRUSH_SPEED2_GAMMA)).base_value
            + x)
          * (15 / 1000 * (45 + E.exp (b.settings
              (if i = 0 then BRUSH_SPEED1_GAMMA else BRUSH_SPEED2_GAMMA)).base_value))
        + (1 / 2 - 15 / 1000 * (45 + E.exp (b.settings
              (if i = 0 then BRUSH_SPEED1_GAMMA else BRUSH_SPEED2_GAMMA)).base_value)
            * E.log (45 + E.exp (b.settings
              (if i = 0 then BRUSH_SPEED1_GAMMA else BRUSH_SPEED2_GAMMA)).base_value)) := by
  obtain ⟨h1, h2, h3⟩ := settings_base_values_have_changed_coherent E b i hi
  unfold speed_input
  have hs : (settings_base_values_have_changed E b).settings = b.settings := by
    simp [settings_base_values_have_changed, speed_mapping_step]
  rw [h3, h2, h1, hs]

end SpeedMap

/-- C28: for every base value of `SPEED1_GAMMA` / `SPEED2_GAMMA`, the speed
mapping `y(x) = log (gamma + x) * m + q` that `settings_base_values_have_changed`
precomputes satisfies the two hard-coded constraints exactly, `y(45) = 0.5`
and slope `m / (gamma + 45) = 0.015` at `x = 45` (the derivative of `y`
there), and `y` is strictly increasing on `x >= 0`; `exp` and `log` are the
real functions. -/
theorem speed_mapping_constraints (E : Env ℝ) (hexp : ∀ u, E.exp u = Real.exp u)
    (hlog : ∀ u, E.log u = Real.log u) (b : Brush ℝ) (i : Nat) (hi : i < 2) :
    speed_input E (settings_base_values_have_changed E b) i 45 = 1 / 2 ∧
    (settings_base_values_have_changed E b).speed_mapping_m i
      / ((settings_base_values_have_changed E b).speed_mapping_gamma i + 45) = 15 / 1000 ∧
    HasDerivAt (fun x => speed_input E (settings_base_values_have_changed E b) i x)
      (15 / 1000) 45 ∧
    StrictMonoOn (fun x => speed_input E (settings_base_values_have_changed E b) i x)
      (Set.Ici 0) := by
  obtain ⟨h1, h2, h3⟩ := settings_base_values_have_changed_coherent E b i hi
  have hs : (settings_base_values_have_changed E b).settings = b.settings := by
    simp [settings_base_values_have_changed, speed_mapping_step]
  rw [hs, hexp] at h1
  have hg : 0 < (settings_base_values_have_changed E b).speed_mapping_gamma i := by
    rw [h1]; exact Real.exp_pos _
  have hm : 0 < (settings_base_values_have_changed E b).speed_mapping_m i := by
    rw [h2]; nlinarith
  have hfun : (fun x => speed_input E (settings_base_values_have_changed E b) i x)
      = fun x => Real.log ((settings_base_values_have_changed E b).speed_mapping_gamma i + x)
          * (settings_base_values_have_changed E b).speed_mapping_m i
          + (settings_base_values_have_changed E b).speed_mapping_q i := by
    funext x; unfold speed_input; rw [hlog]
  refine ⟨?_, ?_, ?_, ?_⟩
  · unfold speed_input
    rw [h3, add_comm _ (45 : ℝ)]
    ring
  · rw [h2, add_comm _ (45 : ℝ)]
    field_simp
    ring
  · rw [hfun]
    have hne : (settings_base_values_have_changed E b).speed_mapping_gamma i + 45 ≠ 0 := by
      linarith
    have hd1 : HasDerivAt
        (fun x : ℝ => (settings_base_values_have_changed E b).speed_mapping_gamma i + x) 1 45 :=
      (hasDerivAt_id 45).const_add _
    have hd2 := ((Real.hasDerivAt_log hne).comp 45 hd1).mul_const
      ((settings_base_values_have_changed E b).speed_mapping_m i)
    have hd3 := hd2.add_const ((settings_base_values_have_changed E b).speed_mapping_q i)
    have hval : ((settings_base_values_have_changed E b).speed_mapping_gamma i + 45)⁻¹ * 1
        * (settings_base_values_have_changed E b).speed_mapping_m i = 15 / 1000 := by
      rw [h2, add_comm _ (45 : ℝ)]
      field_simp
    rw [← hval]
    exact hd3
  · rw [hfun]
    intro x hx y hy hxy
    have hx0 : (0 : ℝ) ≤ x := hx
    have hlt : Real.log ((settings_base_values_have_changed E b).speed_mapping_gamma i + x)
        < Real.log ((settings_base_values_have_changed E b).speed_mapping_gamma i + y) :=
      Real.log_lt_log (by linarith) (by linarith)
    have := mul_lt_mul_of_pos_right hlt hm
    simp only
    linarith

/-- Witness of C28: the default brush (`SPEED1_GAMMA = 0`, so `gamma = 1`,
`m = 0.69`) over the reals. -/
theorem speed_mapping_constraints_witness :
    speed_input (libmEnv Real.exp Real.log Real.sqrt (fun x y => x ^ y))
      (settings_base_values_have_changed (libmEnv Real.exp Real.log Real.sqrt (fun x y => x ^ y))
        (plainBrush defaultSettings)) 0 45 = 1 / 2 :=
  (speed_mapping_constraints (libmEnv Real.exp Real.log Real.sqrt (fun x y => x ^ y))
    (fun _ => rfl) (fun _ => rfl) (plainBrush defaultSettings) 0 (by norm_num)).1
section SpeedAssert
variable (E : Env α)

theorem brush_update_settings_values_speed_assert (hN : E.NDEBUG = false) (b : Brush α)
    (h : speed_input E b 0 (b.states STATE_NORM_SPEED1_SLOW) < 0) :
    brush_update_settings_values E b = .error Fault.assertion_failed := by
  have hst : ∀ t p : α, (stroke_start_end t p (clamp_pressure b.states)) STATE_NORM_SPEED1_SLOW
      = b.states STATE_NORM_SPEED1_SLOW := by
    intro t p
    rw [stroke_start_end_of_ne _ _ _ _ (by decide) (by decide),
      clamp_pressure_of_ne _ _ (by decide)]
  have hin : ∀ (t p rnd : α), ¬ (brush_inputs E b (stroke_start_end t p (clamp_pressure b.states))
      p rnd INPUT_SPEED1 ≥ 0 ∧
      brush_inputs E b (stroke_start_end t p (clamp_pressure b.states)) p rnd INPUT_SPEED1
        < 100000000) := by
    intro t p rnd hc
    have h1 := hc.1
    rw [(brush_inputs_speed E b _ p rnd).1, hst] at h1
    exact absurd h (not_lt.mpr h1)
  unfold brush_update_settings_values
  simp only [bind, Except.bind, pure, Except.pure]
  rw [g_assert_holds E _ ⟨(clamp_pressure_range _).1, (clamp_pressure_range _).2⟩]
  dsimp only
  unfold c_assert
  rw [if_neg (by
    intro hc
    rcases hc with hc | hc
    · rw [hN] at hc; cases hc
    · exact hin _ _ _ hc)]

end SpeedAssert

theorem speed_input_at_rest_negative (E : Env ℝ) (hexp : ∀ u, E.exp u = Real.exp u)
    (hlog : ∀ u, E.log u = Real.log u) (b : Brush ℝ) (i : Nat) (hi : i < 2) :
    speed_input E (settings_base_values_have_changed E b) i 0 < 0 := by
  rw [speed_input_changed E b i hi, hexp, hlog, hlog, add_zero]
  have hg : 0 < Real.exp (b.settings (if i = 0 then BRUSH_SPEED1_GAMMA
      else BRUSH_SPEED2_GAMMA)).base_value := Real.exp_pos _
  generalize Real.exp (b.settings (if i = 0 then BRUSH_SPEED1_GAMMA
      else BRUSH_SPEED2_GAMMA)).base_value = γ at hg ⊢
  have hl1 : Real.log (γ / (45 + γ)) ≤ γ / (45 + γ) - 1 :=
    Real.log_le_sub_one_of_pos (div_pos hg (by linarith))
  have hl2 : Real.log (γ / (45 + γ)) = Real.log γ - Real.log (45 + γ) :=
    Real.log_div hg.ne' (by linarith)
  have hm : 0 < 15 / 1000 * (45 + γ) := by nlinarith
  have key : 15 / 1000 * (45 + γ) * (Real.log γ - Real.log (45 + γ))
      ≤ 15 / 1000 * (45 + γ) * (γ / (45 + γ) - 1) :=
    mul_le_mul_of_nonneg_left (by linarith [hl1, hl2]) hm.le
  have e : 15 / 1000 * (45 + γ) * (γ / (45 + γ) - 1) = -(675 / 1000) := by
    have hne : 45 + γ ≠ 0 := by linarith
    field_simp
    ring
  rw [e] at key
  nlinarith [key]

/-- C26, the code at the failing input.  For every base value `g` of
`SPEED1_GAMMA`, with the real `exp` and `log`, the speed1 input of a state with
`norm_speed1_slow = 0` is `log (gamma) * m + q <= 0.5 - 0.675 < 0`, so in a
build where `assert` is active `brush_update_settings_values` stops at
`assert (inputs[INPUT_SPEED1] >= 0.0 && ...)`; with the rational stand-ins
the first event `(0, 0, 1, 0.1)` on the zeroed scenario brush stops there
too. -/
theorem speed1_assertion_fails_at_rest :
    (∀ g : ℝ,
      speed_input (libmEnv Real.exp Real.log Real.sqrt (fun x y => x ^ y))
        (set_base_value (libmEnv Real.exp Real.log Real.sqrt (fun x y => x ^ y))
          (plainBrush defaultSettings) BRUSH_SPEED1_GAMMA g) 0 0 < 0 ∧
      brush_update_settings_values
        { libmEnv Real.exp Real.log Real.sqrt (fun x y => x ^ y) with NDEBUG := false }
        (set_base_value (libmEnv Real.exp Real.log Real.sqrt (fun x y => x ^ y))
          (plainBrush defaultSettings) BRUSH_SPEED1_GAMMA g)
        = .error Fault.assertion_failed) ∧
    scenarioBrush.states STATE_NORM_SPEED1_SLOW = 0 ∧
    speed_input refEnv scenarioBrush 0 0 < 0 ∧
    any_surface_stroke_to debugEnv 5 scenarioBrush scenarioRc 0 0 1 (1 / 10)
      = .error Fault.assertion_failed := by
  refine ⟨fun g => ?_, by decide!, by decide!, ?_⟩
  · have hneg : speed_input (libmEnv Real.exp Real.log Real.sqrt (fun x y => x ^ y))
        (set_base_value (libmEnv Real.exp Real.log Real.sqrt (fun x y => x ^ y))
          (plainBrush defaultSettings) BRUSH_SPEED1_GAMMA g) 0 0 < 0 :=
      speed_input_at_rest_negative _ (fun _ => rfl) (fun _ => rfl) _ 0 (by norm_num)
    refine ⟨hneg, ?_⟩
    apply brush_update_settings_values_speed_assert _ rfl
    exact hneg
  · have hev : (match any_surface_stroke_to debugEnv 5 scenarioBrush scenarioRc 0 0 1 (1 / 10) with
        | .ok _ => false
        | .error e => decide (e = Fault.assertion_failed)) = true := by decide!
    cases hr : any_surface_stroke_to debugEnv 5 scenarioBrush scenarioRc 0 0 1 (1 / 10) with
    | ok r => rw [hr] at hev; simp at hev
    | error e =>
      rw [hr] at hev
      simp only [decide_eq_true_eq] at hev
      rw [hev]

/-- C25, the code at the failing input: the pressure-sensitive scenario brush
with zeroed state and telemetry, on a surface whose per-call bounding box is
non-empty only if a dab drew.  The event `(65/48, 0, 1, 1)` emits exactly one
dab, which draws: `stroke_bbox` becomes non-empty, but the time slice left
after the dab is 0, so `stroke_total_painting_time` stays 0.  The next event
`(65/24, 0, 0, 1)` emits one dab of opacity 0, which does not draw: the event
is classified as not painted while `stroke_total_painting_time = 0`, and
`g_assert (stroke_bbox.w == 0)` fails. -/
theorem bbox_assertion_fails_after_exact_dab :
    (∃ b1 rc1, stroke_events refEnv 5 pressureBrush scenarioRc [(65 / 48, 0, 1, 1)]
        = .ok (b1, rc1) ∧
      rc1.results = [1] ∧ b1.stroke_total_painting_time = 0 ∧ b1.stroke_idling_time = 0 ∧
      b1.stroke_bbox.w = 1 ∧ b1.split_calls = pressureBrush.split_calls) ∧
    stroke_events refEnv 5 pressureBrush scenarioRc [(65 / 48, 0, 1, 1), (65 / 24, 0, 0, 1)]
      = .error Fault.assertion_failed ∧
    (∃ b2 rc2, stroke_events { refEnv with G_DISABLE_ASSERT := true } 5 pressureBrush scenarioRc
        [(65 / 48, 0, 1, 1), (65 / 24, 0, 0, 1)] = .ok (b2, rc2) ∧
      rc2.results = [1, 0] ∧ b2.stroke_total_painting_time = 0 ∧ b2.stroke_bbox.w = 1) := by
  refine ⟨?_, ?_, ?_⟩
  · have hev : (match stroke_events refEnv 5 pressureBrush scenarioRc [(65 / 48, 0, 1, 1)] with
        | .ok r => decide (r.2.results = [1] ∧ r.1.stroke_total_painting_time = 0 ∧
            r.1.stroke_idling_time = 0 ∧ r.1.stroke_bbox.w = 1 ∧
            r.1.split_calls = pressureBrush.split_calls)
        | .error _ => false) = true := by decide!
    cases hr : stroke_events refEnv 5 pressureBrush scenarioRc [(65 / 48, 0, 1, 1)] with
    | error e => rw [hr] at hev; simp at hev
    | ok r =>
      rw [hr] at hev
      obtain ⟨b1, rc1⟩ := r
      simp only [decide_eq_true_eq] at hev
      exact ⟨b1, rc1, rfl, hev⟩
  · have hev : (match stroke_events refEnv 5 pressureBrush scenarioRc
          [(65 / 48, 0, 1, 1), (65 / 24, 0, 0, 1)] with
        | .ok _ => false
        | .error e => decide (e = Fault.assertion_failed)) = true := by decide!
    cases hr : stroke_events refEnv 5 pressureBrush scenarioRc
        [(65 / 48, 0, 1, 1), (65 / 24, 0, 0, 1)] with
    | ok r => rw [hr] at hev; simp at hev
    | error e =>
      rw [hr] at hev
      simp only [decide_eq_true_eq] at hev
      rw [hev]
  · have hev : (match stroke_events { refEnv with G_DISABLE_ASSERT := true } 5 pressureBrush
          scenarioRc [(65 / 48, 0, 1, 1), (65 / 24, 0, 0, 1)] with
        | .ok r => decide (r.2.results = [1, 0] ∧ r.1.stroke_total_painting_time = 0 ∧
            r.1.stroke_bbox.w = 1)
        | .error _ => false) = true := by decide!
    cases hr : stroke_events { refEnv with G_DISABLE_ASSERT := true } 5 pressureBrush
        scenarioRc [(65 / 48, 0, 1, 1), (65 / 24, 0, 0, 1)] with
    | error e => rw [hr] at hev; simp at hev
    | ok r =>
      rw [hr] at hev
      obtain ⟨b2, rc2⟩ := r
      simp only [decide_eq_true_eq] at hev
      exact ⟨b2, rc2, rfl, hev⟩

section Termination
variable (E : Env α)

theorem g_assert_error (c : Prop) [Decidable c] (e : Fault) (h : g_assert E c = .error e) :
    e = Fault.assertion_failed := by
  unfold g_assert at h
  split_ifs at h
  cases h
  rfl

theorem c_assert_error (c : Prop) [Decidable c] (e : Fault) (h : c_assert E c = .error e) :
    e = Fault.assertion_failed := by
  unfold c_assert at h
  split_ifs at h
  cases h
  rfl

theorem stroke_length_error (sv : BrushSetting → α) (nd : α) (st : State → α) (e : Fault)
    (h : stroke_length E sv nd st = .error e) : e = Fault.assertion_failed := by
  unfold stroke_length at h
  simp only [bind, Except.bind, pure, Except.pure] at h
  split_ifs at h <;>
    first
    | cases h
    | (split at h
       · rename_i e1 he1
         cases h
         exact c_assert_error E _ _ he1
       · cases h)

theorem brush_update_settings_values_error (b : Brush α) (e : Fault)
    (h : brush_update_settings_values E b = .error e) : e = Fault.assertion_failed := by
  unfold brush_update_settings_values at h
  simp only [bind, Except.bind, pure, Except.pure] at h
  split at h
  · rename_i e1 he1
    cases h
    exact g_assert_error E _ _ he1
  · split at h
    · rename_i e1 he1
      cases h
      exact c_assert_error E _ _ he1
    · split at h
      · rename_i e1 he1
        cases h
        exact stroke_length_error E _ _ _ _ he1
      · cases h

theorem brush_prepare_and_draw_dab_error (b : Brush α) (rc : RenderContext α) (e : Fault)
    (h : brush_prepare_and_draw_dab E b rc = .error e) : e = Fault.assertion_failed := by
  unfold brush_prepare_and_draw_dab at h
  simp only [bind, Except.bind, pure, Except.pure] at h
  split at h
  · rename_i e1 he1
    cases h
    exact g_assert_error E _ _ he1
  · split at h
    · rename_i e1 he1
      cases h
      exact g_assert_error E _ _ he1
    · split at h
      · rename_i e1 he1
        cases h
        exact g_assert_error E _ _ he1
      · cases h

theorem dab_loop_body_error (x y p : α) (s : LoopVars α) (e : Fault)
    (h : dab_loop_body E x y p s = .error e) : e = Fault.assertion_failed := by
  unfold dab_loop_body at h
  simp only [bind, Except.bind, pure, Except.pure] at h
  split at h
  · rename_i e1 he1
    cases h
    exact brush_update_settings_values_error E _ _ he1
  · split at h
    · rename_i e1 he1
      cases h
      exact brush_prepare_and_draw_dab_error E _ _ _ he1
    · cases h

theorem count_le_worst (c : Brush α) (x y p dt : α) (hsqrt : ∀ v, 0 ≤ E.sqrtf v)
    (h1 : 0 ≤ (c.settings BRUSH_DABS_PER_ACTUAL_RADIUS).base_value) :
    (brush_count_dabs_to E c x y p dt).1 ≤ worst_count E c x y dt ∧
    worst_count E (brush_count_dabs_to E c x y p dt).2 x y dt = worst_count E c x y dt := by
  constructor
  · rw [brush_count_dabs_to_value, brush_count_dabs_to_states, Function.update_same]
    unfold worst_count
    have hmin : (0 : α) < ACTUAL_RADIUS_MIN := by unfold ACTUAL_RADIUS_MIN; norm_num
    have hr := (radius_clamp_range (if c.states STATE_ACTUAL_RADIUS = 0
      then E.expf (c.settings BRUSH_RADIUS_LOGARITHMIC).base_value
      else c.states STATE_ACTUAL_RADIUS)).1
    have hdiv := div_le_div_of_nonneg_left (hsqrt ((x - c.states STATE_X) * (x - c.states STATE_X)
      + (y - c.states STATE_Y) * (y - c.states STATE_Y))) hmin hr
    have := mul_le_mul_of_nonneg_right hdiv h1
    linarith
  · unfold worst_count
    rw [brush_count_dabs_to_states, (brush_count_dabs_to_frame E c x y p dt).2]
    simp only [Function.update_apply, if_neg (show STATE_X ≠ STATE_ACTUAL_RADIUS by decide),
      if_neg (show STATE_Y ≠ STATE_ACTUAL_RADIUS by decide)]

theorem worst_count_scale (c c' : Brush α) (x y tl f : α)
    (hhom : ∀ k a d : α, 0 ≤ k →
      E.sqrtf ((k * a) * (k * a) + (k * d) * (k * d)) = k * E.sqrtf (a * a + d * d))
    (hf : 0 ≤ 1 - f) (hset : c'.settings = c.settings)
    (hx : c'.states STATE_X = c.states STATE_X + f * (x - c.states STATE_X))
    (hy : c'.states STATE_Y = c.states STATE_Y + f * (y - c.states STATE_Y)) :
    worst_count E c' x y (tl - f * (tl - 0)) = (1 - f) * worst_count E c x y tl := by
  unfold worst_count
  have ex : x - c'.states STATE_X = (1 - f) * (x - c.states STATE_X) := by rw [hx]; ring
  have ey : y - c'.states STATE_Y = (1 - f) * (y - c.states STATE_Y) := by rw [hy]; ring
  rw [ex, ey, hhom _ _ _ hf, hset]
  ring

end Termination
section Termination2
variable (E : Env α)

theorem loop_bound_step (b : Brush α) (x y p : α) (t t' : LoopVars α)
    (hsqrt : ∀ v, 0 ≤ E.sqrtf v)
    (hhom : ∀ k a d : α, 0 ≤ k →
      E.sqrtf ((k * a) * (k * a) + (k * d) * (k * d)) = k * E.sqrtf (a * a + d * d))
    (h1 : 0 ≤ (b.settings BRUSH_DABS_PER_ACTUAL_RADIUS).base_value)
    (h2 : 0 ≤ (b.settings BRUSH_DABS_PER_BASIC_RADIUS).base_value)
    (h3 : 0 ≤ (b.settings BRUSH_DABS_PER_SECOND).base_value)
    (hQ : LoopBound E b x y t) (hc : t.dist_moved + t.dist_todo ≥ 1)
    (hb : dab_loop_body E x y p t = .ok t') :
    LoopBound E b x y t' ∧
      worst_count E t'.b x y t'.dtime_left + t'.dist_moved
        ≤ worst_count E t.b x y t.dtime_left + t.dist_moved - 1 := by
  obtain ⟨p0, p1, p3, p4, p2, p5⟩ := hQ
  obtain ⟨b1, r, b2, rc2, hb1, hb2, e1, -, e3, e4, -, e6, -⟩ :=
    dab_loop_body_spec E x y p t t' hb
  obtain ⟨hD, hf0, hf1⟩ := dab_frac_range t p0 p1 hc
  obtain ⟨s2, x2, y2, -, -⟩ := dab_step_brush E x y p t b1 b2 rc2 r hb1 hb2
  have hset : b2.settings = b.settings := s2.trans p4
  have hdl : 0 ≤ t'.dtime_left := by
    rw [e6]
    have : t.dtime_left - dab_frac t * (t.dtime_left - 0)
        = (1 - dab_frac t) * t.dtime_left := by ring
    rw [this]
    exact mul_nonneg (by linarith) p3
  have hcw := count_le_worst E b2 x y p t'.dtime_left hsqrt (by rw [hset]; exact h1)
  have hW : worst_count E t'.b x y t'.dtime_left
      = (1 - dab_frac t) * worst_count E t.b x y t.dtime_left := by
    rw [e1, hcw.2, e6]
    exact worst_count_scale E t.b b2 x y t.dtime_left (dab_frac t) hhom (by linarith) s2 x2 y2
  have hfm := dab_frac_mul t hD
  have hWD : dab_frac t * t.dist_todo ≤ dab_frac t * worst_count E t.b x y t.dtime_left :=
    mul_le_mul_of_nonneg_left p5 hf0.le
  refine ⟨⟨?_, ?_, hdl, ?_, ?_, ?_⟩, ?_⟩
  · rw [e3]; split_ifs <;> [exact le_refl _; exact p0]
  · rw [e3]; split_ifs <;> [exact zero_lt_one; exact p1]
  · rw [e1, (brush_count_dabs_to_frame E b2 x y p _).2]; exact hset
  · rw [e4]
    exact brush_count_dabs_to_nonneg E b2 x y p _ hsqrt (by rw [hset]; exact h1)
      (by rw [hset]; exact h2) (by rw [hset]; exact h3) hdl
  · rw [e4]
    have := hcw.1
    rw [e1, hcw.2]
    exact this
  · rw [hW, e3]
    by_cases hm : t.dist_moved > 0
    · simp only [hm, if_true] at hfm ⊢
      nlinarith
    · simp only [hm, if_false] at hfm ⊢
      have : t.dist_moved = 0 := le_antisymm (not_lt.mp hm) p0
      nlinarith

theorem loop_bound_reach (b : Brush α) (x y p : α) (s0 : LoopVars α)
    (hsqrt : ∀ v, 0 ≤ E.sqrtf v)
    (hhom : ∀ k a d : α, 0 ≤ k →
      E.sqrtf ((k * a) * (k * a) + (k * d) * (k * d)) = k * E.sqrtf (a * a + d * d))
    (h1 : 0 ≤ (b.settings BRUSH_DABS_PER_ACTUAL_RADIUS).base_value)
    (h2 : 0 ≤ (b.settings BRUSH_DABS_PER_BASIC_RADIUS).base_value)
    (h3 : 0 ≤ (b.settings BRUSH_DABS_PER_SECOND).base_value)
    (hQ : LoopBound E b x y s0) (t : LoopVars α) (hr : LoopReach E x y p s0 t) :
    LoopBound E b x y t := by
  induction hr with
  | start => exact hQ
  | step t t' _ hc hb ih => exact (loop_bound_step E b x y p t t' hsqrt hhom h1 h2 h3 ih hc hb).1

theorem dab_loop_fuel (b : Brush α) (x y p : α)
    (hsqrt : ∀ v, 0 ≤ E.sqrtf v)
    (hhom : ∀ k a d : α, 0 ≤ k →
      E.sqrtf ((k * a) * (k * a) + (k * d) * (k * d)) = k * E.sqrtf (a * a + d * d))
    (h1 : 0 ≤ (b.settings BRUSH_DABS_PER_ACTUAL_RADIUS).base_value)
    (h2 : 0 ≤ (b.settings BRUSH_DABS_PER_BASIC_RADIUS).base_value)
    (h3 : 0 ≤ (b.settings BRUSH_DABS_PER_SECOND).base_value) :
    ∀ (fuel : Nat) (s : LoopVars α), LoopBound E b x y s →
      worst_count E s.b x y s.dtime_left + s.dist_moved < (fuel : α) + 1 →
      dab_loop E x y p fuel s ≠ .error Fault.out_of_fuel := by
  intro fuel
  induction fuel with
  | zero =>
    intro s hQ hM h
    unfold dab_loop at h
    split_ifs at h with hc
    have := hQ.2.2.2.2.2
    simp only [Nat.cast_zero, zero_add] at hM
    linarith
  | succ n ih =>
    intro s hQ hM h
    unfold dab_loop at h
    split_ifs at h with hc
    cases hb : dab_loop_body E x y p s with
    | error e =>
      rw [hb] at h
      have he := dab_loop_body_error E x y p s e hb
      rw [he] at h
      cases h
    | ok s1 =>
      rw [hb] at h
      obtain ⟨hQ1, hM1⟩ := loop_bound_step E b x y p s s1 hsqrt hhom h1 h2 h3 hQ hc hb
      refine ih s1 hQ1 ?_ h
      push_cast at hM
      linarith

end Termination2
section Termination3
variable (E : Env α)

theorem worst_le_count (c : Brush α) (x y p dt : α) (hsqrt : ∀ v, 0 ≤ E.sqrtf v)
    (h1 : 0 ≤ (c.settings BRUSH_DABS_PER_ACTUAL_RADIUS).base_value)
    (h2 : 0 ≤ (c.settings BRUSH_DABS_PER_BASIC_RADIUS).base_value)
    (h3 : 0 ≤ (c.settings BRUSH_DABS_PER_SECOND).base_value) (hdt : 0 ≤ dt) :
    worst_count E c x y dt ≤ 750 * (brush_count_dabs_to E c x y p dt).1 := by
  rw [brush_count_dabs_to_value, brush_count_dabs_to_states, Function.update_same]
  unfold worst_count
  have hr := radius_clamp_range (if c.states STATE_ACTUAL_RADIUS = 0
    then E.expf (c.settings BRUSH_RADIUS_LOGARITHMIC).base_value
    else c.states STATE_ACTUAL_RADIUS)
  have hrp := radius_clamp_pos (if c.states STATE_ACTUAL_RADIUS = 0
    then E.expf (c.settings BRUSH_RADIUS_LOGARITHMIC).base_value
    else c.states STATE_ACTUAL_RADIUS)
  have hbp := radius_clamp_pos (E.expf (c.settings BRUSH_RADIUS_LOGARITHMIC).base_value)
  have hd := hsqrt ((x - c.states STATE_X) * (x - c.states STATE_X)
    + (y - c.states STATE_Y) * (y - c.states STATE_Y))
  generalize E.sqrtf ((x - c.states STATE_X) * (x - c.states STATE_X)
    + (y - c.states STATE_Y) * (y - c.states STATE_Y)) = d at hd ⊢
  generalize radius_clamp (if c.states STATE_ACTUAL_RADIUS = 0
    then E.expf (c.settings BRUSH_RADIUS_LOGARITHMIC).base_value
    else c.states STATE_ACTUAL_RADIUS) = R at hr hrp ⊢
  have t2 : 0 ≤ d / radius_clamp (E.expf (c.settings BRUSH_RADIUS_LOGARITHMIC).base_value)
      * (c.settings BRUSH_DABS_PER_BASIC_RADIUS).base_value :=
    mul_nonneg (div_nonneg hd hbp.le) h2
  have t3 : 0 ≤ dt * (c.settings BRUSH_DABS_PER_SECOND).base_value := mul_nonneg hdt h3
  have hmax : R ≤ 150 := by
    have := hr.2; unfold ACTUAL_RADIUS_MAX at this; exact this
  have e1 : d / ACTUAL_RADIUS_MIN = 5 * d := by
    unfold ACTUAL_RADIUS_MIN; field_simp; ring
  have e2 : 5 * d ≤ 750 * (d / R) := by
    have : 5 * d * R ≤ 5 * d * 150 := mul_le_mul_of_nonneg_left hmax (by linarith)
    rw [mul_div_assoc', le_div_iff₀ hrp]
    linarith
  have t1 : d / ACTUAL_RADIUS_MIN * (c.settings BRUSH_DABS_PER_ACTUAL_RADIUS).base_value
      ≤ 750 * (d / R) * (c.settings BRUSH_DABS_PER_ACTUAL_RADIUS).base_value := by
    rw [e1]; exact mul_le_mul_of_nonneg_right e2 h1
  nlinarith

theorem dab_loop_body_total (hN : E.NDEBUG = true) (hG : E.G_DISABLE_ASSERT = true)
    (x y p : α) (s : LoopVars α) : ∃ s', dab_loop_body E x y p s = .ok s' := by
  obtain ⟨b1, hb1⟩ := brush_update_settings_values_total E hN (dab_move x y p s)
  obtain ⟨r, hr⟩ := brush_prepare_and_draw_dab_total E hG b1 s.rc
  unfold dab_loop_body
  simp only [bind, Except.bind, pure, Except.pure, hb1, hr]
  exact ⟨_, rfl⟩

theorem dab_loop_ok_or_fuel (hN : E.NDEBUG = true) (hG : E.G_DISABLE_ASSERT = true)
    (x y p : α) : ∀ (fuel : Nat) (s : LoopVars α),
      (∃ s', dab_loop E x y p fuel s = .ok s') ∨
        dab_loop E x y p fuel s = .error Fault.out_of_fuel := by
  intro fuel
  induction fuel with
  | zero =>
    intro s
    unfold dab_loop
    split_ifs
    · exact Or.inr rfl
    · exact Or.inl ⟨s, rfl⟩
  | succ n ih =>
    intro s
    unfold dab_loop
    split_ifs
    · obtain ⟨s1, hs1⟩ := dab_loop_body_total E hN hG x y p s
      rw [hs1]
      exact ih s1
    · exact Or.inl ⟨s, rfl⟩

theorem loop_start_bound (b : Brush α) (rc : RenderContext α) (x y p dtime : α)
    (hsqrt : ∀ v, 0 ≤ E.sqrtf v)
    (h1 : 0 ≤ (b.settings BRUSH_DABS_PER_ACTUAL_RADIUS).base_value)
    (h2 : 0 ≤ (b.settings BRUSH_DABS_PER_BASIC_RADIUS).base_value)
    (h3 : 0 ≤ (b.settings BRUSH_DABS_PER_SECOND).base_value)
    (hd : 0 ≤ b.states STATE_DIST ∧ b.states STATE_DIST < 1) (hpos : 0 < dtime) :
    LoopBound E b (virtual_cursor E b x y dtime).1 (virtual_cursor E b x y dtime).2.1
        (loop_start E b rc x y p dtime) ∧
      worst_count E (loop_start E b rc x y p dtime).b (virtual_cursor E b x y dtime).1
          (virtual_cursor E b x y dtime).2.1 (loop_start E b rc x y p dtime).dtime_left
        ≤ 750 * (loop_start E b rc x y p dtime).dist_todo := by
  have hvs := virtual_cursor_frame E b x y dtime
  have hcw := count_le_worst E (virtual_cursor E b x y dtime).2.2 (virtual_cursor E b x y dtime).1
    (virtual_cursor E b x y dtime).2.1 p dtime hsqrt (by rw [hvs.2.1]; exact h1)
  have hwl := worst_le_count E (virtual_cursor E b x y dtime).2.2 (virtual_cursor E b x y dtime).1
    (virtual_cursor E b x y dtime).2.1 p dtime hsqrt (by rw [hvs.2.1]; exact h1)
    (by rw [hvs.2.1]; exact h2) (by rw [hvs.2.1]; exact h3) hpos.le
  have hnn := brush_count_dabs_to_nonneg E (virtual_cursor E b x y dtime).2.2
    (virtual_cursor E b x y dtime).1 (virtual_cursor E b x y dtime).2.1 p dtime
    hsqrt (by rw [hvs.2.1]; exact h1) (by rw [hvs.2.1]; exact h2)
    (by rw [hvs.2.1]; exact h3) hpos.le
  have hdm : (loop_start E b rc x y p dtime).dist_moved = b.states STATE_DIST := by
    unfold loop_start
    simp only [hvs.2.2]
  refine ⟨⟨by rw [hdm]; exact hd.1, by rw [hdm]; exact hd.2, hpos.le,
    (loop_start_same E b rc x y p dtime).1, hnn, ?_⟩, ?_⟩
  · show (brush_count_dabs_to E (virtual_cursor E b x y dtime).2.2 (virtual_cursor E b x y dtime).1
        (virtual_cursor E b x y dtime).2.1 p dtime).1
      ≤ worst_count E (brush_count_dabs_to E (virtual_cursor E b x y dtime).2.2
        (virtual_cursor E b x y dtime).1 (virtual_cursor E b x y dtime).2.1 p dtime).2
        (virtual_cursor E b x y dtime).1 (virtual_cursor E b x y dtime).2.1 dtime
    rw [hcw.2]
    exact hcw.1
  · show worst_count E (brush_count_dabs_to E (virtual_cursor E b x y dtime).2.2
        (virtual_cursor E b x y dtime).1 (virtual_cursor E b x y dtime).2.1 p dtime).2
        (virtual_cursor E b x y dtime).1 (virtual_cursor E b x y dtime).2.1 dtime
      ≤ 750 * (brush_count_dabs_to E (virtual_cursor E b x y dtime).2.2
        (virtual_cursor E b x y dtime).1 (virtual_cursor E b x y dtime).2.1 p dtime).1
    rw [hcw.2]
    exact hwl

/-- Termination of the dab loop in exact arithmetic (the embedding without
rounding): for every brush with non-negative `DABS_PER_ACTUAL_RADIUS`,
`DABS_PER_BASIC_RADIUS` and `DABS_PER_SECOND` base values (and arbitrary
mappings), every state with `dist` in `[0, 1)` and every event that passes the
discontinuity check (`0 < dtime <= 5`, `dist_todo <= 300`), 225001 iterations
are enough, so with that much fuel the loop never runs out of fuel, and it
returns when no assertion is compiled in; and in every iteration the divisor
`dist_todo` is strictly positive and `frac` lies in `(0, 1]`.  `sqrtf` is
taken non-negative and homogeneous (`sqrtf ((k a)^2 + (k d)^2) = k * sqrtf
(a^2 + d^2)` for `k >= 0`).  With the rounding of `float` neither the bound
on `frac` nor termination holds: see `rounded_dab_loop_fails`. -/
theorem dab_loop_terminates (b : Brush α) (rc : RenderContext α) (x y pressure dtime : α)
    (hsqrt : ∀ v, 0 ≤ E.sqrtf v)
    (hhom : ∀ k a d : α, 0 ≤ k →
      E.sqrtf ((k * a) * (k * a) + (k * d) * (k * d)) = k * E.sqrtf (a * a + d * d))
    (h1 : 0 ≤ (b.settings BRUSH_DABS_PER_ACTUAL_RADIUS).base_value)
    (h2 : 0 ≤ (b.settings BRUSH_DABS_PER_BASIC_RADIUS).base_value)
    (h3 : 0 ≤ (b.settings BRUSH_DABS_PER_SECOND).base_value)
    (hd : 0 ≤ b.states STATE_DIST ∧ b.states STATE_DIST < 1) (hpos : 0 < dtime)
    (hcheck : ¬ (dtime > 5 ∨ (loop_start E b rc x y pressure dtime).dist_todo > 300)) :
    (∀ fuel : Nat, 225001 ≤ fuel →
      dab_loop E (virtual_cursor E b x y dtime).1 (virtual_cursor E b x y dtime).2.1 pressure fuel
        (loop_start E b rc x y pressure dtime) ≠ .error Fault.out_of_fuel) ∧
    (E.NDEBUG = true → E.G_DISABLE_ASSERT = true → ∀ fuel : Nat, 225001 ≤ fuel →
      ∃ s, dab_loop E (virtual_cursor E b x y dtime).1 (virtual_cursor E b x y dtime).2.1
        pressure fuel (loop_start E b rc x y pressure dtime) = .ok s) ∧
    (∀ t, LoopReach E (virtual_cursor E b x y dtime).1 (virtual_cursor E b x y dtime).2.1
        pressure (loop_start E b rc x y pressure dtime) t →
      t.dist_moved + t.dist_todo ≥ 1 →
      0 < t.dist_todo ∧ 0 < dab_frac t ∧ dab_frac t ≤ 1) := by
  obtain ⟨hQ, hW⟩ := loop_start_bound E b rc x y pressure dtime hsqrt h1 h2 h3 hd hpos
  have hD : (loop_start E b rc x y pressure dtime).dist_todo ≤ 300 := by
    by_contra hc
    exact hcheck (Or.inr (not_le.mp hc))
  have hfuel : ∀ fuel : Nat, 225001 ≤ fuel →
      dab_loop E (virtual_cursor E b x y dtime).1 (virtual_cursor E b x y dtime).2.1 pressure fuel
        (loop_start E b rc x y pressure dtime) ≠ .error Fault.out_of_fuel := by
    intro fuel hf
    refine dab_loop_fuel E b _ _ pressure hsqrt hhom h1 h2 h3 fuel _ hQ ?_
    have hf' : (225001 : α) ≤ (fuel : α) := by exact_mod_cast hf
    have := hQ.2.1
    linarith
  refine ⟨hfuel, fun hN hG fuel hf => ?_, fun t ht hc => ?_⟩
  · rcases dab_loop_ok_or_fuel E hN hG _ _ pressure fuel (loop_start E b rc x y pressure dtime)
      with h | h
    · exact h
    · exact absurd h (hfuel fuel hf)
  · have hQt := loop_bound_reach E b _ _ pressure _ hsqrt hhom h1 h2 h3 hQ t ht
    exact dab_frac_range t hQt.1 hQt.2.1 hc

end Termination3
theorem loop_start_worst (E : Env α) (b : Brush α) (rc : RenderContext α) (x y p dtime u v dt : α) :
    worst_count E (loop_start E b rc x y p dtime).b u v dt = worst_count E b u v dt := by
  have hvs := virtual_cursor_frame E b x y dtime
  have hset : (loop_start E b rc x y p dtime).b.settings = b.settings :=
    (loop_start_same E b rc x y p dtime).1
  have hst : ∀ i, i ≠ STATE_ACTUAL_RADIUS →
      (loop_start E b rc x y p dtime).b.states i = b.states i := by
    intro i hi
    show (brush_count_dabs_to E (virtual_cursor E b x y dtime).2.2
      (virtual_cursor E b x y dtime).1 (virtual_cursor E b x y dtime).2.1 p
      dtime).2.states i = b.states i
    rw [brush_count_dabs_to_states, Function.update_noteq hi, hvs.2.2]
  unfold worst_count
  rw [hset, hst _ (by decide), hst _ (by decide)]

theorem real_sqrt_hom (k a d : ℝ) (hk : 0 ≤ k) :
    Real.sqrt ((k * a) * (k * a) + (k * d) * (k * d)) = k * Real.sqrt (a * a + d * d) := by
  have : (k * a) * (k * a) + (k * d) * (k * d) = k ^ 2 * (a * a + d * d) := by ring
  rw [this, Real.sqrt_mul (sq_nonneg k), Real.sqrt_sq hk]

/-- Termination in exact arithmetic at the default brush over the reals with
the real square root and no assertion compiled in, and the event
`(2, 0, 1, 1)`: the dab loop returns with 225001 units of fuel. -/
theorem dab_loop_terminates_witness :
    ∃ s, dab_loop (libmEnv Real.exp Real.log Real.sqrt (fun x y => x ^ y)) 2 0 1 225001
      (loop_start (libmEnv Real.exp Real.log Real.sqrt (fun x y => x ^ y))
        (plainBrush defaultSettings) ⟨0, ⟨0, 0, 0, 0⟩, [], []⟩ 2 0 1 1) = .ok s := by
  have hr1 : 0 ≤ ((plainBrush (defaultSettings : BrushSetting → Mapping ℝ)).settings
      BRUSH_DABS_PER_ACTUAL_RADIUS).base_value := by simp [plainBrush, defaultSettings]
  have hr2 : 0 ≤ ((plainBrush (defaultSettings : BrushSetting → Mapping ℝ)).settings
      BRUSH_DABS_PER_BASIC_RADIUS).base_value := by simp [plainBrush, defaultSettings]
  have hr3 : 0 ≤ ((plainBrush (defaultSettings : BrushSetting → Mapping ℝ)).settings
      BRUSH_DABS_PER_SECOND).base_value := by simp [plainBrush, defaultSettings]
  have hd : 0 ≤ (plainBrush (defaultSettings : BrushSetting → Mapping ℝ)).states STATE_DIST ∧
      (plainBrush (defaultSettings : BrushSetting → Mapping ℝ)).states STATE_DIST < 1 := by
    simp [plainBrush]
  have hv := virtual_cursor_raw (libmEnv Real.exp Real.log Real.sqrt (fun x y => x ^ y))
    (plainBrush defaultSettings) 2 0 1 (by simp [plainBrush, defaultSettings])
    (by simp [plainBrush, defaultSettings])
  have hb := (loop_start_bound (libmEnv Real.exp Real.log Real.sqrt (fun x y => x ^ y))
    (plainBrush defaultSettings) ⟨0, ⟨0, 0, 0, 0⟩, [], []⟩ 2 0 1 1
    (fun v => Real.sqrt_nonneg v) hr1 hr2 hr3 hd one_pos).1.2.2.2.2.2
  rw [loop_start_worst, hv.1, hv.2] at hb
  have hw : worst_count (libmEnv Real.exp Real.log Real.sqrt (fun x y => x ^ y))
      (plainBrush defaultSettings) 2 0
      (loop_start (libmEnv Real.exp Real.log Real.sqrt (fun x y => x ^ y))
        (plainBrush defaultSettings) ⟨0, ⟨0, 0, 0, 0⟩, [], []⟩ 2 0 1 1).dtime_left = 20 := by
    have hs : Real.sqrt ((2 : ℝ) * 2) = 2 := Real.sqrt_mul_self (by norm_num)
    simp [worst_count, plainBrush, defaultSettings, libmEnv, ACTUAL_RADIUS_MIN, hs]
    norm_num
  rw [hw] at hb
  have h := (dab_loop_terminates (libmEnv Real.exp Real.log Real.sqrt (fun x y => x ^ y))
    (plainBrush defaultSettings) ⟨0, ⟨0, 0, 0, 0⟩, [], []⟩ 2 0 1 1
    (fun v => Real.sqrt_nonneg v) real_sqrt_hom hr1 hr2 hr3 hd one_pos
    (by
      intro hc
      rcases hc with hc | hc
      · norm_num at hc
      · linarith)).2.1 rfl rfl 225001 (le_refl _)
  rw [hv.1, hv.2] at h
  exact h

section BinaryRounding

theorem pow2_eq (k : Int) : pow2 k = (2 : ℚ) ^ k := by
  unfold pow2
  split_ifs with h
  · obtain ⟨n, rfl⟩ := Int.eq_ofNat_of_zero_le h
    simp
  · push_neg at h
    obtain ⟨n, hn⟩ := Int.exists_eq_neg_ofNat h.le
    subst hn
    simp

theorem pow2_pos (k : Int) : 0 < pow2 k := by
  rw [pow2_eq]; positivity

theorem log2_floor_spec : ∀ (fuel n : Nat), 1 ≤ n → n ≤ fuel →
    2 ^ log2_floor fuel n ≤ n ∧ n < 2 ^ (log2_floor fuel n + 1)
  | 0, n, h1, h2 => by omega
  | fuel + 1, n, h1, h2 => by
    unfold log2_floor
    split_ifs with h
    · have : n = 1 := by omega
      subst this
      simp
    · have ih := log2_floor_spec fuel (n / 2) (by omega) (by omega)
      rw [pow_succ, pow_succ]
      constructor <;> omega

theorem binary_exponent_spec (a : ℚ) (ha : 0 < a) :
    (2 : ℚ) ^ binary_exponent a ≤ a ∧ a < (2 : ℚ) ^ (binary_exponent a + 1) := by
  have hnum : 0 < a.num := Rat.num_pos.mpr ha
  have hn1 : 1 ≤ a.num.natAbs := by omega
  have hd1 : 1 ≤ a.den := a.den_pos
  obtain ⟨n1, n2⟩ := log2_floor_spec a.num.natAbs a.num.natAbs hn1 (le_refl _)
  obtain ⟨d1, d2⟩ := log2_floor_spec a.den a.den hd1 (le_refl _)
  have hq : a = (a.num.natAbs : ℚ) / (a.den : ℚ) := by
    have h := (Rat.num_div_den a).symm
    have hc : (a.num : ℚ) = ((a.num.natAbs : ℕ) : ℚ) := by
      have h1 : (a.num.natAbs : ℤ) = a.num := Int.natAbs_of_nonneg hnum.le
      have h2 : ((a.num.natAbs : ℤ) : ℚ) = (a.num : ℚ) := congrArg Int.cast h1
      rw [← h2]
      exact Int.cast_natCast _
    rw [hc] at h
    exact h
  have hdq : (0 : ℚ) < (a.den : ℚ) := by exact_mod_cast hd1
  have N1 : (2 : ℚ) ^ (log2_floor a.num.natAbs a.num.natAbs) ≤ (a.num.natAbs : ℚ) := by
    exact_mod_cast n1
  have N2 : (a.num.natAbs : ℚ) < (2 : ℚ) ^ (log2_floor a.num.natAbs a.num.natAbs + 1) := by
    exact_mod_cast n2
  have D1 : (2 : ℚ) ^ (log2_floor a.den a.den) ≤ (a.den : ℚ) := by exact_mod_cast d1
  have D2 : (a.den : ℚ) < (2 : ℚ) ^ (log2_floor a.den a.den + 1) := by exact_mod_cast d2
  set ln := log2_floor a.num.natAbs a.num.natAbs with hln
  set ld := log2_floor a.den a.den with hld
  have two_ne : (2 : ℚ) ≠ 0 := by norm_num
  -- a < 2 ^ (ln - ld + 1)
  have up : a < (2 : ℚ) ^ ((ln : ℤ) - ld + 1) := by
    have e : (2 : ℚ) ^ ((ln : ℤ) - ld + 1) = (2 : ℚ) ^ (ln + 1) / (2 : ℚ) ^ ld := by
      rw [show ((ln : ℤ) - ld + 1) = ((ln + 1 : ℕ) : ℤ) - (ld : ℤ) by push_cast; ring,
        zpow_sub₀ two_ne, zpow_natCast, zpow_natCast]
    rw [e, hq, div_lt_div_iff₀ hdq (by positivity)]
    calc (a.num.natAbs : ℚ) * 2 ^ ld ≤ (a.num.natAbs : ℚ) * a.den :=
          mul_le_mul_of_nonneg_left D1 (by positivity)
      _ < 2 ^ (ln + 1) * a.den := mul_lt_mul_of_pos_right N2 hdq
  have low : (2 : ℚ) ^ ((ln : ℤ) - ld - 1) < a := by
    have e : (2 : ℚ) ^ ((ln : ℤ) - ld - 1) = (2 : ℚ) ^ ln / (2 : ℚ) ^ (ld + 1) := by
      rw [show ((ln : ℤ) - ld - 1) = ((ln : ℕ) : ℤ) - ((ld + 1 : ℕ) : ℤ) by push_cast; ring,
        zpow_sub₀ two_ne, zpow_natCast, zpow_natCast]
    rw [e, hq, div_lt_div_iff₀ (by positivity) hdq]
    calc (2 : ℚ) ^ ln * a.den < 2 ^ ln * 2 ^ (ld + 1) :=
          mul_lt_mul_of_pos_left D2 (by positivity)
      _ ≤ (a.num.natAbs : ℚ) * 2 ^ (ld + 1) := mul_le_mul_of_nonneg_right N1 (by positivity)
  unfold binary_exponent
  simp only [← hln, ← hld]
  rw [pow2_eq]
  split_ifs with h
  · exact ⟨h, up⟩
  · push_neg at h
    refine ⟨low.le, ?_⟩
    rw [sub_add_cancel]
    exact h


theorem binary_exponent_lt (a : ℚ) (ha : 0 < a) (z : Int) (h : a < (2 : ℚ) ^ z) :
    binary_exponent a < z := by
  by_contra hc
  push_neg at hc
  have h1 := (binary_exponent_spec a ha).1
  have h2 : (2 : ℚ) ^ z ≤ (2 : ℚ) ^ binary_exponent a :=
    zpow_le_zpow_right₀ (by norm_num) hc
  linarith

theorem binary_exponent_ge (a : ℚ) (ha : 0 < a) (z : Int) (h : (2 : ℚ) ^ z ≤ a) :
    z ≤ binary_exponent a := by
  by_contra hc
  push_neg at hc
  have h1 := (binary_exponent_spec a ha).2
  have h2 : (2 : ℚ) ^ (binary_exponent a + 1) ≤ (2 : ℚ) ^ z :=
    zpow_le_zpow_right₀ (by norm_num) (by omega)
  linarith

theorem binary_exponent_mono (a b : ℚ) (ha : 0 < a) (hab : a ≤ b) :
    binary_exponent a ≤ binary_exponent b :=
  binary_exponent_ge b (lt_of_lt_of_le ha hab) _
    (le_trans (binary_exponent_spec a ha).1 hab)

theorem round_half_even_bounds (q : ℚ) :
    ⌊q⌋ ≤ round_half_even q ∧ round_half_even q ≤ ⌊q⌋ + 1 := by
  unfold round_half_even
  split_ifs <;> constructor <;> omega

theorem round_half_even_intCast (n : Int) : round_half_even (n : ℚ) = n := by
  unfold round_half_even
  rw [Int.floor_intCast, sub_self, if_pos (by norm_num)]

theorem round_half_even_mono (q r : ℚ) (h : q ≤ r) : round_half_even q ≤ round_half_even r := by
  have hfg : ⌊q⌋ ≤ ⌊r⌋ := Int.floor_mono h
  rcases lt_or_eq_of_le hfg with hlt | heq
  · have h1 := (round_half_even_bounds q).2
    have h2 := (round_half_even_bounds r).1
    omega
  · unfold round_half_even
    rw [← heq]
    have hqr : q - ⌊q⌋ ≤ r - ⌊q⌋ := by linarith
    split_ifs <;> first | omega | (exfalso; linarith)

theorem binary_quantum_eq (p : Nat) (emin : Int) (a : ℚ) :
    binary_quantum p emin a = (2 : ℚ) ^ (max (binary_exponent a) emin - ((p : Int) - 1)) := by
  unfold binary_quantum
  rw [pow2_eq]

theorem binary_quantum_pos (p : Nat) (emin : Int) (a : ℚ) : 0 < binary_quantum p emin a := by
  rw [binary_quantum_eq]; positivity

theorem int_pow_mul_zpow (k : Nat) (z : Int) :
    (((2 : Int) ^ k : Int) : ℚ) * (2 : ℚ) ^ z = (2 : ℚ) ^ (z + k) := by
  rw [zpow_add₀ (by norm_num : (2 : ℚ) ≠ 0), zpow_natCast]
  push_cast
  ring

theorem binary_round_abs_nonneg (p : Nat) (emin : Int) (a : ℚ) (ha : 0 ≤ a) :
    0 ≤ binary_round_abs p emin a := by
  unfold binary_round_abs
  split_ifs with h0
  · exact le_refl _
  · have hQ := binary_quantum_pos p emin a
    have h1 : (0 : ℚ) ≤ a / binary_quantum p emin a := div_nonneg ha hQ.le
    have h2 : round_half_even ((0 : Int) : ℚ) ≤ round_half_even (a / binary_quantum p emin a) :=
      round_half_even_mono _ _ (by simpa using h1)
    rw [round_half_even_intCast] at h2
    exact mul_nonneg (by exact_mod_cast h2) hQ.le

theorem binary_round_abs_le (p : Nat) (emin : Int) (a : ℚ) (ha : 0 < a) :
    binary_round_abs p emin a ≤ (2 : ℚ) ^ (max (binary_exponent a) emin + 1) := by
  unfold binary_round_abs
  rw [if_neg ha.ne']
  have hQ := binary_quantum_pos p emin a
  have hQe := binary_quantum_eq p emin a
  have htop : (((2 : Int) ^ p : Int) : ℚ) * binary_quantum p emin a
      = (2 : ℚ) ^ (max (binary_exponent a) emin + 1) := by
    rw [hQe, int_pow_mul_zpow]
    congr 1; ring
  have hlt : a < (2 : ℚ) ^ (max (binary_exponent a) emin + 1) :=
    lt_of_lt_of_le (binary_exponent_spec a ha).2
      (zpow_le_zpow_right₀ (by norm_num) (by have := le_max_left (binary_exponent a) emin; omega))
  have h1 : a / binary_quantum p emin a ≤ (((2 : Int) ^ p : Int) : ℚ) := by
    rw [div_le_iff₀ hQ, htop]; exact hlt.le
  have h2 := round_half_even_mono _ _ h1
  rw [round_half_even_intCast] at h2
  rw [← htop]
  exact mul_le_mul_of_nonneg_right (by exact_mod_cast h2) hQ.le

theorem binary_round_abs_ge (p : Nat) (emin : Int) (hp : 1 ≤ p) (a : ℚ) (ha : 0 < a)
    (he : emin ≤ binary_exponent a) :
    (2 : ℚ) ^ binary_exponent a ≤ binary_round_abs p emin a := by
  unfold binary_round_abs
  rw [if_neg ha.ne']
  have hQ := binary_quantum_pos p emin a
  have hQe := binary_quantum_eq p emin a
  rw [max_eq_left he] at hQe
  have hbot : (((2 : Int) ^ (p - 1) : Int) : ℚ) * binary_quantum p emin a
      = (2 : ℚ) ^ binary_exponent a := by
    rw [hQe, int_pow_mul_zpow]
    congr 1
    have : ((p - 1 : Nat) : Int) = (p : Int) - 1 := by omega
    rw [this]; ring
  have h1 : (((2 : Int) ^ (p - 1) : Int) : ℚ) ≤ a / binary_quantum p emin a := by
    rw [le_div_iff₀ hQ, hbot]; exact (binary_exponent_spec a ha).1
  have h2 := round_half_even_mono _ _ h1
  rw [round_half_even_intCast] at h2
  rw [← hbot]
  exact mul_le_mul_of_nonneg_right (by exact_mod_cast h2) hQ.le

theorem binary_round_abs_mono (p : Nat) (emin : Int) (hp : 1 ≤ p) (a b : ℚ) (ha : 0 ≤ a)
    (hab : a ≤ b) : binary_round_abs p emin a ≤ binary_round_abs p emin b := by
  rcases eq_or_lt_of_le ha with h0 | hpos
  · rw [← h0]
    have : binary_round_abs p emin 0 = 0 := by unfold binary_round_abs; rw [if_pos rfl]
    rw [this]
    exact binary_round_abs_nonneg p emin b (le_trans ha hab)
  · have hb : 0 < b := lt_of_lt_of_le hpos hab
    have he := binary_exponent_mono a b hpos hab
    have hE : max (binary_exponent a) emin ≤ max (binary_exponent b) emin :=
      max_le_max he (le_refl _)
    rcases eq_or_lt_of_le hE with heq | hlt
    · have hQ : binary_quantum p emin a = binary_quantum p emin b := by
        rw [binary_quantum_eq, binary_quantum_eq, heq]
      unfold binary_round_abs
      rw [if_neg hpos.ne', if_neg hb.ne', hQ]
      have hQp := binary_quantum_pos p emin b
      have h1 : a / binary_quantum p emin b ≤ b / binary_quantum p emin b :=
        div_le_div_of_nonneg_right hab hQp.le
      have h2 := round_half_even_mono _ _ h1
      exact mul_le_mul_of_nonneg_right (by exact_mod_cast h2) hQp.le
    · have hbe : emin ≤ binary_exponent b := by
        by_contra hc
        push_neg at hc
        rw [max_eq_right hc.le] at hlt
        have := le_max_right (binary_exponent a) emin
        omega
      have h1 := binary_round_abs_le p emin a hpos
      have h2 := binary_round_abs_ge p emin hp b hb hbe
      rw [max_eq_left hbe] at hlt
      have h3 : (2 : ℚ) ^ (max (binary_exponent a) emin + 1) ≤ (2 : ℚ) ^ binary_exponent b :=
        zpow_le_zpow_right₀ (by norm_num) (by omega)
      linarith

theorem binary_round_abs_of_multiple (p : Nat) (emin : Int) (r : ℚ) (m : Int)
    (h : r = (m : ℚ) * binary_quantum p emin r) : binary_round_abs p emin r = r := by
  unfold binary_round_abs
  split_ifs with h0
  · exact h0.symm
  · have hQ := binary_quantum_pos p emin r
    have : r / binary_quantum p emin r = (m : ℚ) := by
      rw [div_eq_iff hQ.ne']; exact h
    rw [this, round_half_even_intCast]
    exact h.symm

theorem binary_round_abs_idem (p : Nat) (emin : Int) (hp : 1 ≤ p) (a : ℚ) (ha : 0 ≤ a) :
    binary_round_abs p emin (binary_round_abs p emin a) = binary_round_abs p emin a := by
  rcases eq_or_lt_of_le ha with h0 | hpos
  · rw [← h0]
    have : binary_round_abs p emin 0 = 0 := by unfold binary_round_abs; rw [if_pos rfl]
    rw [this, this]
  · have hr0 := binary_round_abs_nonneg p emin a ha
    rcases eq_or_lt_of_le hr0 with hz | hrpos
    · rw [← hz]
      unfold binary_round_abs; rw [if_pos rfl]
    · have hle := binary_round_abs_le p emin a hpos
      have hform : binary_round_abs p emin a
          = (round_half_even (a / binary_quantum p emin a) : ℚ) * binary_quantum p emin a := by
        unfold binary_round_abs; rw [if_neg hpos.ne']
      set r := binary_round_abs p emin a with hr
      set Ea := max (binary_exponent a) emin with hEa
      rcases eq_or_lt_of_le hle with heq | hlt
      · -- r is the power of two above the binade
        have her : binary_exponent r = Ea + 1 := by
          apply le_antisymm
          · have := binary_exponent_lt r hrpos (Ea + 1 + 1)
              (by rw [heq]; exact zpow_lt_zpow_right₀ (by norm_num) (by omega))
            omega
          · exact binary_exponent_ge r hrpos _ heq.ge
        have hmax : max (binary_exponent r) emin = Ea + 1 := by
          rw [her]
          exact max_eq_left (by have := le_max_right (binary_exponent a) emin; omega)
        apply binary_round_abs_of_multiple p emin r ((2 : Int) ^ (p - 1))
        rw [binary_quantum_eq, hmax, int_pow_mul_zpow, heq]
        congr 1
        have : ((p - 1 : Nat) : Int) = (p : Int) - 1 := by omega
        rw [this]; ring
      · have her : binary_exponent r ≤ Ea := by
          have := binary_exponent_lt r hrpos (Ea + 1) hlt
          omega
        have hmax : max (binary_exponent r) emin ≤ Ea :=
          max_le her (le_max_right _ _)
        obtain ⟨k, hk⟩ := Int.eq_ofNat_of_zero_le (sub_nonneg.mpr hmax)
        apply binary_round_abs_of_multiple p emin r
          (round_half_even (a / binary_quantum p emin a) * (2 : Int) ^ k)
        have hQa : binary_quantum p emin a
            = (((2 : Int) ^ k : Int) : ℚ) * binary_quantum p emin r := by
          rw [binary_quantum_eq, binary_quantum_eq, int_pow_mul_zpow]
          congr 1
          rw [← hk]; ring
        calc r = (round_half_even (a / binary_quantum p emin a) : ℚ)
              * binary_quantum p emin a := hform
          _ = (round_half_even (a / binary_quantum p emin a) : ℚ)
              * ((((2 : Int) ^ k : Int) : ℚ) * binary_quantum p emin r) :=
            congrArg (fun z => (round_half_even (a / binary_quantum p emin a) : ℚ) * z) hQa
          _ = ((round_half_even (a / binary_quantum p emin a) * (2 : Int) ^ k : Int) : ℚ)
              * binary_quantum p emin r := by
            rw [Int.cast_mul, mul_assoc]

theorem binary_round_mono (p : Nat) (emin : Int) (hp : 1 ≤ p) : Monotone (binary_round p emin) := by
  intro a b hab
  unfold binary_round
  by_cases ha : a < 0
  · by_cases hb : b < 0
    · rw [if_pos ha, if_pos hb]
      have := binary_round_abs_mono p emin hp (-b) (-a) (by linarith) (by linarith)
      linarith
    · rw [if_pos ha, if_neg hb]
      have h1 := binary_round_abs_nonneg p emin (-a) (by linarith)
      have h2 := binary_round_abs_nonneg p emin b (not_lt.mp hb)
      linarith
  · have hb : ¬ b < 0 := by push_neg at ha ⊢; linarith
    rw [if_neg ha, if_neg hb]
    exact binary_round_abs_mono p emin hp a b (not_lt.mp ha) hab

theorem binary_round_idem (p : Nat) (emin : Int) (hp : 1 ≤ p) (q : ℚ) :
    binary_round p emin (binary_round p emin q) = binary_round p emin q := by
  unfold binary_round
  by_cases hq : q < 0
  · rw [if_pos hq]
    have h0 := binary_round_abs_nonneg p emin (-q) (by linarith)
    rcases eq_or_lt_of_le h0 with hz | hpos
    · rw [← hz]
      simp [binary_round_abs]
    · rw [if_pos (by linarith), neg_neg,
        binary_round_abs_idem p emin hp (-q) (by linarith)]
  · rw [if_neg hq]
    have h0 := binary_round_abs_nonneg p emin q (not_lt.mp hq)
    rw [if_neg (not_lt.mpr h0), binary_round_abs_idem p emin hp q (not_lt.mp hq)]

end BinaryRounding

section DecayFp
variable (F : Rounding α) (E : Env α)

theorem exp_decay_fp_range (hexp : ∀ u : α, u ≤ 0 → 0 ≤ E.exp u ∧ E.exp u ≤ 1)
    (hfl : Monotone F.fl) (hdl : Monotone F.dl) (fl0 : F.fl 0 = 0) (fl1 : F.fl 1 = 1)
    (dl0 : F.dl 0 = 0) (T t : α) (ht : 0 ≤ t) :
    0 ≤ exp_decay_fp F E T t ∧ exp_decay_fp F E T t ≤ 1 := by
  unfold exp_decay_fp
  by_cases hT : T ≤ F.dl (1 / 1000)
  · simp only [hT, if_true]
    exact ⟨le_refl _, zero_le_one⟩
  · simp only [hT, if_false]
    have hd : 0 ≤ F.dl (1 / 1000) := by
      have := hdl (show (0 : α) ≤ 1 / 1000 by norm_num)
      rwa [dl0] at this
    have hTpos : 0 < T := lt_of_le_of_lt hd (not_le.mp hT)
    have hq : -t / T ≤ 0 := div_nonpos_of_nonpos_of_nonneg (neg_nonpos.mpr ht) hTpos.le
    have hq' : F.fl (-t / T) ≤ 0 := by
      have := hfl hq
      rwa [fl0] at this
    obtain ⟨e0, e1⟩ := hexp _ hq'
    constructor
    · have := hfl e0
      rwa [fl0] at this
    · have := hfl e1
      rwa [fl1] at this

theorem decay_fac_fp_range (hexp : ∀ u : α, u ≤ 0 → 0 ≤ E.exp u ∧ E.exp u ≤ 1)
    (hfl : Monotone F.fl) (hdl : Monotone F.dl) (fl0 : F.fl 0 = 0) (fl1 : F.fl 1 = 1)
    (dl0 : F.dl 0 = 0) (dl1 : F.dl 1 = 1) (T t : α) (ht : 0 ≤ t) :
    0 ≤ decay_fac_fp F E T t ∧ decay_fac_fp F E T t ≤ 1 := by
  obtain ⟨h0, h1⟩ := exp_decay_fp_range F E hexp hfl hdl fl0 fl1 dl0 T t ht
  unfold decay_fac_fp
  constructor
  · have := hfl (hdl (show (0 : α) ≤ 1 - exp_decay_fp F E T t by linarith))
    rwa [dl0, fl0] at this
  · have := hfl (hdl (show 1 - exp_decay_fp F E T t ≤ (1 : α) by linarith))
    rwa [dl1, fl1] at this

theorem low_pass_fp_between (hfl : Monotone F.fl) (fl0 : F.fl 0 = 0)
    (hidem : ∀ z, F.fl (F.fl z) = F.fl z) (v target fac : α) (hv : F.fl v = v)
    (hf0 : 0 ≤ fac) (hf1 : fac ≤ 1) :
    min v (F.fl (v + F.fl (target - v))) ≤ low_pass_fp F v target fac ∧
      low_pass_fp F v target fac ≤ max v (F.fl (v + F.fl (target - v))) := by
  unfold low_pass_fp
  rcases le_total v target with hvt | hvt
  · have hd : 0 ≤ F.fl (target - v) := by
      have := hfl (show (0 : α) ≤ target - v by linarith)
      rwa [fl0] at this
    have hm0 : 0 ≤ F.fl (F.fl (target - v) * fac) := by
      have := hfl (mul_nonneg hd hf0)
      rwa [fl0] at this
    have hm1 : F.fl (F.fl (target - v) * fac) ≤ F.fl (target - v) := by
      have := hfl (show F.fl (target - v) * fac ≤ F.fl (target - v) by nlinarith)
      rwa [hidem] at this
    have lo : v ≤ F.fl (v + F.fl (F.fl (target - v) * fac)) := by
      have := hfl (show v ≤ v + F.fl (F.fl (target - v) * fac) by linarith)
      rwa [hv] at this
    have hi : F.fl (v + F.fl (F.fl (target - v) * fac)) ≤ F.fl (v + F.fl (target - v)) :=
      hfl (by linarith)
    exact ⟨le_trans (min_le_left _ _) lo, le_trans hi (le_max_right _ _)⟩
  · have hd : F.fl (target - v) ≤ 0 := by
      have := hfl (show target - v ≤ (0 : α) by linarith)
      rwa [fl0] at this
    have hm0 : F.fl (F.fl (target - v) * fac) ≤ 0 := by
      have := hfl (mul_nonpos_of_nonpos_of_nonneg hd hf0)
      rwa [fl0] at this
    have hm1 : F.fl (target - v) ≤ F.fl (F.fl (target - v) * fac) := by
      have := hfl (show F.fl (target - v) ≤ F.fl (target - v) * fac by nlinarith)
      rwa [hidem] at this
    have hi : F.fl (v + F.fl (F.fl (target - v) * fac)) ≤ v := by
      have := hfl (show v + F.fl (F.fl (target - v) * fac) ≤ v by linarith)
      rwa [hv] at this
    have lo : F.fl (v + F.fl (target - v)) ≤ F.fl (v + F.fl (F.fl (target - v) * fac)) :=
      hfl (by linarith)
    exact ⟨le_trans (min_le_right _ _) lo, le_trans hi (le_max_left _ _)⟩

theorem low_pass_fp_one (hidem : ∀ z, F.fl (F.fl z) = F.fl z) (v target : α) :
    low_pass_fp F v target 1 = F.fl (v + F.fl (target - v)) := by
  unfold low_pass_fp
  rw [mul_one, hidem]

theorem decay_fac_fp_instant (fl1 : F.fl 1 = 1) (dl1 : F.dl 1 = 1) (T t : α)
    (hT : T ≤ F.dl (1 / 1000)) : decay_fac_fp F E T t = 1 := by
  unfold decay_fac_fp exp_decay_fp
  rw [if_pos hT, sub_zero, dl1, fl1]

/-- C27, amended: `exp_decay (T, t)` returns 0 when `T <= 0.001` and the
`float` of `exp (-t / T)` otherwise; hence for every `T` and every `t >= 0`
the factor `fac = 1 - exp_decay (T, t)` lies in `[0, 1]`.  Every low-pass
update `v + (target - v) * fac`, computed in `float` as the code does, lies
between `v` and `fl (v + fl (target - v))`, the rounded value of
`v + (target - v)`; with `T <= 0.001` the update yields just that value, which
is `target` itself whenever the difference `target - v` is a `float`; so slow
tracking with `SLOW_TRACKING <= 0.001` moves the cursor to
`fl (state + fl (sample - state))`, the new position up to rounding.  `exp` is
taken to map non-positive numbers into `[0, 1]`; the rounding is monotone,
leaves `float`s alone and keeps 0 and 1.  `0.001` is the `double` constant of
line 138, `dl (1 / 1000)`; for a `float` `T` the test against it is the test
`T <= 1 / 1000` (`binary32_le_milli`). -/
theorem low_pass_rounded (hexp : ∀ u : α, u ≤ 0 → 0 ≤ E.exp u ∧ E.exp u ≤ 1)
    (hfl : Monotone F.fl) (hdl : Monotone F.dl) (fl0 : F.fl 0 = 0) (fl1 : F.fl 1 = 1)
    (dl0 : F.dl 0 = 0) (dl1 : F.dl 1 = 1) (hidem : ∀ z, F.fl (F.fl z) = F.fl z)
    (T t v target : α) (ht : 0 ≤ t) (hv : F.fl v = v) :
    (T ≤ F.dl (1 / 1000) → exp_decay_fp F E T t = 0) ∧
    (¬ T ≤ F.dl (1 / 1000) → exp_decay_fp F E T t = F.fl (E.exp (F.fl (-t / T)))) ∧
    (0 ≤ decay_fac_fp F E T t ∧ decay_fac_fp F E T t ≤ 1) ∧
    (min v (F.fl (v + F.fl (target - v))) ≤ low_pass_fp F v target (decay_fac_fp F E T t) ∧
      low_pass_fp F v target (decay_fac_fp F E T t) ≤ max v (F.fl (v + F.fl (target - v)))) ∧
    (T ≤ F.dl (1 / 1000) →
      low_pass_fp F v target (decay_fac_fp F E T t) = F.fl (v + F.fl (target - v))) ∧
    (T ≤ F.dl (1 / 1000) → F.fl (target - v) = target - v → F.fl target = target →
      low_pass_fp F v target (decay_fac_fp F E T t) = target) ∧
    (∀ (b : Brush α) (x y dtime : α),
      (b.settings BRUSH_SLOW_TRACKING).base_value ≤ F.dl (1 / 1000) →
      (b.settings BRUSH_TRACKING_NOISE).base_value = 0 →
      virtual_cursor_fp F E b x y dtime
        = (F.fl (b.states STATE_X + F.fl (x - b.states STATE_X)),
           F.fl (b.states STATE_Y + F.fl (y - b.states STATE_Y)), b)) := by
  have hr := decay_fac_fp_range F E hexp hfl hdl fl0 fl1 dl0 dl1 T t ht
  refine ⟨?_, ?_, hr, low_pass_fp_between F hfl fl0 hidem v target _ hv hr.1 hr.2, ?_, ?_, ?_⟩
  · intro hT; unfold exp_decay_fp; rw [if_pos hT]
  · intro hT; unfold exp_decay_fp; rw [if_neg hT]
  · intro hT
    rw [decay_fac_fp_instant F E fl1 dl1 T t hT, low_pass_fp_one F hidem]
  · intro hT hd htg
    rw [decay_fac_fp_instant F E fl1 dl1 T t hT, low_pass_fp_one F hidem, hd]
    rw [show v + (target - v) = target by ring, htg]
  · intro b x y dtime hs hn
    unfold virtual_cursor_fp tracking_fac_fp
    simp only [hn, ne_eq, not_true_eq_false, if_false]
    rw [show decay_fac_fp F E (b.settings BRUSH_SLOW_TRACKING).base_value
        (F.fl (F.dl (100 * dtime))) = 1 from decay_fac_fp_instant F E fl1 dl1 _ _ hs,
      low_pass_fp_one F hidem, low_pass_fp_one F hidem]

end DecayFp

theorem binary32_mono : Monotone binary32 := binary_round_mono 24 (-126) (by norm_num)
theorem binary64_mono : Monotone binary64 := binary_round_mono 53 (-1022) (by norm_num)
theorem binary32_idem (q : ℚ) : binary32 (binary32 q) = binary32 q :=
  binary_round_idem 24 (-126) (by norm_num) q
theorem binary64_idem (q : ℚ) : binary64 (binary64 q) = binary64 q :=
  binary_round_idem 53 (-1022) (by norm_num) q

/-- For a `float` `T` the test `T <= 0.001` of `exp_decay`, which compares
with the `double` nearest to 0.001, is the test against the real number
`0.001`: no `float` lies between the two. -/
theorem binary32_le_milli (T : ℚ) (hT : binary32 T = T) :
    T ≤ ieee.dl (1 / 1000) ↔ T ≤ 1 / 1000 := by
  constructor
  · intro h
    by_contra hc
    push_neg at hc
    have h1 := binary32_mono hc.le
    rw [hT] at h1
    have h2 : ieee.dl (1 / 1000) < binary32 (1 / 1000) := by decide!
    linarith
  · intro h
    have h2 : (1 / 1000 : ℚ) ≤ ieee.dl (1 / 1000) := by decide!
    linarith

/-- Counterexample to C27 as stated, in binary32: the cursor state is at
`x = 3.0`, the new sample is the `float` `0.1f = 13421773 / 2^27`,
`SLOW_TRACKING = 0` (so `fac = 1`) and there is no tracking noise.  Lines
545-546 compute `3.0 + (0.1f - 3.0) * 1`: the difference rounds to
`-2.9000001`, and the sum is `0.09999990` (`419430 / 2^22`): not the new
position, and beyond it as seen from the state. -/
theorem slow_tracking_misses_target :
    (trackBrush.settings BRUSH_SLOW_TRACKING).base_value ≤ 1 / 1000 ∧
    (trackBrush.settings BRUSH_TRACKING_NOISE).base_value = 0 ∧
    trackBrush.states STATE_X = 3 ∧
    binary32 (13421773 / 134217728) = 13421773 / 134217728 ∧
    binary32 (13421773 / 134217728 - 3) = -(12163482 / 4194304) ∧
    tracking_fac_fp ieee refEnv (trackBrush.settings BRUSH_SLOW_TRACKING).base_value (1 / 8) = 1 ∧
    (virtual_cursor_fp ieee refEnv trackBrush (13421773 / 134217728) 0 (1 / 8)).1
      = 419430 / 4194304 ∧
    (virtual_cursor_fp ieee refEnv trackBrush (13421773 / 134217728) 0 (1 / 8)).1
      ≠ 13421773 / 134217728 ∧
    (virtual_cursor_fp ieee refEnv trackBrush (13421773 / 134217728) 0 (1 / 8)).1
      < min (trackBrush.states STATE_X) (13421773 / 134217728) := by
  have h : (virtual_cursor_fp ieee refEnv trackBrush (13421773 / 134217728) 0 (1 / 8)).1
      = 419430 / 4194304 := by decide!
  refine ⟨by decide!, by decide!, by decide!, by decide!, by decide!, by decide!, h, ?_, ?_⟩
  · rw [h]; norm_num
  · rw [h]
    have : trackBrush.states STATE_X = 3 := by decide!
    rw [this]; norm_num

/-- Witness of C27 amended in binary32 and binary64, with a rational stand-in
for `exp` on the non-positive numbers: `T = 1`, `t = 1`, and the instant case
`T = 0` from the state 3.0 to the sample `0.1f`. -/
theorem low_pass_rounded_witness :
    (0 ≤ decay_fac_fp ieee decayEnv 1 1 ∧ decay_fac_fp ieee decayEnv 1 1 ≤ 1) ∧
    low_pass_fp ieee 3 (13421773 / 134217728) (decay_fac_fp ieee decayEnv 0 1)
      = binary32 (3 + binary32 (13421773 / 134217728 - 3)) ∧
    low_pass_fp ieee 3 (1 / 2) (decay_fac_fp ieee decayEnv 0 1) = 1 / 2 := by
  have hexp : ∀ u : ℚ, u ≤ 0 → 0 ≤ decayEnv.exp u ∧ decayEnv.exp u ≤ 1 := by
    intro u hu
    show 0 ≤ 1 / (1 - u) ∧ 1 / (1 - u) ≤ 1
    have h1 : (1 : ℚ) ≤ 1 - u := by linarith
    exact ⟨by positivity, by rw [div_le_one (by linarith)]; exact h1⟩
  have hT : (0 : ℚ) ≤ ieee.dl (1 / 1000) := by decide!
  have h1 := low_pass_rounded ieee decayEnv hexp binary32_mono binary64_mono (by decide!)
    (by decide!) (by decide!) (by decide!) binary32_idem 1 1 3 (13421773 / 134217728)
    zero_le_one (by decide!)
  have h2 := low_pass_rounded ieee decayEnv hexp binary32_mono binary64_mono (by decide!)
    (by decide!) (by decide!) (by decide!) binary32_idem 0 1 3 (13421773 / 134217728)
    zero_le_one (by decide!)
  have h3 := low_pass_rounded ieee decayEnv hexp binary32_mono binary64_mono (by decide!)
    (by decide!) (by decide!) (by decide!) binary32_idem 0 1 3 (1 / 2)
    zero_le_one (by decide!)
  exact ⟨h1.2.2.1, h2.2.2.2.2.1 hT, h3.2.2.2.2.2.1 hT (by decide!) (by decide!)⟩

section LoopFp
variable (F : Rounding α) (E : Env α)

theorem brush_count_dabs_to_fp_frame (b : Brush α) (x y p dt : α) :
    (brush_count_dabs_to_fp F E b x y p dt).2.settings = b.settings ∧
    (brush_count_dabs_to_fp F E b x y p dt).2.states STATE_X = b.states STATE_X ∧
    (brush_count_dabs_to_fp F E b x y p dt).2.states STATE_Y = b.states STATE_Y := by
  unfold brush_count_dabs_to_fp
  refine ⟨rfl, ?_, ?_⟩ <;>
    (by_cases h0 : b.states STATE_ACTUAL_RADIUS = 0 <;> simp only [h0, if_true, if_false] <;>
      split_ifs <;> simp [Function.update_apply])

theorem brush_count_dabs_to_fp_value (b : Brush α) (x y p dt : α) :
    (brush_count_dabs_to_fp F E b x y p dt).1
      = F.fl (F.fl (
          F.fl (F.fl (E.sqrtf (F.fl (F.fl (F.fl (x - b.states STATE_X) * F.fl (x - b.states STATE_X))
              + F.fl (F.fl (y - b.states STATE_Y) * F.fl (y - b.states STATE_Y))))
            / (brush_count_dabs_to_fp F E b x y p dt).2.states STATE_ACTUAL_RADIUS)
            * (b.settings BRUSH_DABS_PER_ACTUAL_RADIUS).base_value)
          + F.fl (F.fl (E.sqrtf (F.fl (F.fl (F.fl (x - b.states STATE_X) * F.fl (x - b.states STATE_X))
              + F.fl (F.fl (y - b.states STATE_Y) * F.fl (y - b.states STATE_Y))))
            / (if (if E.expf (b.settings BRUSH_RADIUS_LOGARITHMIC).base_value
                    < F.dl ACTUAL_RADIUS_MIN then F.fl (F.dl ACTUAL_RADIUS_MIN)
                  else E.expf (b.settings BRUSH_RADIUS_LOGARITHMIC).base_value) > ACTUAL_RADIUS_MAX
                then ACTUAL_RADIUS_MAX
                else (if E.expf (b.settings BRUSH_RADIUS_LOGARITHMIC).base_value
                    < F.dl ACTUAL_RADIUS_MIN then F.fl (F.dl ACTUAL_RADIUS_MIN)
                  else E.expf (b.settings BRUSH_RADIUS_LOGARITHMIC).base_value)))
            * (b.settings BRUSH_DABS_PER_BASIC_RADIUS).base_value))
        + F.fl (dt * (b.settings BRUSH_DABS_PER_SECOND).base_value)) := by
  unfold brush_count_dabs_to_fp
  by_cases h0 : b.states STATE_ACTUAL_RADIUS = 0 <;> simp only [h0, if_true, if_false] <;>
    split_ifs <;> simp [Function.update_apply]

theorem dab_move_fp_frame (x y p : α) (s : LoopVars α) :
    (dab_move_fp F x y p s).settings = s.b.settings ∧
    (dab_move_fp F x y p s).states STATE_X
      = F.fl (s.b.states STATE_X + F.fl (dab_frac_fp F s * F.fl (x - s.b.states STATE_X))) ∧
    (dab_move_fp F x y p s).states STATE_Y
      = F.fl (s.b.states STATE_Y + F.fl (dab_frac_fp F s * F.fl (y - s.b.states STATE_Y))) := by
  unfold dab_move_fp
  refine ⟨rfl, ?_, ?_⟩ <;> simp [Function.update_apply]

theorem dab_loop_body_fp_spec (x y p : α) (s s' : LoopVars α)
    (h : dab_loop_body_fp F E x y p s = .ok s') :
    ∃ b1 r b2 rc2,
      brush_update_settings_values E (dab_move_fp F x y p s) = .ok b1 ∧
      brush_prepare_and_draw_dab E b1 s.rc = .ok (r, b2, rc2) ∧
      s'.b = (brush_count_dabs_to_fp F E b2 x y p
        (F.fl (F.dl (s.dtime_left - F.dl (dab_frac_fp F s * F.dl (s.dtime_left - 0)))))).2 ∧
      s'.rc = rc2 ∧
      s'.dist_moved = (if s.dist_moved > 0 then 0 else s.dist_moved) ∧
      s'.dist_todo = (brush_count_dabs_to_fp F E b2 x y p
        (F.fl (F.dl (s.dtime_left - F.dl (dab_frac_fp F s * F.dl (s.dtime_left - 0)))))).1 ∧
      s'.dtime_left = F.dl (s.dtime_left - F.dl (dab_frac_fp F s * F.dl (s.dtime_left - 0))) ∧
      s'.painted = painted_update s.painted r := by
  unfold dab_loop_body_fp at h
  simp only [bind, Except.bind, pure, Except.pure] at h
  split at h
  · cases h
  · rename_i b1 hb1
    split at h
    · cases h
    · rename_i r hr
      cases h
      exact ⟨b1, r.1, r.2.1, r.2.2, hb1, hr, rfl, rfl, rfl, rfl, rfl, rfl⟩

theorem dab_loop_body_fp_total (hN : E.NDEBUG = true) (hG : E.G_DISABLE_ASSERT = true)
    (x y p : α) (s : LoopVars α) : ∃ s', dab_loop_body_fp F E x y p s = .ok s' := by
  obtain ⟨b1, hb1⟩ := brush_update_settings_values_total E hN (dab_move_fp F x y p s)
  obtain ⟨r, hr⟩ := brush_prepare_and_draw_dab_total E hG b1 s.rc
  unfold dab_loop_body_fp
  simp only [bind, Except.bind, pure, Except.pure, hb1, hr]
  exact ⟨_, rfl⟩

/-- With the identity as rounding, the loop with rounding is the loop of the
exact embedding. -/
theorem dab_loop_fp_id (x y p : α) : ∀ (fuel : Nat) (s : LoopVars α),
    dab_loop_fp ⟨id, id⟩ E x y p fuel s = dab_loop E x y p fuel s
  | 0, s => rfl
  | fuel + 1, s => by
    unfold dab_loop_fp dab_loop
    have hb : dab_loop_body_fp ⟨id, id⟩ E x y p s = dab_loop_body E x y p s := rfl
    rw [hb]
    have hf : dab_loop_fp ⟨id, id⟩ E x y p fuel = dab_loop E x y p fuel :=
      funext (dab_loop_fp_id x y p fuel)
    rw [hf]
    rfl

/-- With the identity as rounding, `any_surface_stroke_to_fp` is
`any_surface_stroke_to`. -/
theorem any_surface_stroke_to_fp_id (fuel : Nat) (b : Brush α) (rc : RenderContext α)
    (x y p dtime : α) :
    any_surface_stroke_to_fp ⟨id, id⟩ E fuel b rc x y p dtime
      = any_surface_stroke_to E fuel b rc x y p dtime := by
  unfold any_surface_stroke_to_fp any_surface_stroke_to
  have hl := dab_loop_fp_id E (virtual_cursor E b x y dtime).1 (virtual_cursor E b x y dtime).2.1 p
    fuel (loop_start E b rc x y p dtime)
  have hv : virtual_cursor_fp ⟨id, id⟩ E b x y dtime = virtual_cursor E b x y dtime := rfl
  have hs : loop_start_fp ⟨id, id⟩ E b rc x y p dtime = loop_start E b rc x y p dtime := rfl
  have ht : ∀ u v s, loop_tail_fp ⟨id, id⟩ E u v p s = loop_tail E u v p s := fun _ _ _ => rfl
  simp only [hv, hs, hl, ht]

end LoopFp

theorem far_count (b : Brush ℚ) (p dt : ℚ) (hS : b.settings = farSettings)
    (hX : b.states STATE_X = 10000000000) (hY : b.states STATE_Y = 0) :
    (brush_count_dabs_to_fp ieee releaseEnv b 10000001024 0 p dt).1 = 7158279 / 1048576 := by
  rw [brush_count_dabs_to_fp_value, hS, hX, hY]
  have e1 : (farSettings BRUSH_DABS_PER_ACTUAL_RADIUS).base_value = 0 := rfl
  have e3 : (farSettings BRUSH_DABS_PER_SECOND).base_value = 0 := rfl
  have z : ieee.fl 0 = 0 := by decide!
  rw [e1, e3, mul_zero, mul_zero, z]
  decide!

theorem far_loop_step (p : ℚ) (s : LoopVars ℚ) (hs : FarLoop s) :
    ieee.fl (s.dist_moved + s.dist_todo) ≥ 1 ∧
      ∃ s', dab_loop_body_fp ieee releaseEnv 10000001024 0 p s = .ok s' ∧ FarLoop s' := by
  obtain ⟨hS, hX, hY, hm, ht⟩ := hs
  constructor
  · rw [hm, ht]; decide!
  · obtain ⟨s', hs'⟩ := dab_loop_body_fp_total ieee releaseEnv rfl rfl 10000001024 0 p s
    refine ⟨s', hs', ?_⟩
    obtain ⟨b1, r, b2, rc2, hb1, hb2, e1, -, e3, e4, -, -⟩ :=
      dab_loop_body_fp_spec ieee releaseEnv 10000001024 0 p s s' hs'
    obtain ⟨m1, m2, m3⟩ := dab_move_fp_frame ieee 10000001024 0 p s
    have hfrac : dab_frac_fp ieee s = ieee.fl (ieee.dl (1 / (7158279 / 1048576))) := by
      unfold dab_frac_fp
      rw [hm, ht, if_neg (lt_irrefl 0)]
    rw [hfrac, hX] at m2
    rw [hfrac, hY] at m3
    have m2' : (dab_move_fp ieee 10000001024 0 p s).states STATE_X = 10000000000 := by
      rw [m2]; decide!
    have m3' : (dab_move_fp ieee 10000001024 0 p s).states STATE_Y = 0 := by
      rw [m3]; decide!
    obtain ⟨dt, rng, inputs, st, hb1e, hx1, hy1, -⟩ :=
      brush_update_settings_values_spec releaseEnv _ b1 hb1
    have hb1S : b1.settings = farSettings := by rw [hb1e]; exact m1.trans hS
    have hb1X : b1.states STATE_X = 10000000000 := by rw [hb1e]; exact hx1.trans m2'
    have hb1Y : b1.states STATE_Y = 0 := by rw [hb1e]; exact hy1.trans m3'
    obtain ⟨rng2, dab, hst2, hb2e, -⟩ := brush_prepare_and_draw_dab_spec releaseEnv b1 b2 s.rc rc2 r hb2
    have hb2S : b2.settings = farSettings := by rw [hb2e]; exact hb1S
    have hb2X : b2.states STATE_X = 10000000000 := by
      rw [hst2, smudge_update_of_ne releaseEnv b1 s.rc _ _ STATE_X (by decide) (by decide)
        (by decide) (by decide)]
      exact hb1X
    have hb2Y : b2.states STATE_Y = 0 := by
      rw [hst2, smudge_update_of_ne releaseEnv b1 s.rc _ _ STATE_Y (by decide) (by decide)
        (by decide) (by decide)]
      exact hb1Y
    obtain ⟨c1, c2, c3⟩ := brush_count_dabs_to_fp_frame ieee releaseEnv b2 10000001024 0 p
      (ieee.fl (ieee.dl (s.dtime_left - ieee.dl (dab_frac_fp ieee s * ieee.dl (s.dtime_left - 0)))))
    refine ⟨?_, ?_, ?_, ?_, ?_⟩
    · rw [e1]; exact c1.trans hb2S
    · rw [e1]; exact c2.trans hb2X
    · rw [e1]; exact c3.trans hb2Y
    · rw [e3, hm, if_neg (lt_irrefl 0)]
    · rw [e4]; exact far_count b2 p _ hb2S hb2X hb2Y

theorem far_loop_never_ends (p : ℚ) : ∀ (fuel : Nat) (s : LoopVars ℚ), FarLoop s →
    dab_loop_fp ieee releaseEnv 10000001024 0 p fuel s = .error Fault.out_of_fuel
  | 0, s, hs => by
    unfold dab_loop_fp
    rw [if_pos (far_loop_step p s hs).1]
  | fuel + 1, s, hs => by
    obtain ⟨hc, s', hs', hF⟩ := far_loop_step p s hs
    unfold dab_loop_fp
    rw [if_pos hc, hs']
    exact far_loop_never_ends p fuel s' hF
theorem far_loop_start :
    FarLoop (loop_start_fp ieee releaseEnv farBrush scenarioRc 10000001024 0 0 (1 / 8)) := by
  have hv : virtual_cursor_fp ieee releaseEnv farBrush 10000001024 0 (1 / 8)
      = (10000001024, 0, farBrush) := by
    have h1 : (virtual_cursor_fp ieee releaseEnv farBrush 10000001024 0 (1 / 8)).1
        = 10000001024 := by decide!
    have h2 : (virtual_cursor_fp ieee releaseEnv farBrush 10000001024 0 (1 / 8)).2.1 = 0 := by
      decide!
    have h3 : (virtual_cursor_fp ieee releaseEnv farBrush 10000001024 0 (1 / 8)).2.2
        = farBrush := rfl
    exact Prod.ext h1 (Prod.ext h2 h3)
  obtain ⟨c1, c2, c3⟩ := brush_count_dabs_to_fp_frame ieee releaseEnv farBrush 10000001024 0 0
    (ieee.fl (1 / 8))
  unfold loop_start_fp
  rw [hv]
  refine ⟨c1, c2.trans (by decide!), c3.trans (by decide!), by decide!, ?_⟩
  exact far_count farBrush 0 _ rfl (by decide!) (by decide!)

/-- C9, the code at the failing input, in binary32 and binary64: the brush
emits one dab per second (`DABS_PER_SECOND = 1`, the two other rates 0), is at
rest with `states[STATE_DIST] = 0.5`, and receives the event `(0, 0, 0,
dtime)` with `dtime = 0.49999997` (the `float` `0x3EFFFFFF`).  The `float`
sum `0.5 + 0.49999997` rounds to `1.0`, so the loop emits a dab; `frac` is
`1.00000012`, the time left after the dab is negative, and the event stores
`states[STATE_DIST] = -(2^24 - 1) / 2^48`, about `-5.96e-8`, outside
`[0, 1)`.  In exact arithmetic the same event emits no dab and stores
`1 - 2^-25`. -/
theorem rounded_event_stores_negative_dist :
    0 ≤ (tickBrush.settings BRUSH_DABS_PER_ACTUAL_RADIUS).base_value ∧
    0 ≤ (tickBrush.settings BRUSH_DABS_PER_BASIC_RADIUS).base_value ∧
    0 ≤ (tickBrush.settings BRUSH_DABS_PER_SECOND).base_value ∧
    (0 ≤ tickBrush.states STATE_DIST ∧ tickBrush.states STATE_DIST < 1) ∧
    binary32 (16777215 / 33554432) = 16777215 / 33554432 ∧
    (∃ b' rc', any_surface_stroke_to_fp ieee refEnv 5 tickBrush scenarioRc 0 0 0
        (16777215 / 33554432) = .ok (b', rc') ∧
      rc'.results.length = 1 ∧
      b'.states STATE_DIST = -(16777215 / 281474976710656) ∧
      ¬ (0 ≤ b'.states STATE_DIST ∧ b'.states STATE_DIST < 1)) ∧
    (∃ b' rc', any_surface_stroke_to refEnv 5 tickBrush scenarioRc 0 0 0
        (16777215 / 33554432) = .ok (b', rc') ∧
      rc'.results = [] ∧ b'.states STATE_DIST = 33554431 / 33554432) := by
  refine ⟨by decide!, by decide!, by decide!, by decide!, by decide!, ?_, ?_⟩
  · have hev : (match any_surface_stroke_to_fp ieee refEnv 5 tickBrush scenarioRc 0 0 0
          (16777215 / 33554432) with
        | .ok r => decide (r.2.results.length = 1 ∧
            r.1.states STATE_DIST = -(16777215 / 281474976710656))
        | .error _ => false) = true := by decide!
    cases hr : any_surface_stroke_to_fp ieee refEnv 5 tickBrush scenarioRc 0 0 0
        (16777215 / 33554432) with
    | error e => rw [hr] at hev; simp at hev
    | ok r =>
      rw [hr] at hev
      obtain ⟨b', rc'⟩ := r
      simp only [decide_eq_true_eq] at hev
      refine ⟨b', rc', rfl, hev.1, hev.2, ?_⟩
      rw [hev.2]
      norm_num
  · have hev : (match any_surface_stroke_to refEnv 5 tickBrush scenarioRc 0 0 0
          (16777215 / 33554432) with
        | .ok r => decide (r.2.results = [] ∧ r.1.states STATE_DIST = 33554431 / 33554432)
        | .error _ => false) = true := by decide!
    cases hr : any_surface_stroke_to refEnv 5 tickBrush scenarioRc 0 0 0
        (16777215 / 33554432) with
    | error e => rw [hr] at hev; simp at hev
    | ok r =>
      rw [hr] at hev
      obtain ⟨b', rc'⟩ := r
      simp only [decide_eq_true_eq] at hev
      exact ⟨b', rc', rfl, hev.1, hev.2⟩

/-- C24, the code at two failing inputs, in binary32 and binary64; both meet
every hypothesis of the claim (non-negative rates, `dist` in `[0, 1)`,
`0 < dtime <= 5`, `dist_todo <= 300`).  First input: the brush with one dab
per second at rest with `dist = 0.5` and `dtime = 0.49999997`: `dist_moved +
dist_todo` is below 1 but its `float` sum is `1.0`, the loop runs, and the
iteration has `frac = 1.00000012 > 1`.  Second input: the cursor state is at
`x = 1e10`, where `float`s are 1024 apart, and the sample at `1e10 + 1024`,
`dist_todo = 6.83`: every iteration adds `frac * 1024 = 150` to
`states[STATE_X]`, which rounds back to `1e10`, so `dist_todo` never
decreases and the loop does not end, whatever the bound on its iterations;
in exact arithmetic the same event ends after 6 dabs. -/
theorem rounded_dab_loop_fails :
    (0 ≤ (tickBrush.settings BRUSH_DABS_PER_ACTUAL_RADIUS).base_value ∧
      0 ≤ (tickBrush.settings BRUSH_DABS_PER_BASIC_RADIUS).base_value ∧
      0 ≤ (tickBrush.settings BRUSH_DABS_PER_SECOND).base_value ∧
      (0 ≤ tickBrush.states STATE_DIST ∧ tickBrush.states STATE_DIST < 1) ∧
      ((0 : ℚ) < 16777215 / 33554432 ∧ (16777215 / 33554432 : ℚ) ≤ 5) ∧
      (loop_start_fp ieee refEnv tickBrush scenarioRc 0 0 0 (16777215 / 33554432)).dist_moved
        = 1 / 2 ∧
      (loop_start_fp ieee refEnv tickBrush scenarioRc 0 0 0 (16777215 / 33554432)).dist_todo
        = 16777215 / 33554432 ∧
      (1 / 2 + 16777215 / 33554432 : ℚ) < 1 ∧
      ieee.fl (1 / 2 + 16777215 / 33554432) = 1 ∧
      dab_frac_fp ieee (loop_start_fp ieee refEnv tickBrush scenarioRc 0 0 0
          (16777215 / 33554432)) = 1 + 1 / 8388608 ∧
      ¬ (dab_frac_fp ieee (loop_start_fp ieee refEnv tickBrush scenarioRc 0 0 0
          (16777215 / 33554432)) ≤ 1)) ∧
    (0 ≤ (farBrush.settings BRUSH_DABS_PER_ACTUAL_RADIUS).base_value ∧
      0 ≤ (farBrush.settings BRUSH_DABS_PER_BASIC_RADIUS).base_value ∧
      0 ≤ (farBrush.settings BRUSH_DABS_PER_SECOND).base_value ∧
      (0 ≤ farBrush.states STATE_DIST ∧ farBrush.states STATE_DIST < 1) ∧
      binary32 10000000000 = 10000000000 ∧ binary32 10000001024 = 10000001024 ∧
      (loop_start_fp ieee releaseEnv farBrush scenarioRc 10000001024 0 0 (1 / 8)).dist_todo
        = 7158279 / 1048576 ∧
      (∀ fuel, dab_loop_fp ieee releaseEnv 10000001024 0 0 fuel
          (loop_start_fp ieee releaseEnv farBrush scenarioRc 10000001024 0 0 (1 / 8))
        = .error Fault.out_of_fuel) ∧
      (∀ fuel, any_surface_stroke_to_fp ieee releaseEnv fuel farBrush scenarioRc
          10000001024 0 0 (1 / 8) = .error Fault.out_of_fuel) ∧
      (∃ r, any_surface_stroke_to releaseEnv 6 farBrush scenarioRc 10000001024 0 0 (1 / 8)
          = .ok r ∧ r.2.results.length = 6)) := by
  have hloop : ∀ fuel, dab_loop_fp ieee releaseEnv 10000001024 0 0 fuel
      (loop_start_fp ieee releaseEnv farBrush scenarioRc 10000001024 0 0 (1 / 8))
        = .error Fault.out_of_fuel :=
    fun fuel => far_loop_never_ends 0 fuel _ far_loop_start
  have hfrac : dab_frac_fp ieee (loop_start_fp ieee refEnv tickBrush scenarioRc 0 0 0
      (16777215 / 33554432)) = 1 + 1 / 8388608 := by decide!
  refine ⟨⟨by decide!, by decide!, by decide!, by decide!, by norm_num, by decide!, by decide!,
    by norm_num, by decide!, hfrac, ?_⟩,
    ⟨by decide!, by decide!, by decide!, by decide!, by decide!, by decide!,
      far_loop_start.2.2.2.2, hloop, ?_, ?_⟩⟩
  · rw [hfrac]; norm_num
  · intro fuel
    have h1 : (virtual_cursor_fp ieee releaseEnv farBrush 10000001024 0 (1 / 8)).1
        = 10000001024 := by decide!
    have h2 : (virtual_cursor_fp ieee releaseEnv farBrush 10000001024 0 (1 / 8)).2.1 = 0 := by
      decide!
    have hd : ¬ ((1 / 8 : ℚ) > 5 ∨
        (loop_start_fp ieee releaseEnv farBrush scenarioRc 10000001024 0 0 (1 / 8)).dist_todo
          > 300) := by
      rw [far_loop_start.2.2.2.2]; norm_num
    unfold any_surface_stroke_to_fp
    simp only [h1, h2, hd, hloop fuel, if_false, bind, Except.bind,
      show ¬ ((1 / 8 : ℚ) ≤ 0) by norm_num]
  · have hev : (match any_surface_stroke_to releaseEnv 6 farBrush scenarioRc 10000001024 0 0
          (1 / 8) with
        | .ok r => decide (r.2.results.length = 6)
        | .error _ => false) = true := by decide!
    cases hr : any_surface_stroke_to releaseEnv 6 farBrush scenarioRc 10000001024 0 0 (1 / 8) with
    | error e => rw [hr] at hev; simp at hev
    | ok r =>
      rw [hr] at hev
      simp only [decide_eq_true_eq] at hev
      exact ⟨r, rfl, hev⟩

end MyPaint
